import Mathlib

/-!
# Windows printing bindings (`printer.go`): embedding and checked properties

The Go package is a thin layer over the print spooler.  Its own logic is the
order of the OS calls, the sizing of the buffers handed to them, and the
decoding of the buffers the OS fills.  The embedding keeps exactly that:

* the OS is an arbitrary function from the calls issued so far and the next
  call to a reply (`OS`);
* a Go function is a computation that issues calls, records them in a trace and
  either returns or panics (`Go`);
* Go's `int`/`uint` are `w` bits wide (`w = 32` on windows/386, `w = 64` on
  windows/amd64); every conversion and product that can overflow wraps.
-/

namespace Printer

/-! ## Machine integers -/

/-- Conversion to `uint32`. -/
def uint32 (x : Int) : Nat := (x % 2 ^ 32).toNat

/-- Conversion to `uint16`. -/
def uint16 (x : Int) : Nat := (x % 2 ^ 16).toNat

/-- Conversion to a signed integer of `w` bits (two's complement wrap). -/
def wrapInt (w : Nat) (x : Int) : Int := (x + 2 ^ (w - 1)) % 2 ^ w - 2 ^ (w - 1)

/-- Conversion to `int16`. -/
def int16 (x : Int) : Int := wrapInt 16 x

/-- Conversion to `int32`. -/
def int32 (x : Int) : Int := wrapInt 32 x

/-- Conversion to Go's `int` on a platform whose `int` has `w` bits. -/
def int (w : Nat) (x : Int) : Int := wrapInt w x

/-- Conversion to Go's `uint` on a platform whose `uint` has `w` bits. -/
def uint (w : Nat) (x : Int) : Nat := (x % 2 ^ w).toNat

/-! ## Data model -/

/-- Type `syscall.Errno`; a nil `error` is `none`. -/
abbrev Errno := Nat

def ERROR_INSUFFICIENT_BUFFER : Errno := 122

def GETDEFAULT_ERROR : Int := -50

def DC_PAPERS : Nat := 2
def DC_PAPERSIZE : Nat := 3
def DC_ENUMRESOLUTIONS : Nat := 13
def DC_PAPERNAMES : Nat := 16

def DM_COPY : Nat := 2
def DM_OUT_BUFFER : Nat := DM_COPY

def DM_ORIENTATION : Nat := 1
def DM_PAPERSIZE : Nat := 2
def DM_COPIES : Nat := 0x100
def DM_PRINTQUALITY : Nat := 0x400
def DM_COLOR : Nat := 0x800
def DM_DUPLEX : Nat := 0x1000
def DM_YRESOLUTION : Nat := 0x2000
def DM_COLLATE : Nat := 0x8000
def DM_MEDIATYPE : Nat := 0x02000000

def PRINTER_ENUM_LOCAL : Nat := 2
def PRINTER_ENUM_CONNECTIONS : Nat := 4

/-- Record `PRINTER_INFO_5`.  The two pointer fields are represented by the
UTF-16 units found in memory at the pointer. -/
structure PRINTER_INFO_5 where
  PrinterName : List Nat
  PortName : List Nat
  Attributes : Nat
  DeviceNotSelectedTimeout : Nat
  TransmissionRetryTimeout : Nat
  deriving DecidableEq, Inhabited

/-- Record `DEVICE_MODE`; every field holds the raw value stored by the OS and
is read through the conversion to its declared type. -/
structure DEVICE_MODE where
  DeviceName : List Nat
  SpecVersion : Nat
  DriverVersion : Nat
  Size : Nat
  DriverExtra : Nat
  Fields : Nat
  Orientation : Int
  PaperSize : Int
  PaperLength : Int
  PaperWidth : Int
  Scale : Int
  Copies : Int
  DefaultSource : Int
  PrintQuality : Int
  Color : Int
  Duplex : Int
  YResolution : Int
  TTOption : Int
  Collate : Int
  FormName : List Nat
  LogPixels : Nat
  BitsPerPel : Nat
  PelsWidth : Nat
  PelsHeight : Nat
  DisplayFlags : Nat
  DisplayFrequency : Nat
  ICMMethod : Nat
  ICMIntent : Nat
  MediaType : Nat
  DitherType : Nat
  ICCManufacturer : Nat
  ICCModel : Nat
  PanningWidth : Nat
  PanningHeight : Nat
  deriving DecidableEq, Inhabited

/-- Type `Point` of the paper-size query. -/
structure Point where
  X : Nat
  Y : Nat
  deriving DecidableEq, Inhabited

/-! ## The OS boundary -/

/-- One call of a `//sys` stub.  A pointer to a Go buffer is recorded as the
number of bytes of that buffer; `none` is a nil pointer.  Strings are recorded
as the NUL-terminated UTF-16 units passed. -/
inductive Call where
  | GetDefaultPrinter (bufBytes : Nat) (bufN : Nat)
  | EnumPrinters (flags : Nat) (level : Nat) (bufBytes : Nat) (bufN : Nat)
  | OpenPrinter (name : List Nat)
  | ClosePrinter (h : Nat)
  | DeviceCapabilities (pDevice : List Nat) (pPort : List Nat) (fwCapability : Nat)
      (pOutput : Option Nat)
  | DocumentProperties (hWnd : Nat) (h : Nat) (name : List Nat) (bufOut : Option Nat)
      (mode : Nat)
  deriving DecidableEq

/-- What a stub hands back: its `err` result, its `length` result (raw, read
through the conversion to the declared result type), the value left behind the
size out-pointer (`bufN`, `needed`), the bytes stored into the output buffer,
the printer records stored by `EnumPrinters` (their number is `returned`), the
device-mode record stored by `DocumentProperties`, and the handle stored by
`OpenPrinter`. -/
structure Reply where
  err : Option Errno
  length : Int
  needed : Int
  out : List Nat
  printers : List PRINTER_INFO_5
  devMode : DEVICE_MODE
  handle : Nat
  deriving Inhabited

/-- The OS: the reply to a call, which may depend on all calls issued before. -/
abbrev OS := List Call → Call → Reply

/-- Run-time panics of the Go code. -/
inductive Panic where
  | indexOutOfRange
  | sliceBounds
  | makeLen
  | nulInString
  deriving DecidableEq

/-- A Go computation: given the OS and the calls issued so far, it panics or
returns, and extends the list of issued calls. -/
def Go (α : Type) : Type := OS → List Call → Except Panic α × List Call

def Go.pure {α : Type} (a : α) : Go α := fun _ tr => (Except.ok a, tr)

def Go.bind {α β : Type} (m : Go α) (f : α → Go β) : Go β := fun os tr =>
  match m os tr with
  | (Except.ok a, tr1) => f a os tr1
  | (Except.error p, tr1) => (Except.error p, tr1)

instance : Monad Go where
  pure := Go.pure
  bind := Go.bind

/-- A run-time panic. -/
def throwPanic {α : Type} (p : Panic) : Go α := fun _ tr => (Except.error p, tr)

/-- Issue one OS call. -/
def sys (c : Call) : Go Reply := fun os tr => (Except.ok (os tr c), tr ++ [c])

/-- Statement `defer d` followed by `body`: `d` runs when `body` returns or
panics, and its result is discarded. -/
def withDefer {α : Type} (d : Go Unit) (body : Go α) : Go α := fun os tr =>
  match body os tr with
  | (res, tr1) => (res, (d os tr1).2)

/-- Outcome of a Go function started with no call issued yet. -/
def Go.result {α : Type} (m : Go α) (os : OS) : Except Panic α := (m os []).1

/-- Calls issued by a Go function started with no call issued yet. -/
def Go.calls {α : Type} (m : Go α) (os : OS) : List Call := (m os []).2

/-! ## Go built-ins -/

/-- Built-in `make([]T, n)` for numeric `T`: a zeroed slice; panics when `n` is
negative or exceeds the largest `int`.  An allocation whose length fits `int`
is taken to succeed. -/
def make (w : Nat) (n : Int) : Go (List Nat) :=
  if 0 ≤ n ∧ n < 2 ^ (w - 1) then pure (List.replicate n.toNat 0) else throwPanic Panic.makeLen

/-- Built-in `make([]int, n)`. -/
def makeInts (w : Nat) (n : Int) : Go (List Int) :=
  if 0 ≤ n ∧ n < 2 ^ (w - 1) then pure (List.replicate n.toNat 0) else throwPanic Panic.makeLen

/-- Built-in `len`. -/
def len {α : Type} (b : List α) : Int := b.length

/-- Expression `&b[0]` for a slice of elements of `k` bytes: panics on an empty
slice; the pointer is recorded as the number of bytes behind it. -/
def addr0 {α : Type} (k : Nat) (b : List α) : Go Nat :=
  if b.length = 0 then throwPanic Panic.indexOutOfRange else pure (k * b.length)

/-- Expression `b[i]`. -/
def index {α : Type} [Inhabited α] (b : List α) (i : Int) : Go α :=
  if 0 ≤ i ∧ i < b.length then pure (b.getD i.toNat default) else throwPanic Panic.indexOutOfRange

/-- Statement `b[i] = v`. -/
def store {α : Type} (b : List α) (i : Int) (v : α) : Go (List α) :=
  if 0 ≤ i ∧ i < b.length then pure (b.set i.toNat v) else throwPanic Panic.indexOutOfRange

/-- Expression `b[lo:hi]`. -/
def slice {α : Type} (b : List α) (lo hi : Int) : Go (List α) :=
  if 0 ≤ lo ∧ lo ≤ hi ∧ hi ≤ b.length then pure ((b.drop lo.toNat).take (hi.toNat - lo.toNat))
  else throwPanic Panic.sliceBounds

/-- Loop `for _, x := range xs` (also `for i := 0; i < n; i++` over the indices)
with loop-carried state. -/
def forEach {α σ : Type} : List α → (α → σ → Go σ) → σ → Go σ
  | [], _, s => pure s
  | x :: xs, body, s => do
    let s1 ← body x s
    forEach xs body s1

/-- Indices `0, 1, ..., n-1` visited by `for i := 0; i < n; i++`. -/
def upTo (n : Int) : List Int := (List.range n.toNat).map Int.ofNat

/-! ## Buffers shared with the OS -/

/-- Little-endian value of a byte string. -/
def leValue : List Nat → Nat
  | [] => 0
  | b :: bs => b + 256 * leValue bs

/-- Little-endian bytes of a value, `k` of them. -/
def leBytes : Nat → Nat → List Nat
  | 0, _ => []
  | k + 1, x => x % 256 :: leBytes k (x / 256)

/-- Memory of a slice whose elements take `k` bytes each. -/
def memOf (k : Nat) (b : List Nat) : List Nat := b.flatMap (leBytes k)

/-- Elements of `n` consecutive `k`-byte cells. -/
def cells (k : Nat) : Nat → List Nat → List Nat
  | 0, _ => []
  | n + 1, m => leValue (m.take k) :: cells k n (m.drop k)

/-- Memory after the OS stored the bytes `out` at its start. -/
def overlay (old out : List Nat) : List Nat :=
  (out.take old.length).map (fun x => x % 256) ++ old.drop out.length

/-- Slice of `k`-byte elements after the OS stored `out` through `&b[0]`. -/
def osWrite (k : Nat) (b : List Nat) (out : List Nat) : List Nat :=
  cells k b.length (overlay (memOf k b) out)

/-! ## Library functions used by the package -/

def surr1 : Nat := 0xd800
def surr2 : Nat := 0xdc00
def surr3 : Nat := 0xe000
def surrSelf : Nat := 0x10000
def replacementChar : Nat := 0xFFFD

/-- Function `utf16.Decode`; the flag says that the unit at the head was
consumed as the low half of a surrogate pair. -/
def utf16Decode : Bool → List Nat → List Char
  | _, [] => []
  | true, _ :: rest => utf16Decode false rest
  | false, r :: rest =>
    if r < surr1 ∨ surr3 ≤ r then Char.ofNat r :: utf16Decode false rest
    else if surr1 ≤ r ∧ r < surr2 ∧ surr2 ≤ rest.headD 0 ∧ rest.headD 0 < surr3 then
      Char.ofNat ((r - surr1) * 1024 + (rest.headD 0 - surr2) + surrSelf) :: utf16Decode true rest
    else Char.ofNat replacementChar :: utf16Decode false rest

/-- Function `syscall.UTF16ToString`: the text up to the first NUL unit. -/
def UTF16ToString (s : List Nat) : String :=
  String.mk (utf16Decode false (s.takeWhile (fun v => v != 0)))

/-- Function `utf16.Encode` on valid runes. -/
def utf16Encode : List Char → List Nat
  | [] => []
  | c :: cs =>
    if c.toNat < surrSelf then c.toNat :: utf16Encode cs
    else (surr1 + ((c.toNat - surrSelf) / 1024) % 1024)
      :: (surr2 + (c.toNat - surrSelf) % 1024) :: utf16Encode cs

/-- Function `syscall.StringToUTF16`: NUL-terminated units; panics when the
string holds a NUL. -/
def StringToUTF16 (s : String) : Go (List Nat) :=
  if (0 : Nat) ∈ s.data.map Char.toNat then throwPanic Panic.nulInString
  else pure (utf16Encode (s.data ++ [Char.ofNat 0]))

/-- Function `strings.Compare`. -/
def Compare (a b : String) : Int :=
  if a = b then 0 else if a < b then -1 else 1

/-- Pieces of `s` between occurrences of the character `sep`; `cur` holds the
current piece reversed. -/
def splitAux (sep : Char) : List Char → List Char → List (List Char)
  | [], cur => [cur.reverse]
  | c :: cs, cur =>
    if c = sep then cur.reverse :: splitAux sep cs [] else splitAux sep cs (c :: cur)

/-- Function `strings.Split` for a separator of one character. -/
def Split (s : String) (sep : Char) : List String :=
  (splitAux sep s.data []).map String.mk

/-- View `(*[1024]uint16)(unsafe.Pointer(p))[:]` of the units at a pointer. -/
def array1024 (units : List Nat) : List Nat := (units.take 1024).map (fun u => uint16 u)

/-- Expression `(*[1024]T)(unsafe.Pointer(&buf[0]))[:returned]`: the first
`returned` records at the start of the buffer; panics beyond the array length. -/
def view1024 {α : Type} (records : List α) (returned : Int) : Go (List α) :=
  if 0 ≤ returned ∧ returned ≤ 1024 then pure (records.take returned.toNat)
  else throwPanic Panic.sliceBounds

/-- Memory of a `[]Point`: `X` then `Y`, four bytes each. -/
def pointMem (b : List Point) : List Nat := b.flatMap (fun p => leBytes 4 p.X ++ leBytes 4 p.Y)

/-- The `n` points held by `8 * n` bytes. -/
def pointCells : Nat → List Nat → List Point
  | 0, _ => []
  | n + 1, m => ⟨leValue (m.take 4), leValue ((m.drop 4).take 4)⟩ :: pointCells n (m.drop 8)

/-- Built-in `make([]Point, n)`. -/
def makePoints (w : Nat) (n : Int) : Go (List Point) :=
  if 0 ≤ n ∧ n < 2 ^ (w - 1) then pure (List.replicate n.toNat ⟨0, 0⟩)
  else throwPanic Panic.makeLen

/-- A `[]Point` after the OS stored `out` through `&b[0]`. -/
def osWritePoints (b : List Point) (out : List Nat) : List Point :=
  pointCells b.length (overlay (pointMem b) out)

/-! ## The package -/

/-- Function `Default`. -/
def Default (w : Nat) : Go (String × Option Errno) := do
  let b ← make w 3
  let n := uint32 (len b)
  let p ← addr0 2 b
  let r ← sys (Call.GetDefaultPrinter p n)
  let b := osWrite 2 b r.out
  let n := uint32 r.needed
  if r.err ≠ none then
    if r.err ≠ some ERROR_INSUFFICIENT_BUFFER then pure ("", r.err)
    else do
      let b ← make w n
      let p ← addr0 2 b
      let r ← sys (Call.GetDefaultPrinter p n)
      let b := osWrite 2 b r.out
      if r.err ≠ none then pure ("", r.err)
      else pure (UTF16ToString b, none)
  else pure (UTF16ToString b, none)

/-- Lines 167 to 173 of `ReadNames`: the names of the records the last
`EnumPrinters` call stored; `returned` is their number. -/
def readNamesDecode (r : Reply) : Go (Option (List String) × Option Errno) := do
  let returned := len r.printers
  let ps ← view1024 r.printers returned
  let names ← forEach ps
    (fun p names => pure (names ++ [UTF16ToString (array1024 p.PrinterName)])) []
  pure (some names, none)

/-- Function `ReadNames`; a nil slice is `none`. -/
def ReadNames (w : Nat) : Go (Option (List String) × Option Errno) := do
  let flags := PRINTER_ENUM_LOCAL ||| PRINTER_ENUM_CONNECTIONS
  let buf ← make w 1
  let p ← addr0 1 buf
  let r ← sys (Call.EnumPrinters flags 5 p (uint32 (len buf)))
  if r.err ≠ none then
    if r.err ≠ some ERROR_INSUFFICIENT_BUFFER then pure (none, r.err)
    else do
      let needed := uint32 r.needed
      let buf ← make w needed
      let p ← addr0 1 buf
      let r ← sys (Call.EnumPrinters flags 5 p (uint32 (len buf)))
      if r.err ≠ none then pure (none, r.err)
      else readNamesDecode r
  else readNamesDecode r

/-- Lines 240 to 248 of `GetPrinterPort`: the scan of the records the last
`EnumPrinters` call stored; `returned` is their number. -/
def printerPortScan (printerName : String) (printerPort : String) (r : Reply) :
    Go (String × Option Errno) := do
  let returned := len r.printers
  let ps ← view1024 r.printers returned
  let printerPort ← forEach ps
    (fun p printerPort =>
      if Compare (UTF16ToString (array1024 p.PrinterName)) printerName = 0 then
        index (Split (UTF16ToString (array1024 p.PortName)) ',') 0
      else pure printerPort) printerPort
  pure (printerPort, none)

/-- Function `GetPrinterPort`. -/
def GetPrinterPort (w : Nat) (printerName : String) : Go (String × Option Errno) := do
  let printerPort := "LPT1"
  let flags := PRINTER_ENUM_LOCAL ||| PRINTER_ENUM_CONNECTIONS
  let buf ← make w 1
  let p ← addr0 1 buf
  let r ← sys (Call.EnumPrinters flags 5 p (uint32 (len buf)))
  if r.err ≠ none then
    if r.err ≠ some ERROR_INSUFFICIENT_BUFFER then pure ("", r.err)
    else do
      let needed := uint32 r.needed
      let buf ← make w needed
      let p ← addr0 1 buf
      let r ← sys (Call.EnumPrinters flags 5 p (uint32 (len buf)))
      if r.err ≠ none then pure ("", r.err)
      else printerPortScan printerName printerPort r
  else printerPortScan printerName printerPort r

/-- Function `GetAllMediaNames`. -/
def GetAllMediaNames (w : Nat) (printerName port : String) :
    Go (Option (List String) × Option Errno) := do
  let paperNameLength : Int := 64
  let dev ← StringToUTF16 printerName
  let prt ← StringToUTF16 port
  let r ← sys (Call.DeviceCapabilities dev prt DC_PAPERNAMES none)
  let res := uint32 r.length
  let nReturned := int w res
  if r.err ≠ none ∨ nReturned ≤ 0 then pure (none, r.err)
  else do
    let buf ← make w (int w (nReturned * paperNameLength))
    let dev ← StringToUTF16 printerName
    let prt ← StringToUTF16 port
    let p ← addr0 2 buf
    let r ← sys (Call.DeviceCapabilities dev prt DC_PAPERNAMES (some p))
    let buf := osWrite 2 buf r.out
    if r.err ≠ none then pure (none, r.err)
    else do
      let names ← forEach (upTo nReturned)
        (fun i names => do
          let s ← slice buf (int w (i * paperNameLength)) (int w ((i + 1) * paperNameLength))
          let name := UTF16ToString s
          pure (names ++ [name])) []
      pure (some names, r.err)

/-- Function `GetAllMediaSizes`. -/
def GetAllMediaSizes (w : Nat) (printerName port : String) :
    Go (Option (List Int) × Option Errno) := do
  let dev ← StringToUTF16 printerName
  let prt ← StringToUTF16 port
  let r ← sys (Call.DeviceCapabilities dev prt DC_PAPERSIZE none)
  let res := uint32 r.length
  let nPapers := int w res
  if r.err ≠ none ∨ nPapers ≤ 0 then pure (none, r.err)
  else do
    let buf ← makePoints w nPapers
    let dev ← StringToUTF16 printerName
    let prt ← StringToUTF16 port
    let p ← addr0 8 buf
    let r ← sys (Call.DeviceCapabilities dev prt DC_PAPERSIZE (some p))
    let buf := osWritePoints buf r.out
    if r.err ≠ none then pure (none, r.err)
    else do
      let mediaSizes ← makeInts w (int w (nPapers * 2))
      let mediaSizes ← forEach buf.enum
        (fun im mediaSizes => do
          let i : Int := im.1
          let mediaID := im.2
          let mediaSizes ← store mediaSizes (int w (i * 2)) (int w mediaID.X)
          store mediaSizes (int w (int w (i * 2) + 1)) (int w mediaID.Y)) mediaSizes
      pure (some mediaSizes, none)

/-- Function `GetAllMediaIDs`. -/
def GetAllMediaIDs (w : Nat) (printerName port : String) :
    Go (Option (List Int) × Option Errno) := do
  let dev ← StringToUTF16 printerName
  let prt ← StringToUTF16 port
  let r ← sys (Call.DeviceCapabilities dev prt DC_PAPERS none)
  let res := uint32 r.length
  let numSizes := int w res
  if r.err ≠ none ∨ numSizes ≤ 0 then pure (none, r.err)
  else do
    let buf ← make w numSizes
    let dev ← StringToUTF16 printerName
    let prt ← StringToUTF16 port
    let p ← addr0 2 buf
    let r ← sys (Call.DeviceCapabilities dev prt DC_PAPERS (some p))
    let buf := osWrite 2 buf r.out
    if r.err ≠ none then pure (none, r.err)
    else do
      let mediaIDs ← makeInts w numSizes
      let mediaIDs ← forEach buf.enum
        (fun im mediaIDs => do
          let i : Int := im.1
          let mediaID := im.2
          store mediaIDs i (int w mediaID)) mediaIDs
      pure (some mediaIDs, none)

/-- Function `GetAllResolutions`; an element of `[]uint` takes `w / 8` bytes. -/
def GetAllResolutions (w : Nat) (printerName port : String) :
    Go (Option (List Int) × Option Errno) := do
  let dev ← StringToUTF16 printerName
  let prt ← StringToUTF16 port
  let r ← sys (Call.DeviceCapabilities dev prt DC_ENUMRESOLUTIONS none)
  let res := uint32 r.length
  let nResolutions := int w res
  if r.err ≠ none ∨ nResolutions ≤ 0 then pure (none, r.err)
  else do
    let buf ← make w (int w (nResolutions * 2))
    let dev ← StringToUTF16 printerName
    let prt ← StringToUTF16 port
    let p ← addr0 (w / 8) buf
    let r ← sys (Call.DeviceCapabilities dev prt DC_ENUMRESOLUTIONS (some p))
    let buf := osWrite (w / 8) buf r.out
    if r.err ≠ none then pure (none, r.err)
    else do
      let resolutions ← makeInts w (int w (nResolutions * 2))
      let resolutions ← forEach buf.enum
        (fun ir resolutions => do
          let i : Int := ir.1
          let resolution := ir.2
          store resolutions i (int w resolution)) resolutions
      pure (some resolutions, none)

/-- Paper-size part of `GetDefaultSettings` (lines 359 to 381). -/
def paperSizeDefault (w : Nat) (printerName port : String) (pDevMode : DEVICE_MODE)
    (defIndices : List Int) : Go (List Int) := do
  if uint32 pDevMode.Fields &&& DM_PAPERSIZE > 0 then
    let defIndices ← store defIndices 0 (int w (int16 pDevMode.PaperSize))
    let dev ← StringToUTF16 printerName
    let prt ← StringToUTF16 port
    let r ← sys (Call.DeviceCapabilities dev prt DC_PAPERS none)
    let res := uint32 r.length
    let numSizes := int w res
    if r.err = none ∧ numSizes > 0 then
      let papers ← make w (int w (numSizes * 2))
      let dev ← StringToUTF16 printerName
      let prt ← StringToUTF16 port
      let p ← addr0 2 papers
      let r ← sys (Call.DeviceCapabilities dev prt DC_PAPERS (some p))
      let papers := osWrite 2 papers r.out
      let present := (upTo (len papers)).foldl
        (fun present size => if size = int w (int16 pDevMode.PaperSize) then true else present)
        false
      if !present then
        let first ← index papers 0
        store defIndices 0 (int w first)
      else pure defIndices
    else pure defIndices
  else pure defIndices

/-- Assignment `defIndices[i] = int(field)` guarded by `Fields & bit > 0`. -/
def setIfPresent (pDevMode : DEVICE_MODE) (bit : Nat) (i : Int) (v : Int)
    (defIndices : List Int) : Go (List Int) :=
  if uint32 pDevMode.Fields &&& bit > 0 then store defIndices i v else pure defIndices

/-- Lines 353 to 413 of `GetDefaultSettings`: the nine entries read from the
device-mode record found at the start of the filled buffer. -/
def readDefaults (w : Nat) (printerName port : String) (pDevMode : DEVICE_MODE) :
    Go (List Int) := do
  let defIndices ← makeInts w 9
  let defIndices ← forEach (upTo (len defIndices))
    (fun i defIndices => store defIndices i GETDEFAULT_ERROR) defIndices
  let defIndices ← paperSizeDefault w printerName port pDevMode defIndices
  let defIndices ←
    setIfPresent pDevMode DM_MEDIATYPE 1 (int w (uint32 pDevMode.MediaType)) defIndices
  let defIndices ←
    setIfPresent pDevMode DM_YRESOLUTION 2 (int w (int16 pDevMode.YResolution)) defIndices
  let defIndices ←
    setIfPresent pDevMode DM_PRINTQUALITY 3 (int w (int16 pDevMode.PrintQuality)) defIndices
  let defIndices ←
    setIfPresent pDevMode DM_COPIES 4 (int w (int16 pDevMode.Copies)) defIndices
  let defIndices ←
    setIfPresent pDevMode DM_ORIENTATION 5 (int w (int16 pDevMode.Orientation)) defIndices
  let defIndices ←
    setIfPresent pDevMode DM_DUPLEX 6 (int w (int16 pDevMode.Duplex)) defIndices
  let defIndices ←
    setIfPresent pDevMode DM_COLLATE 7 (int w (int16 pDevMode.Collate)) defIndices
  setIfPresent pDevMode DM_COLOR 8 (int w (int16 pDevMode.Color)) defIndices

/-- Function `GetDefaultSettings`. -/
def GetDefaultSettings (w : Nat) (printerName port : String) :
    Go (Option (List Int) × Option Errno) := do
  let name ← StringToUTF16 printerName
  let r ← sys (Call.OpenPrinter name)
  let h := r.handle
  if r.err ≠ none then pure (none, r.err)
  else
    withDefer (do let _ ← sys (Call.ClosePrinter h); pure ()) (do
      let name ← StringToUTF16 printerName
      let r ← sys (Call.DocumentProperties 0 h name none 0)
      let res := int32 r.length
      let needed := int w res
      if r.err ≠ none ∨ needed ≤ 0 then pure (none, r.err)
      else do
        let buf ← make w needed
        let name ← StringToUTF16 printerName
        let p ← addr0 1 buf
        let r ← sys (Call.DocumentProperties 0 h name (some p) DM_OUT_BUFFER)
        if r.err ≠ none then pure (none, r.err)
        else do
          let _ ← addr0 1 buf
          let pDevMode := r.devMode
          let defIndices ← readDefaults w printerName port pDevMode
          pure (some defIndices, none))

/-! ## Vocabulary of the properties -/

/-- A reply with no error and nothing stored. -/
def quiet : Reply :=
  { err := none, length := 0, needed := 0, out := [], printers := [],
    devMode := default, handle := 7 }

/-- The two-call buffer convention of `Default`, `ReadNames` and `GetPrinterPort`
for an operation `m` whose empty result is `empty`, whose first call is `first`
and whose call with a buffer of `n` elements is `again n`. -/
def TwoCall {α : Type} (w : Nat) (m : Go (α × Option Errno)) (empty : α) (first : Call)
    (again : Nat → Call) (os : OS) : Prop :=
  ((os [] first).err = none → m.calls os = [first]) ∧
  (∀ err, (os [] first).err = some err → err ≠ ERROR_INSUFFICIENT_BUFFER →
    m.calls os = [first] ∧ m.result os = Except.ok (empty, some err)) ∧
  (∀ n, (os [] first).err = some ERROR_INSUFFICIENT_BUFFER →
    n = uint32 (os [] first).needed → 0 < n → (n : Int) < 2 ^ (w - 1) →
    m.calls os = [first, again n] ∧
    ∀ err, (os [first] (again n)).err = some err → m.result os = Except.ok (empty, some err)) ∧
  (m.calls os).length ≤ 2

/-- Outcome and issued calls of the two-call convention, written out: `first`
is the call with the minimal buffer, `again n` the call with a buffer of `n`
elements, `decode` what the operation does with the buffer length and the
reply of the last call. -/
def twoCallRun {α : Type} (w : Nat) (empty : α) (minLen : Nat) (first : Call)
    (again : Nat → Call) (decode : Nat → Reply → Go (α × Option Errno)) (os : OS) :
    Except Panic (α × Option Errno) × List Call :=
  let r := os [] first
  let n := uint32 r.needed
  if r.err = none then decode minLen r os [first]
  else if r.err ≠ some ERROR_INSUFFICIENT_BUFFER then (Except.ok (empty, r.err), [first])
  else if ¬ ((n : Int) < 2 ^ (w - 1)) then (Except.error Panic.makeLen, [first])
  else if n = 0 then (Except.error Panic.indexOutOfRange, [first])
  else if (os [first] (again n)).err ≠ none then
    (Except.ok (empty, (os [first] (again n)).err), [first, again n])
  else decode n (os [first] (again n)) os [first, again n]

/-- An OS whose size query answers "insufficient buffer" and reports size 0. -/
def osZeroSize : OS := fun _ _ => { quiet with err := some ERROR_INSUFFICIENT_BUFFER, needed := 0 }

/-- An OS whose first query answers "insufficient buffer" with size 5 and whose
second query stores the name `HP`. -/
def osRetry : OS := fun tr _ =>
  match tr with
  | [] => { quiet with err := some ERROR_INSUFFICIENT_BUFFER, needed := 5 }
  | _ => { quiet with needed := 5, out := [72, 0, 80, 0, 0, 0] }

/-- Name of a printer record as the code reads it. -/
def recordName (p : PRINTER_INFO_5) : String := UTF16ToString (array1024 p.PrinterName)

/-- Port string of a printer record as the code reads it. -/
def recordPort (p : PRINTER_INFO_5) : String := UTF16ToString (array1024 p.PortName)

/-- The part of a string before its first comma (the whole string without one). -/
def beforeComma (s : String) : String := String.mk (s.data.takeWhile (fun c => c != ','))

/-- The port the specification assigns to a printer name: the first segment of
the port string of the last record carrying that name, `LPT1` without one. -/
def expectedPort (printerName : String) (ps : List PRINTER_INFO_5) : String :=
  match (ps.filter (fun p => recordName p = printerName)).getLast? with
  | none => "LPT1"
  | some p => beforeComma (recordPort p)

/-- One round of the scan of `GetPrinterPort`. -/
def portStep (printerName : String) (printerPort : String) (p : PRINTER_INFO_5) : String :=
  if recordName p = printerName then beforeComma (recordPort p) else printerPort

/-- An OS that enumerates three printers at the first query: `HP` on
`LPT2:,LPT3:`, `Fax` on `SHRFAX:` and `HP` again on `USB001`. -/
def osPrinters : OS := fun _ _ =>
  { quiet with printers :=
      [ ⟨[72, 80, 0], [76, 80, 84, 50, 58, 44, 76, 80, 84, 51, 58, 0], 0, 0, 0⟩,
        ⟨[70, 97, 120, 0], [83, 72, 82, 70, 65, 88, 58, 0], 0, 0, 0⟩,
        ⟨[72, 80, 0], [85, 83, 66, 48, 48, 49, 0], 0, 0, 0⟩ ] }

/-- An OS that enumerates 1025 printers at the first query. -/
def osManyPrinters : OS := fun _ _ =>
  { quiet with printers := List.replicate 1025 ⟨[72, 80, 0], [76, 80, 84, 50, 58, 0], 0, 0, 0⟩ }

/-- NUL-terminated UTF-16 units of a string without NUL. -/
def unitsOf (s : String) : List Nat := utf16Encode (s.data ++ [Char.ofNat 0])

/-- The string holds a NUL, on which `StringToUTF16` panics. -/
def hasNul (s : String) : Prop := (0 : Nat) ∈ s.data.map Char.toNat

instance (s : String) : Decidable (hasNul s) := by unfold hasNul; infer_instance

/-- The size-probing call of a capability query. -/
def probeCall (printerName port : String) (cap : Nat) : Call :=
  Call.DeviceCapabilities (unitsOf printerName) (unitsOf port) cap none

/-- The fill call of a capability query with a buffer of `bytes` bytes. -/
def fillCall (printerName port : String) (cap : Nat) (bytes : Nat) : Call :=
  Call.DeviceCapabilities (unitsOf printerName) (unitsOf port) cap (some bytes)

/-- Outcome and issued calls of a capability query, written out: the probe
reports `n`, the buffer gets `bufLen n` elements of `k` bytes, `decode` is what
the operation does with `n` and the reply of the fill call. -/
def capRun {β : Type} (w : Nat) (printerName port : String) (cap : Nat) (bufLen : Int → Int)
    (k : Nat) (decode : Int → Reply → Go (Option (List β) × Option Errno)) (os : OS) :
    Except Panic (Option (List β) × Option Errno) × List Call :=
  let probe := probeCall printerName port cap
  let r := os [] probe
  let n := int w (uint32 r.length)
  let fill := fillCall printerName port cap (k * (bufLen n).toNat)
  if hasNul printerName ∨ hasNul port then (Except.error Panic.nulInString, [])
  else if r.err ≠ none ∨ n ≤ 0 then (Except.ok (none, r.err), [probe])
  else if ¬ (0 ≤ bufLen n ∧ bufLen n < 2 ^ (w - 1)) then (Except.error Panic.makeLen, [probe])
  else if (bufLen n).toNat = 0 then (Except.error Panic.indexOutOfRange, [probe])
  else if (os [probe] fill).err ≠ none then
    (Except.ok (none, (os [probe] fill).err), [probe, fill])
  else decode n (os [probe] fill) os [probe, fill]

/-- The count the size-probing call of a capability query reports, as the
`int` the code compares with zero. -/
def probed (w : Nat) (printerName port : String) (cap : Nat) (os : OS) : Int :=
  int w (uint32 (os [] (probeCall printerName port cap)).length)

/-- The bytes the OS stores at the fill call of a capability query. -/
def filled (printerName port : String) (cap : Nat) (bytes : Nat) (os : OS) : List Nat :=
  (os [probeCall printerName port cap] (fillCall printerName port cap bytes)).out

/-- An OS for a printer with the papers `A4` and `Letter`, IDs 9 and 1, sizes
2100 x 2970 and 2159 x 2794, and resolutions 600 x 600 and 300 x 300. -/
def osPapers : OS := fun _ c =>
  match c with
  | Call.DeviceCapabilities _ _ _ none => { quiet with length := 2 }
  | Call.DeviceCapabilities _ _ 16 _ =>
    { quiet with out := memOf 2 ([65, 52] ++ List.replicate 62 0 ++
        [76, 101, 116, 116, 101, 114] ++ List.replicate 58 0) }
  | Call.DeviceCapabilities _ _ 3 _ => { quiet with out := pointMem [⟨2100, 2970⟩, ⟨2159, 2794⟩] }
  | Call.DeviceCapabilities _ _ 2 _ => { quiet with out := memOf 2 [9, 1] }
  | Call.DeviceCapabilities _ _ 13 _ => { quiet with out := memOf 4 [600, 600, 300, 300] }
  | _ => quiet

/-- An OS for a printer with one paper whose width is 2147483648. -/
def osWidePaper : OS := fun _ c =>
  match c with
  | Call.DeviceCapabilities _ _ _ none => { quiet with length := 1 }
  | _ => { quiet with out := pointMem [⟨2147483648, 1⟩] }

/-- An OS for a printer with the single resolution 600 x 600. -/
def osOneResolution : OS := fun _ c =>
  match c with
  | Call.DeviceCapabilities _ _ _ none => { quiet with length := 1 }
  | _ => { quiet with out := memOf 4 [600, 600] }

/-- An OS whose capability probe fails the way `DeviceCapabilities` does, with
the result -1 and no error from the stub. -/
def osMinusOne : OS := fun _ c =>
  match c with
  | Call.DeviceCapabilities _ _ _ none => { quiet with length := -1 }
  | _ => quiet

/-- The presence bit `bit` is set in the record's `Fields` bitmask. -/
def hasField (pDevMode : DEVICE_MODE) (bit : Nat) : Prop := uint32 pDevMode.Fields &&& bit > 0

instance (pDevMode : DEVICE_MODE) (bit : Nat) : Decidable (hasField pDevMode bit) := by
  unfold hasField; infer_instance

/-- The `OpenPrinter` call of `GetDefaultSettings`. -/
def openCall (printerName : String) : Call := Call.OpenPrinter (unitsOf printerName)

/-- The handle stored by `OpenPrinter`. -/
def handleOf (printerName : String) (os : OS) : Nat := (os [] (openCall printerName)).handle

/-- The size-probing `DocumentProperties` call. -/
def sizeCall (printerName : String) (os : OS) : Call :=
  Call.DocumentProperties 0 (handleOf printerName os) (unitsOf printerName) none 0

/-- The size reported by `DocumentProperties`, as the `int` the code compares. -/
def neededOf (w : Nat) (printerName : String) (os : OS) : Int :=
  int w (int32 (os [openCall printerName] (sizeCall printerName os)).length)

/-- The `DocumentProperties` call that fills the device-mode buffer. -/
def recordCall (w : Nat) (printerName : String) (os : OS) : Call :=
  Call.DocumentProperties 0 (handleOf printerName os) (unitsOf printerName)
    (some (neededOf w printerName os).toNat) DM_OUT_BUFFER

/-- The calls issued up to the filling of the device-mode buffer. -/
def recordTrace (w : Nat) (printerName : String) (os : OS) : List Call :=
  [openCall printerName, sizeCall printerName os, recordCall w printerName os]

/-- The device-mode record `GetDefaultSettings` reads. -/
def recordRead (w : Nat) (printerName : String) (os : OS) : DEVICE_MODE :=
  (os [openCall printerName, sizeCall printerName os] (recordCall w printerName os)).devMode

/-- The deferred `ClosePrinter` call. -/
def closeCall (printerName : String) (os : OS) : Call :=
  Call.ClosePrinter (handleOf printerName os)

/-- Entry 0 and issued calls of the paper-size part, written out; `entry0` is
the entry before it and `tr` the calls issued before it. -/
def paperRun (w : Nat) (printerName port : String) (pDevMode : DEVICE_MODE) (entry0 : Int)
    (os : OS) (tr : List Call) : Except Panic Int × List Call :=
  let paperSize := int w (int16 pDevMode.PaperSize)
  let probe := probeCall printerName port DC_PAPERS
  let n := int w (uint32 (os tr probe).length)
  let fill := fillCall printerName port DC_PAPERS (2 * (int w (n * 2)).toNat)
  let papers := osWrite 2 (List.replicate (int w (n * 2)).toNat 0) (os (tr ++ [probe]) fill).out
  if ¬ hasField pDevMode DM_PAPERSIZE then (Except.ok entry0, tr)
  else if hasNul printerName ∨ hasNul port then (Except.error Panic.nulInString, tr)
  else if ¬ ((os tr probe).err = none ∧ n > 0) then (Except.ok paperSize, tr ++ [probe])
  else if ¬ (0 ≤ int w (n * 2) ∧ int w (n * 2) < 2 ^ (w - 1)) then
    (Except.error Panic.makeLen, tr ++ [probe])
  else if (int w (n * 2)).toNat = 0 then (Except.error Panic.indexOutOfRange, tr ++ [probe])
  else if 0 ≤ paperSize ∧ paperSize < ((int w (n * 2)).toNat : Int) then
    (Except.ok paperSize, tr ++ [probe, fill])
  else (Except.ok (int w (papers.getD 0 0)), tr ++ [probe, fill])

/-- The nine entries, given entry 0. -/
def settingsList (w : Nat) (pDevMode : DEVICE_MODE) (entry0 : Int) : List Int :=
  [ entry0,
    if hasField pDevMode DM_MEDIATYPE then int w (uint32 pDevMode.MediaType)
      else GETDEFAULT_ERROR,
    if hasField pDevMode DM_YRESOLUTION then int16 pDevMode.YResolution else GETDEFAULT_ERROR,
    if hasField pDevMode DM_PRINTQUALITY then int16 pDevMode.PrintQuality else GETDEFAULT_ERROR,
    if hasField pDevMode DM_COPIES then int16 pDevMode.Copies else GETDEFAULT_ERROR,
    if hasField pDevMode DM_ORIENTATION then int16 pDevMode.Orientation else GETDEFAULT_ERROR,
    if hasField pDevMode DM_DUPLEX then int16 pDevMode.Duplex else GETDEFAULT_ERROR,
    if hasField pDevMode DM_COLLATE then int16 pDevMode.Collate else GETDEFAULT_ERROR,
    if hasField pDevMode DM_COLOR then int16 pDevMode.Color else GETDEFAULT_ERROR ]

/-- Outcome and issued calls of `GetDefaultSettings`, written out. -/
def settingsRun (w : Nat) (printerName port : String) (os : OS) :
    Except Panic (Option (List Int) × Option Errno) × List Call :=
  let opened := os [] (openCall printerName)
  let sized := os [openCall printerName] (sizeCall printerName os)
  let stored := os [openCall printerName, sizeCall printerName os] (recordCall w printerName os)
  if hasNul printerName then (Except.error Panic.nulInString, [])
  else if opened.err ≠ none then (Except.ok (none, opened.err), [openCall printerName])
  else if sized.err ≠ none ∨ neededOf w printerName os ≤ 0 then
    (Except.ok (none, sized.err),
      [openCall printerName, sizeCall printerName os, closeCall printerName os])
  else if stored.err ≠ none then
    (Except.ok (none, stored.err), recordTrace w printerName os ++ [closeCall printerName os])
  else
    match paperRun w printerName port (recordRead w printerName os) GETDEFAULT_ERROR os
        (recordTrace w printerName os) with
    | (Except.ok e, tr) =>
      (Except.ok (some (settingsList w (recordRead w printerName os) e), none),
        tr ++ [closeCall printerName os])
    | (Except.error p, tr) => (Except.error p, tr ++ [closeCall printerName os])

/-- The computation issues no OS call. -/
def Silent {α : Type} (m : Go α) : Prop := ∀ os tr, (m os tr).2 = tr

/-- The `k`-th call an operation issues, with the reply the OS gave to it. -/
def issued {α : Type} (m : Go α) (os : OS) (k : Nat) : Option (Call × Reply) :=
  match (m.calls os)[k]? with
  | none => none
  | some c => some (c, os ((m.calls os).take k) c)

/-- Every failure of a call in `covered`, other than "insufficient buffer", is
what the operation returns, with the empty result. -/
def Surfaces {α : Type} (m : Go (α × Option Errno)) (empty : α) (covered : Call → Prop)
    (os : OS) : Prop :=
  ∀ k c r err, issued m os k = some (c, r) → covered c → r.err = some err →
    err ≠ ERROR_INSUFFICIENT_BUFFER → m.result os = Except.ok (empty, some err)

/-- The call is `OpenPrinter` or `DocumentProperties`. -/
def isOpenOrDocProps : Call → Prop
  | Call.OpenPrinter _ => True
  | Call.DocumentProperties _ _ _ _ _ => True
  | _ => False

/-- The reply to the paper-ID probe of `GetDefaultSettings`. -/
def papersProbe (w : Nat) (printerName port : String) (os : OS) : Reply :=
  os (recordTrace w printerName os) (probeCall printerName port DC_PAPERS)

/-- The count the paper-ID probe of `GetDefaultSettings` reports. -/
def papersCount (w : Nat) (printerName port : String) (os : OS) : Int :=
  int w (uint32 (papersProbe w printerName port os).length)

/-- The paper buffer of `GetDefaultSettings` after the fill call:
`2 * papersCount` elements of 16 bits. -/
def papersBuffer (w : Nat) (printerName port : String) (os : OS) : List Nat :=
  osWrite 2 (List.replicate (2 * (papersCount w printerName port os).toNat) 0)
    (os (recordTrace w printerName os ++ [probeCall printerName port DC_PAPERS])
      (fillCall printerName port DC_PAPERS
        (2 * (2 * (papersCount w printerName port os).toNat)))).out

/-- A device-mode record with the given presence bits, paper size, copies and
media type, everything else zero. -/
def devModeWith (fields : Nat) (paperSize copies : Int) (mediaType : Nat) : DEVICE_MODE :=
  { (default : DEVICE_MODE) with
    Fields := fields, PaperSize := paperSize, Copies := copies, MediaType := mediaType }

/-- An OS for `GetDefaultSettings`: the device-mode record is `dm`, the paper-ID
probe answers `probe` and the paper-ID fill call stores the IDs `ids`. -/
def osSettings (dm : DEVICE_MODE) (probe : Reply) (ids : List Nat) : OS := fun _ c =>
  match c with
  | Call.DocumentProperties _ _ _ none _ => { quiet with length := 220 }
  | Call.DocumentProperties _ _ _ _ _ => { quiet with length := 1, devMode := dm }
  | Call.DeviceCapabilities _ _ _ none => probe
  | Call.DeviceCapabilities _ _ _ _ => { quiet with out := memOf 2 ids }
  | _ => quiet

/-- An OS for `GetDefaultSettings` whose paper-ID probe fails with error 5
(access denied); the record has the paper-size bit set and paper size 9. -/
def osProbeFails : OS :=
  osSettings (devModeWith 2 9 0 0) { quiet with err := some 5 } []

set_option maxRecDepth 100000

/-! ## Running a computation -/

@[simp] theorem pure_run {α : Type} (a : α) (os : OS) (tr : List Call) :
    (pure a : Go α) os tr = (Except.ok a, tr) := rfl

@[simp] theorem bind_run {α β : Type} (m : Go α) (f : α → Go β) (os : OS) (tr : List Call) :
    (m >>= f) os tr =
      match m os tr with
      | (Except.ok a, tr1) => f a os tr1
      | (Except.error p, tr1) => (Except.error p, tr1) := rfl

@[simp] theorem throwPanic_run {α : Type} (p : Panic) (os : OS) (tr : List Call) :
    (throwPanic p : Go α) os tr = (Except.error p, tr) := rfl

@[simp] theorem sys_run (c : Call) (os : OS) (tr : List Call) :
    sys c os tr = (Except.ok (os tr c), tr ++ [c]) := rfl

@[simp] theorem withDefer_run {α : Type} (d : Go Unit) (body : Go α) (os : OS) (tr : List Call) :
    withDefer d body os tr = ((body os tr).1, (d os (body os tr).2).2) := rfl

theorem make_run (w : Nat) (n : Int) (os : OS) (tr : List Call) :
    make w n os tr =
      if 0 ≤ n ∧ n < 2 ^ (w - 1) then (Except.ok (List.replicate n.toNat 0), tr)
      else (Except.error Panic.makeLen, tr) := by
  unfold make; split <;> rfl

theorem makeInts_run (w : Nat) (n : Int) (os : OS) (tr : List Call) :
    makeInts w n os tr =
      if 0 ≤ n ∧ n < 2 ^ (w - 1) then (Except.ok (List.replicate n.toNat 0), tr)
      else (Except.error Panic.makeLen, tr) := by
  unfold makeInts; split <;> rfl

theorem makePoints_run (w : Nat) (n : Int) (os : OS) (tr : List Call) :
    makePoints w n os tr =
      if 0 ≤ n ∧ n < 2 ^ (w - 1) then (Except.ok (List.replicate n.toNat ⟨0, 0⟩), tr)
      else (Except.error Panic.makeLen, tr) := by
  unfold makePoints; split <;> rfl

theorem addr0_run {α : Type} (k : Nat) (b : List α) (os : OS) (tr : List Call) :
    addr0 k b os tr =
      if b.length = 0 then (Except.error Panic.indexOutOfRange, tr)
      else (Except.ok (k * b.length), tr) := by
  unfold addr0; split <;> rfl

theorem index_run {α : Type} [Inhabited α] (b : List α) (i : Int) (os : OS) (tr : List Call) :
    index b i os tr =
      if 0 ≤ i ∧ i < b.length then (Except.ok (b.getD i.toNat default), tr)
      else (Except.error Panic.indexOutOfRange, tr) := by
  unfold index; split <;> rfl

theorem store_run {α : Type} (b : List α) (i : Int) (v : α) (os : OS) (tr : List Call) :
    store b i v os tr =
      if 0 ≤ i ∧ i < b.length then (Except.ok (b.set i.toNat v), tr)
      else (Except.error Panic.indexOutOfRange, tr) := by
  unfold store; split <;> rfl

theorem slice_run {α : Type} (b : List α) (lo hi : Int) (os : OS) (tr : List Call) :
    slice b lo hi os tr =
      if 0 ≤ lo ∧ lo ≤ hi ∧ hi ≤ b.length then
        (Except.ok ((b.drop lo.toNat).take (hi.toNat - lo.toNat)), tr)
      else (Except.error Panic.sliceBounds, tr) := by
  unfold slice; split <;> rfl

theorem view1024_run {α : Type} (records : List α) (returned : Int) (os : OS)
    (tr : List Call) :
    view1024 records returned os tr =
      if 0 ≤ returned ∧ returned ≤ 1024 then (Except.ok (records.take returned.toNat), tr)
      else (Except.error Panic.sliceBounds, tr) := by
  unfold view1024; split <;> rfl

theorem StringToUTF16_run (s : String) (os : OS) (tr : List Call) :
    StringToUTF16 s os tr =
      if (0 : Nat) ∈ s.data.map Char.toNat then (Except.error Panic.nulInString, tr)
      else (Except.ok (utf16Encode (s.data ++ [Char.ofNat 0])), tr) := by
  unfold StringToUTF16; split <;> rfl

theorem three_lt_pow (w : Nat) (hw : w = 32 ∨ w = 64) : (3 : Int) < 2 ^ (w - 1) := by
  rcases hw with rfl | rfl <;> norm_num

theorem one_lt_pow (w : Nat) (hw : w = 32 ∨ w = 64) : (1 : Int) < 2 ^ (w - 1) := by
  rcases hw with rfl | rfl <;> norm_num

@[simp] theorem uint32_len_three : uint32 (3 : Int) = 3 := by decide

@[simp] theorem uint32_len_one : uint32 (1 : Int) = 1 := by decide

theorem flags_eq : PRINTER_ENUM_LOCAL ||| PRINTER_ENUM_CONNECTIONS = 6 := by decide

/-- A loop whose body neither issues calls nor panics is a fold. -/
theorem forEach_pure {α σ : Type} (f : σ → α → σ) (xs : List α) (s : σ) (os : OS)
    (tr : List Call) :
    forEach xs (fun x s => pure (f s x)) s os tr = (Except.ok (xs.foldl f s), tr) := by
  induction xs generalizing s with
  | nil => rfl
  | cons x xs ih => simp [forEach, ih]

/-! ## The two-call buffer convention -/

theorem uint32_lt (x : Int) : uint32 x < 4294967296 := by
  unfold uint32
  have h : x % 2 ^ 32 < 2 ^ 32 := Int.emod_lt_of_pos _ (by norm_num)
  have h0 : 0 ≤ x % 2 ^ 32 := Int.emod_nonneg _ (by norm_num)
  omega

theorem uint32_cast_uint32 (x : Int) : uint32 (uint32 x : Int) = uint32 x := by
  have h := uint32_lt x
  generalize uint32 x = n at h
  unfold uint32
  have : ((n : Int) % 2 ^ 32) = n := Int.emod_eq_of_lt (Int.ofNat_nonneg _) (by norm_num; omega)
  rw [this]; rfl

theorem Default_run (w : Nat) (hw : w = 32 ∨ w = 64) (os : OS) :
    Default w os [] =
      twoCallRun w "" 3 (Call.GetDefaultPrinter 6 3) (fun n => Call.GetDefaultPrinter (2 * n) n)
        (fun k r => pure (UTF16ToString (osWrite 2 (List.replicate k 0) r.out), none)) os := by
  have h3 := three_lt_pow w hw
  unfold twoCallRun
  simp only [Default, bind_run, make_run, addr0_run, sys_run]
  simp only [h3, len]
  by_cases h : (os [] (Call.GetDefaultPrinter 6 3)).err = none
  · simp [h]
  · by_cases he : (os [] (Call.GetDefaultPrinter 6 3)).err = some ERROR_INSUFFICIENT_BUFFER
    · by_cases hlt : (uint32 (os [] (Call.GetDefaultPrinter 6 3)).needed : Int) < 2 ^ (w - 1)
      · by_cases hn0 : uint32 (os [] (Call.GetDefaultPrinter 6 3)).needed = 0
        · simp [he, hlt, hn0, make_run, addr0_run]
        · simp [he, hlt, hn0, make_run, addr0_run]
          split <;> rfl
      · simp [he, hlt, make_run]
    · simp [h, he]

theorem ReadNames_run (w : Nat) (hw : w = 32 ∨ w = 64) (os : OS) :
    ReadNames w os [] =
      twoCallRun w none 1 (Call.EnumPrinters 6 5 1 1) (fun n => Call.EnumPrinters 6 5 n n)
        (fun _ r => readNamesDecode r) os := by
  have h1 := one_lt_pow w hw
  unfold twoCallRun
  simp only [ReadNames, flags_eq, bind_run, make_run, addr0_run, sys_run]
  simp only [h1, len]
  by_cases h : (os [] (Call.EnumPrinters 6 5 1 1)).err = none
  · simp [h]
  · by_cases he : (os [] (Call.EnumPrinters 6 5 1 1)).err = some ERROR_INSUFFICIENT_BUFFER
    · by_cases hlt : (uint32 (os [] (Call.EnumPrinters 6 5 1 1)).needed : Int) < 2 ^ (w - 1)
      · by_cases hn0 : uint32 (os [] (Call.EnumPrinters 6 5 1 1)).needed = 0
        · simp [he, hlt, hn0, make_run, addr0_run]
        · simp [he, hlt, hn0, uint32_cast_uint32, make_run, addr0_run, len]
          split <;> rfl
      · simp [he, hlt, make_run]
    · simp [h, he]

theorem GetPrinterPort_run (w : Nat) (hw : w = 32 ∨ w = 64) (printerName : String) (os : OS) :
    GetPrinterPort w printerName os [] =
      twoCallRun w "" 1 (Call.EnumPrinters 6 5 1 1) (fun n => Call.EnumPrinters 6 5 n n)
        (fun _ r => printerPortScan printerName "LPT1" r) os := by
  have h1 := one_lt_pow w hw
  unfold twoCallRun
  simp only [GetPrinterPort, flags_eq, bind_run, make_run, addr0_run, sys_run]
  simp only [h1, len]
  by_cases h : (os [] (Call.EnumPrinters 6 5 1 1)).err = none
  · simp [h]
  · by_cases he : (os [] (Call.EnumPrinters 6 5 1 1)).err = some ERROR_INSUFFICIENT_BUFFER
    · by_cases hlt : (uint32 (os [] (Call.EnumPrinters 6 5 1 1)).needed : Int) < 2 ^ (w - 1)
      · by_cases hn0 : uint32 (os [] (Call.EnumPrinters 6 5 1 1)).needed = 0
        · simp [he, hlt, hn0, make_run, addr0_run]
        · simp [he, hlt, hn0, uint32_cast_uint32, make_run, addr0_run, len]
          split <;> rfl
      · simp [he, hlt, make_run]
    · simp [h, he]

theorem forEach_calls {α σ : Type} (body : α → σ → Go σ)
    (hb : ∀ x s os tr, (body x s os tr).2 = tr) (xs : List α) (s : σ) (os : OS)
    (tr : List Call) : (forEach xs body s os tr).2 = tr := by
  induction xs generalizing s with
  | nil => rfl
  | cons x xs ih =>
    simp only [forEach, bind_run]
    have h1 := hb x s os tr
    rcases hx : body x s os tr with ⟨res, tr1⟩
    rw [hx] at h1
    simp only at h1
    subst h1
    cases res with
    | error p => rfl
    | ok s1 => exact ih s1

theorem splitAux_head (sep : Char) (cs cur : List Char) :
    ∃ rest, splitAux sep cs cur = (cur.reverse ++ cs.takeWhile (fun c => c != sep)) :: rest := by
  induction cs generalizing cur with
  | nil => exact ⟨[], by simp [splitAux]⟩
  | cons c cs ih =>
    by_cases hc : c = sep
    · exact ⟨splitAux sep cs [], by simp [splitAux, hc]⟩
    · obtain ⟨rest, hrest⟩ := ih (c :: cur)
      exact ⟨rest, by simp [splitAux, hc, hrest]⟩

theorem index_Split_zero (s : String) :
    index (Split s ',') 0 = pure (beforeComma s) := by
  obtain ⟨rest, hrest⟩ := splitAux_head ',' s.data []
  unfold index Split beforeComma
  rw [hrest]
  simp

theorem Compare_eq_zero (a b : String) : Compare a b = 0 ↔ a = b := by
  unfold Compare
  by_cases h : a = b
  · simp [h]
  · simp only [h, if_false, iff_false]
    split <;> decide

theorem port_body (printerName : String) :
    (fun (p : PRINTER_INFO_5) (printerPort : String) =>
      if Compare (UTF16ToString (array1024 p.PrinterName)) printerName = 0 then
        index (Split (UTF16ToString (array1024 p.PortName)) ',') 0
      else (pure printerPort : Go String)) =
    fun p printerPort => pure (portStep printerName printerPort p) := by
  funext p printerPort
  simp only [Compare_eq_zero, index_Split_zero, portStep, recordName, recordPort]
  split <;> rfl

theorem foldl_portStep (printerName : String) (ps : List PRINTER_INFO_5) (init : String) :
    ps.foldl (portStep printerName) init =
      match (ps.filter (fun p => recordName p = printerName)).getLast? with
      | none => init
      | some p => beforeComma (recordPort p) := by
  induction ps generalizing init with
  | nil => rfl
  | cons p ps ih =>
    rw [List.foldl_cons, ih]
    by_cases hp : recordName p = printerName
    · simp only [List.filter_cons, hp, decide_True, if_true, portStep]
      cases hl : (List.filter (fun p => decide (recordName p = printerName)) ps).getLast? with
      | none =>
        have hnil := List.getLast?_eq_none_iff.mp hl
        simp [hnil]
      | some q =>
        have := List.getLast?_cons (a := p) (l := List.filter (fun p => decide (recordName p = printerName)) ps)
        simp [this, hl]
    · simp [List.filter_cons, hp, portStep]

theorem readNamesDecode_calls (r : Reply) (os : OS) (tr : List Call) :
    (readNamesDecode r os tr).2 = tr := by
  simp only [readNamesDecode, bind_run, view1024_run, forEach_pure, pure_run]
  by_cases h : 0 ≤ len r.printers ∧ len r.printers ≤ 1024
  · simp [h]
  · simp [h]

theorem printerPortScan_run (printerName init : String) (r : Reply) (os : OS)
    (tr : List Call) :
    printerPortScan printerName init r os tr =
      if r.printers.length ≤ 1024 then
        (Except.ok (r.printers.foldl (portStep printerName) init, none), tr)
      else (Except.error Panic.sliceBounds, tr) := by
  simp only [printerPortScan, port_body, bind_run, view1024_run, len]
  by_cases h : r.printers.length ≤ 1024
  · have h2 : (r.printers.length : Int) ≤ 1024 := by exact_mod_cast h
    simp [h, h2, forEach_pure]
  · have h2 : ¬ (r.printers.length : Int) ≤ 1024 := by
      intro hc; exact h (by exact_mod_cast hc)
    simp [h, h2]

theorem printerPortScan_calls (printerName init : String) (r : Reply) (os : OS)
    (tr : List Call) : (printerPortScan printerName init r os tr).2 = tr := by
  rw [printerPortScan_run]
  split <;> rfl

/-- The written-out run satisfies the two-call convention when decoding issues
no call. -/
theorem twoCallRun_twoCall {α : Type} (w : Nat) (m : Go (α × Option Errno)) (empty : α)
    (minLen : Nat) (first : Call) (again : Nat → Call)
    (decode : Nat → Reply → Go (α × Option Errno)) (os : OS)
    (hrun : m os [] = twoCallRun w empty minLen first again decode os)
    (hdec : ∀ k r tr, (decode k r os tr).2 = tr) :
    TwoCall w m empty first again os := by
  unfold TwoCall Go.calls Go.result
  rw [hrun]
  unfold twoCallRun
  refine ⟨?_, ?_, ?_, ?_⟩
  · intro h
    simp [h, hdec]
  · intro err h he
    simp [h, he]
  · intro n h hn hpos hlt
    have hn0 : n ≠ 0 := Nat.pos_iff_ne_zero.mp hpos
    subst hn
    constructor
    · simp only [h]
      simp [hlt, hn0]
      split
      · exact hdec _ _ _
      · rfl
    · intro err h2
      simp [h, hlt, hn0, h2]
  · simp only []
    split
    · simp [hdec]
    · split
      · simp
      · split
        · simp
        · split
          · simp
          · split
            · simp
            · simp [hdec]

/-! ## Claims on the enumeration functions -/

/-- C5 (as amended): `Default`, `ReadNames` and `GetPrinterPort` first issue
their query with a minimal buffer (3 units, resp. 1 byte).  If that call
succeeds, no second call is made.  If it fails with an error other than
ERROR_INSUFFICIENT_BUFFER, that error is returned with an empty result and no
second call.  If it fails with ERROR_INSUFFICIENT_BUFFER and the reported size
`n` is positive and fits Go's `int`, the query is reissued exactly once with a
buffer of exactly `n` elements, and an error of the second call is returned as
is with an empty result.  At most two queries are issued in every case. -/
theorem two_call_convention (w : Nat) (hw : w = 32 ∨ w = 64) (printerName : String)
    (os : OS) :
    TwoCall w (Default w) "" (Call.GetDefaultPrinter 6 3)
      (fun n => Call.GetDefaultPrinter (2 * n) n) os ∧
    TwoCall w (ReadNames w) none (Call.EnumPrinters 6 5 1 1)
      (fun n => Call.EnumPrinters 6 5 n n) os ∧
    TwoCall w (GetPrinterPort w printerName) "" (Call.EnumPrinters 6 5 1 1)
      (fun n => Call.EnumPrinters 6 5 n n) os :=
  ⟨twoCallRun_twoCall w _ _ _ _ _ _ os (Default_run w hw os) (fun _ _ _ => rfl),
   twoCallRun_twoCall w _ _ _ _ _ _ os (ReadNames_run w hw os)
     (fun _ r tr => readNamesDecode_calls r os tr),
   twoCallRun_twoCall w _ _ _ _ _ _ os (GetPrinterPort_run w hw printerName os)
     (fun _ r tr => printerPortScan_calls printerName "LPT1" r os tr)⟩

/-- Witness for C5: on a 64-bit platform, an OS that first reports size 5 is
queried a second time with a buffer of 5 units and nothing else. -/
theorem two_call_convention_witness :
    (64 = 32 ∨ 64 = 64) ∧
    (Default 64).calls osRetry = [Call.GetDefaultPrinter 6 3, Call.GetDefaultPrinter 10 5] :=
  ⟨Or.inr rfl,
   ((two_call_convention 64 (Or.inr rfl) "HP" osRetry).1.2.2.1 5 rfl rfl
      (by decide) (by decide)).1⟩

/-- C5 fails as stated: when the first `GetDefaultPrinter` call answers
ERROR_INSUFFICIENT_BUFFER and reports size 0, `Default` panics at `&b[0]` and
the query is not reissued. -/
theorem two_call_zero_size_counterexample :
    (osZeroSize [] (Call.GetDefaultPrinter 6 3)).err = some ERROR_INSUFFICIENT_BUFFER ∧
    (Default 64).calls osZeroSize = [Call.GetDefaultPrinter 6 3] ∧
    (Default 64).result osZeroSize = Except.error Panic.indexOutOfRange :=
  ⟨rfl, rfl, rfl⟩

theorem expectedPort_none (printerName : String) (ps : List PRINTER_INFO_5)
    (h : ∀ p ∈ ps, recordName p ≠ printerName) : expectedPort printerName ps = "LPT1" := by
  have hf : ps.filter (fun p => recordName p = printerName) = [] := by
    rw [List.filter_eq_nil_iff]
    intro p hp
    simpa using h p hp
  simp [expectedPort, hf]

theorem expectedPort_last (printerName : String) (ps qs : List PRINTER_INFO_5)
    (p : PRINTER_INFO_5) (hp : recordName p = printerName)
    (h : ∀ q ∈ qs, recordName q ≠ printerName) :
    expectedPort printerName (ps ++ p :: qs) = beforeComma (recordPort p) := by
  have hf : qs.filter (fun p => recordName p = printerName) = [] := by
    rw [List.filter_eq_nil_iff]
    intro q hq
    simpa using h q hq
  simp [expectedPort, List.filter_append, List.filter_cons, hp, hf]

theorem beforeComma_self (s : String) (h : ',' ∉ s.data) : beforeComma s = s := by
  unfold beforeComma
  have : s.data.takeWhile (fun c => c != ',') = s.data := by
    rw [List.takeWhile_eq_self_iff]
    intro c hc
    have : c ≠ ',' := fun e => h (e ▸ hc)
    simpa using this
  rw [this]

/-- C3 (as amended): for every printer name and every successfully enumerated
list of at most 1024 printer records (delivered by the first `EnumPrinters`
call, or by the second after the first reported a size that is positive and
fits `int`), `GetPrinterPort` returns no error and the expected port: `LPT1`
when no record's name equals the requested name exactly, otherwise the part
before the first comma of the port string of the last matching record (the
whole port string when it has no comma). -/
theorem GetPrinterPort_expectedPort (w : Nat) (hw : w = 32 ∨ w = 64) (printerName : String)
    (os : OS) :
    ((os [] (Call.EnumPrinters 6 5 1 1)).err = none →
      (os [] (Call.EnumPrinters 6 5 1 1)).printers.length ≤ 1024 →
      (GetPrinterPort w printerName).result os =
        Except.ok (expectedPort printerName (os [] (Call.EnumPrinters 6 5 1 1)).printers, none)) ∧
    (∀ n, (os [] (Call.EnumPrinters 6 5 1 1)).err = some ERROR_INSUFFICIENT_BUFFER →
      n = uint32 (os [] (Call.EnumPrinters 6 5 1 1)).needed → 0 < n → (n : Int) < 2 ^ (w - 1) →
      (os [Call.EnumPrinters 6 5 1 1] (Call.EnumPrinters 6 5 n n)).err = none →
      (os [Call.EnumPrinters 6 5 1 1] (Call.EnumPrinters 6 5 n n)).printers.length ≤ 1024 →
      (GetPrinterPort w printerName).result os =
        Except.ok (expectedPort printerName
          (os [Call.EnumPrinters 6 5 1 1] (Call.EnumPrinters 6 5 n n)).printers, none)) ∧
    (∀ ps, (∀ p ∈ ps, recordName p ≠ printerName) → expectedPort printerName ps = "LPT1") ∧
    (∀ ps p qs, recordName p = printerName → (∀ q ∈ qs, recordName q ≠ printerName) →
      expectedPort printerName (ps ++ p :: qs) = beforeComma (recordPort p)) ∧
    (∀ s : String, ',' ∉ s.data → beforeComma s = s) := by
  refine ⟨?_, ?_, expectedPort_none printerName, ?_, beforeComma_self⟩
  · intro h hlen
    simp only [Go.result, GetPrinterPort_run w hw, twoCallRun, h, if_true,
      printerPortScan_run, hlen, foldl_portStep, expectedPort]
  · intro n h hn hpos hlt h2 hlen
    have hn0 : n ≠ 0 := Nat.pos_iff_ne_zero.mp hpos
    subst hn
    simp [Go.result, GetPrinterPort_run w hw, twoCallRun, h, hlt, hn0, h2,
      printerPortScan_run, hlen, foldl_portStep, expectedPort]
  · intro ps p qs hp hq
    exact expectedPort_last printerName ps qs p hp hq

/-- Witness for C3: with printers `HP` (port `LPT2:,LPT3:`), `Fax` and `HP`
(port `USB001`) enumerated, the name `hp`, which differs from `HP` only by
case, resolves to `LPT1`. -/
theorem GetPrinterPort_expectedPort_witness :
    (64 = 32 ∨ 64 = 64) ∧
    (GetPrinterPort 64 "hp").result osPrinters = Except.ok ("LPT1", none) :=
  ⟨Or.inr rfl,
   (GetPrinterPort_expectedPort 64 (Or.inr rfl) "hp" osPrinters).1 rfl (by decide)⟩

/-- C3 fails as stated: when 1025 printer records are enumerated,
`GetPrinterPort` panics at the slice of the 1024-record array view and returns
nothing. -/
theorem GetPrinterPort_many_counterexample :
    (osManyPrinters [] (Call.EnumPrinters 6 5 1 1)).err = none ∧
    (osManyPrinters [] (Call.EnumPrinters 6 5 1 1)).printers.length = 1025 ∧
    (GetPrinterPort 64 "HP").result osManyPrinters = Except.error Panic.sliceBounds := by
  have hlen : (osManyPrinters [] (Call.EnumPrinters 6 5 1 1)).printers.length = 1025 :=
    List.length_replicate 1025 _
  have herr : (osManyPrinters [] (Call.EnumPrinters 6 5 1 1)).err = none := rfl
  refine ⟨herr, hlen, ?_⟩
  rw [Go.result, GetPrinterPort_run 64 (Or.inr rfl)]
  simp only [twoCallRun, herr, if_true, printerPortScan_run, hlen]
  rfl

/-! ## Capability queries -/

theorem GetAllMediaIDs_run (w : Nat) (printerName port : String) (os : OS) :
    GetAllMediaIDs w printerName port os [] =
      capRun w printerName port DC_PAPERS (fun n => n) 2
        (fun n r => do
          let buf := osWrite 2 (List.replicate n.toNat 0) r.out
          let mediaIDs ← makeInts w n
          let mediaIDs ← forEach buf.enum
            (fun im mediaIDs => store mediaIDs (im.1 : Int) (int w im.2)) mediaIDs
          pure (some mediaIDs, none)) os := by
  unfold capRun probeCall fillCall unitsOf hasNul
  simp only [GetAllMediaIDs, bind_run, StringToUTF16_run]
  by_cases hp : (0 : Nat) ∈ printerName.data.map Char.toNat
  · simp [hp]
  · by_cases hq : (0 : Nat) ∈ port.data.map Char.toNat
    · simp [hp, hq]
    · simp only [hp, hq, if_false, or_self, sys_run, List.nil_append]
      generalize os [] (Call.DeviceCapabilities (utf16Encode (printerName.data ++ [Char.ofNat 0]))
        (utf16Encode (port.data ++ [Char.ofNat 0])) DC_PAPERS none) = r
      by_cases h1 : r.err ≠ none ∨ int w (uint32 r.length) ≤ 0
      · simp only [h1, if_true]; rfl
      · simp only [h1, if_false, bind_run, make_run]
        by_cases h2 : 0 ≤ int w (uint32 r.length) ∧ int w (uint32 r.length) < 2 ^ (w - 1)
        · simp only [h2, and_self, if_true, not_true_eq_false, if_false, addr0_run,
            StringToUTF16_run, hp, hq, List.length_replicate]
          by_cases h3 : (int w (uint32 r.length)).toNat = 0
          · simp only [h3, if_true]
          · simp only [h3, if_false, sys_run, List.singleton_append, List.cons_append,
              List.nil_append]
            split <;> rfl
        · simp only [h2, if_false, not_false_eq_true, if_true]

theorem GetAllMediaNames_run (w : Nat) (printerName port : String) (os : OS) :
    GetAllMediaNames w printerName port os [] =
      capRun w printerName port DC_PAPERNAMES (fun n => int w (n * 64)) 2
        (fun n r => do
          let buf := osWrite 2 (List.replicate (int w (n * 64)).toNat 0) r.out
          let names ← forEach (upTo n)
            (fun i names => do
              let s ← slice buf (int w (i * 64)) (int w ((i + 1) * 64))
              pure (names ++ [UTF16ToString s])) []
          pure (some names, r.err)) os := by
  unfold capRun probeCall fillCall unitsOf hasNul
  simp only [GetAllMediaNames, bind_run, StringToUTF16_run]
  by_cases hp : (0 : Nat) ∈ printerName.data.map Char.toNat
  · simp [hp]
  · by_cases hq : (0 : Nat) ∈ port.data.map Char.toNat
    · simp [hp, hq]
    · simp only [hp, hq, if_false, or_self, sys_run, List.nil_append]
      generalize os [] (Call.DeviceCapabilities (utf16Encode (printerName.data ++ [Char.ofNat 0]))
        (utf16Encode (port.data ++ [Char.ofNat 0])) DC_PAPERNAMES none) = r
      by_cases h1 : r.err ≠ none ∨ int w (uint32 r.length) ≤ 0
      · simp only [h1, if_true]; rfl
      · simp only [h1, if_false, bind_run, make_run]
        by_cases h2 : 0 ≤ int w (int w (uint32 r.length) * 64) ∧ int w (int w (uint32 r.length) * 64) < 2 ^ (w - 1)
        · simp only [h2, and_self, if_true, not_true_eq_false, if_false, addr0_run,
            StringToUTF16_run, hp, hq, List.length_replicate]
          by_cases h3 : (int w (int w (uint32 r.length) * 64)).toNat = 0
          · simp only [h3, if_true]
          · simp only [h3, if_false, sys_run, List.singleton_append, List.cons_append,
              List.nil_append]
            split <;> rfl
        · simp only [h2, if_false, not_false_eq_true, if_true]

theorem GetAllMediaSizes_run (w : Nat) (printerName port : String) (os : OS) :
    GetAllMediaSizes w printerName port os [] =
      capRun w printerName port DC_PAPERSIZE (fun n => n) 8
        (fun n r => do
          let buf := osWritePoints (List.replicate n.toNat ⟨0, 0⟩) r.out
          let mediaSizes ← makeInts w (int w (n * 2))
          let mediaSizes ← forEach buf.enum
            (fun im mediaSizes => do
              let mediaSizes ← store mediaSizes (int w ((im.1 : Int) * 2)) (int w im.2.X)
              store mediaSizes (int w (int w ((im.1 : Int) * 2) + 1)) (int w im.2.Y)) mediaSizes
          pure (some mediaSizes, none)) os := by
  unfold capRun probeCall fillCall unitsOf hasNul
  simp only [GetAllMediaSizes, bind_run, StringToUTF16_run]
  by_cases hp : (0 : Nat) ∈ printerName.data.map Char.toNat
  · simp [hp]
  · by_cases hq : (0 : Nat) ∈ port.data.map Char.toNat
    · simp [hp, hq]
    · simp only [hp, hq, if_false, or_self, sys_run, List.nil_append]
      generalize os [] (Call.DeviceCapabilities (utf16Encode (printerName.data ++ [Char.ofNat 0]))
        (utf16Encode (port.data ++ [Char.ofNat 0])) DC_PAPERSIZE none) = r
      by_cases h1 : r.err ≠ none ∨ int w (uint32 r.length) ≤ 0
      · simp only [h1, if_true]; rfl
      · simp only [h1, if_false, bind_run, makePoints_run]
        by_cases h2 : 0 ≤ int w (uint32 r.length) ∧ int w (uint32 r.length) < 2 ^ (w - 1)
        · simp only [h2, and_self, if_true, not_true_eq_false, if_false, addr0_run,
            StringToUTF16_run, hp, hq, List.length_replicate]
          by_cases h3 : (int w (uint32 r.length)).toNat = 0
          · simp only [h3, if_true]
          · simp only [h3, if_false, sys_run, List.singleton_append, List.cons_append,
              List.nil_append]
            split <;> rfl
        · simp only [h2, if_false, not_false_eq_true, if_true]

theorem GetAllResolutions_run (w : Nat) (printerName port : String) (os : OS) :
    GetAllResolutions w printerName port os [] =
      capRun w printerName port DC_ENUMRESOLUTIONS (fun n => int w (n * 2)) (w / 8)
        (fun n r => do
          let buf := osWrite (w / 8) (List.replicate (int w (n * 2)).toNat 0) r.out
          let resolutions ← makeInts w (int w (n * 2))
          let resolutions ← forEach buf.enum
            (fun ir resolutions => store resolutions (ir.1 : Int) (int w ir.2)) resolutions
          pure (some resolutions, none)) os := by
  unfold capRun probeCall fillCall unitsOf hasNul
  simp only [GetAllResolutions, bind_run, StringToUTF16_run]
  by_cases hp : (0 : Nat) ∈ printerName.data.map Char.toNat
  · simp [hp]
  · by_cases hq : (0 : Nat) ∈ port.data.map Char.toNat
    · simp [hp, hq]
    · simp only [hp, hq, if_false, or_self, sys_run, List.nil_append]
      generalize os [] (Call.DeviceCapabilities (utf16Encode (printerName.data ++ [Char.ofNat 0]))
        (utf16Encode (port.data ++ [Char.ofNat 0])) DC_ENUMRESOLUTIONS none) = r
      by_cases h1 : r.err ≠ none ∨ int w (uint32 r.length) ≤ 0
      · simp only [h1, if_true]; rfl
      · simp only [h1, if_false, bind_run, make_run]
        by_cases h2 : 0 ≤ int w (int w (uint32 r.length) * 2) ∧ int w (int w (uint32 r.length) * 2) < 2 ^ (w - 1)
        · simp only [h2, and_self, if_true, not_true_eq_false, if_false, addr0_run,
            StringToUTF16_run, hp, hq, List.length_replicate]
          by_cases h3 : (int w (int w (uint32 r.length) * 2)).toNat = 0
          · simp only [h3, if_true]
          · simp only [h3, if_false, sys_run, List.singleton_append, List.cons_append,
              List.nil_append]
            split <;> rfl
        · simp only [h2, if_false, not_false_eq_true, if_true]

/-! ### Arithmetic of `int` -/

theorem int_of_small (w : Nat) (hw : w = 32 ∨ w = 64) (x : Int)
    (h0 : -(2 ^ (w - 1)) ≤ x) (h1 : x < 2 ^ (w - 1)) : int w x = x := by
  rcases hw with rfl | rfl <;> simp only [int, wrapInt] <;> norm_num at h0 h1 ⊢ <;> omega

theorem int_of_large (w : Nat) (hw : w = 32 ∨ w = 64) (x : Int)
    (h0 : 2 ^ (w - 1) ≤ x) (h1 : x < 2 ^ w) : int w x = x - 2 ^ w := by
  rcases hw with rfl | rfl <;> simp only [int, wrapInt] <;> norm_num at h0 h1 ⊢ <;> omega

theorem pow_pred_pos (w : Nat) : (0 : Int) < 2 ^ (w - 1) := by positivity

theorem pow_eq_double (w : Nat) (hw : w = 32 ∨ w = 64) : (2 : Int) ^ w = 2 * 2 ^ (w - 1) := by
  rcases hw with rfl | rfl <;> norm_num

theorem pow_pred_ge (w : Nat) (hw : w = 32 ∨ w = 64) : (2147483648 : Int) ≤ 2 ^ (w - 1) := by
  rcases hw with rfl | rfl <;> norm_num

/-- A value that is non-negative after conversion of a non-negative value
below `2 ^ w` was not changed by the conversion. -/
theorem int_nonneg_eq (w : Nat) (hw : w = 32 ∨ w = 64) (x : Int) (h0 : 0 ≤ x)
    (h1 : x < 2 ^ w) (h : 0 ≤ int w x) : int w x = x := by
  by_cases hx : x < 2 ^ (w - 1)
  · exact int_of_small w hw x (by have := pow_pred_pos w; omega) hx
  · have := int_of_large w hw x (by omega) h1
    omega

theorem int_lt (w : Nat) (hw : w = 32 ∨ w = 64) (x : Int) : int w x < 2 ^ (w - 1) := by
  rcases hw with rfl | rfl <;> simp only [int, wrapInt] <;> norm_num <;> omega

theorem uint32_cast_lt (x : Int) : (uint32 x : Int) < 4294967296 := by
  have := uint32_lt x
  omega

/-! ### Buffers -/

theorem cells_length (k n : Nat) (m : List Nat) : (cells k n m).length = n := by
  induction n generalizing m with
  | zero => rfl
  | succ n ih => simp [cells, ih]

theorem pointCells_length (n : Nat) (m : List Nat) : (pointCells n m).length = n := by
  induction n generalizing m with
  | zero => rfl
  | succ n ih => simp [pointCells, ih]

@[simp] theorem osWrite_length (k : Nat) (b out : List Nat) :
    (osWrite k b out).length = b.length := cells_length _ _ _

@[simp] theorem osWritePoints_length (b : List Point) (out : List Nat) :
    (osWritePoints b out).length = b.length := pointCells_length _ _

theorem leValue_lt (m : List Nat) (h : ∀ b ∈ m, b < 256) : leValue m < 256 ^ m.length := by
  induction m with
  | nil => simp [leValue]
  | cons b bs ih =>
    have hb : b < 256 := h b (List.mem_cons_self _ _)
    have hbs := ih (fun x hx => h x (List.mem_cons_of_mem _ hx))
    simp only [leValue, List.length_cons, pow_succ]
    omega

theorem leBytes_lt (k x : Nat) : ∀ b ∈ leBytes k x, b < 256 := by
  induction k generalizing x with
  | zero => simp [leBytes]
  | succ k ih =>
    intro b hb
    simp only [leBytes, List.mem_cons] at hb
    rcases hb with rfl | hb
    · exact Nat.mod_lt _ (by norm_num)
    · exact ih _ b hb

theorem memOf_lt (k : Nat) (b : List Nat) : ∀ x ∈ memOf k b, x < 256 := by
  intro x hx
  simp only [memOf, List.mem_flatMap] at hx
  obtain ⟨a, _, ha⟩ := hx
  exact leBytes_lt k a x ha

theorem overlay_lt (old out : List Nat) (h : ∀ x ∈ old, x < 256) :
    ∀ x ∈ overlay old out, x < 256 := by
  intro x hx
  simp only [overlay, List.mem_append, List.mem_map] at hx
  rcases hx with ⟨a, _, rfl⟩ | hx
  · exact Nat.mod_lt _ (by norm_num)
  · exact h x (List.mem_of_mem_drop hx)

theorem cells_lt (k n : Nat) (m : List Nat) (h : ∀ x ∈ m, x < 256) :
    ∀ x ∈ cells k n m, x < 256 ^ k := by
  induction n generalizing m with
  | zero => simp [cells]
  | succ n ih =>
    intro x hx
    simp only [cells, List.mem_cons] at hx
    rcases hx with rfl | hx
    · have h1 := leValue_lt (m.take k) (fun b hb => h b (List.mem_of_mem_take hb))
      have h2 : (m.take k).length ≤ k := by simp
      calc leValue (m.take k) < 256 ^ (m.take k).length := h1
        _ ≤ 256 ^ k := Nat.pow_le_pow_right (by norm_num) h2
    · exact ih (m.drop k) (fun b hb => h b (List.mem_of_mem_drop hb)) x hx

theorem osWrite_lt (k : Nat) (b out : List Nat) : ∀ x ∈ osWrite k b out, x < 256 ^ k :=
  cells_lt k _ _ (overlay_lt _ _ (memOf_lt k b))

/-! ### Loops -/

theorem set_append_length {α : Type} (done rest : List α) (r v : α) :
    (done ++ r :: rest).set done.length v = done ++ v :: rest := by
  induction done with
  | nil => rfl
  | cons d ds ih => simp [ih]

/-- The loop that stores `f x` at index `i` for every `i, x` of `xs` fills `s`
with the images. -/
theorem forEach_store {β : Type} (f : β → Int) (xs : List β) (done rest : List Int) (os : OS)
    (tr : List Call) (h : rest.length = xs.length) :
    forEach (xs.enumFrom done.length) (fun im s => store s (im.1 : Int) (f im.2))
      (done ++ rest) os tr = (Except.ok (done ++ xs.map f), tr) := by
  induction xs generalizing done rest with
  | nil =>
    have : rest = [] := List.length_eq_zero.mp h
    simp [forEach, this]
  | cons x xs ih =>
    match rest, h with
    | r :: rest, h =>
      have hlen : rest.length = xs.length := by simpa using h
      have hidx : (done.length : Int) < ((done ++ r :: rest).length : Int) := by
        simp only [List.length_append, List.length_cons]; omega
      simp only [List.enumFrom_cons, forEach, bind_run, store_run]
      simp only [Int.ofNat_nonneg, true_and, hidx, if_true, Int.toNat_ofNat,
        set_append_length]
      have := ih (done ++ [f x]) rest hlen
      simp only [List.length_append, List.length_singleton, List.append_assoc,
        List.singleton_append] at this
      rw [this]
      simp

/-- What a successful capability query went through. -/
theorem capRun_ok {β : Type} (w : Nat) (printerName port : String) (cap : Nat)
    (bufLen : Int → Int) (k : Nat) (decode : Int → Reply → Go (Option (List β) × Option Errno))
    (os : OS) (l : List β)
    (h : (capRun w printerName port cap bufLen k decode os).1 = Except.ok (some l, none)) :
    ¬ hasNul printerName ∧ ¬ hasNul port ∧
    (os [] (probeCall printerName port cap)).err = none ∧
    0 < int w (uint32 (os [] (probeCall printerName port cap)).length) ∧
    0 < bufLen (int w (uint32 (os [] (probeCall printerName port cap)).length)) ∧
    bufLen (int w (uint32 (os [] (probeCall printerName port cap)).length)) < 2 ^ (w - 1) ∧
    (os [probeCall printerName port cap] (fillCall printerName port cap
      (k * (bufLen (int w (uint32 (os [] (probeCall printerName port cap)).length))).toNat))).err
      = none ∧
    (decode (int w (uint32 (os [] (probeCall printerName port cap)).length))
      (os [probeCall printerName port cap] (fillCall printerName port cap
        (k * (bufLen (int w (uint32 (os [] (probeCall printerName port cap)).length))).toNat)))
      os [probeCall printerName port cap, fillCall printerName port cap
        (k * (bufLen (int w (uint32 (os [] (probeCall printerName port cap)).length))).toNat)]).1
      = Except.ok (some l, none) := by
  unfold capRun at h
  simp only at h
  by_cases c0 : hasNul printerName ∨ hasNul port
  · simp [c0] at h
  · rw [if_neg c0] at h
    by_cases c1 : (os [] (probeCall printerName port cap)).err ≠ none ∨
        int w (uint32 (os [] (probeCall printerName port cap)).length) ≤ 0
    · simp [c1] at h
    · rw [if_neg c1] at h
      by_cases c2 : ¬ (0 ≤ bufLen (int w (uint32 (os [] (probeCall printerName port cap)).length))
          ∧ bufLen (int w (uint32 (os [] (probeCall printerName port cap)).length)) < 2 ^ (w - 1))
      · rw [if_pos c2] at h
        simp at h
      · rw [if_neg c2] at h
        by_cases c3 : (bufLen (int w (uint32 (os [] (probeCall printerName port cap)).length))).toNat = 0
        · rw [if_pos c3] at h
          simp at h
        · rw [if_neg c3] at h
          by_cases c4 : (os [probeCall printerName port cap] (fillCall printerName port cap
              (k * (bufLen (int w (uint32 (os [] (probeCall printerName port cap)).length))).toNat))).err
              ≠ none
          · rw [if_pos c4] at h
            simp at h
          · rw [if_neg c4] at h
            push_neg at c0 c1 c2 c4
            refine ⟨c0.1, c0.2, c1.1, c1.2, ?_, c2.2, c4, h⟩
            omega

theorem store_decode (w : Nat) (k : Nat) (m : Int) (hm : 0 ≤ m) (hlt : m < 2 ^ (w - 1))
    (out : List Nat) (os : OS) (tr : List Call) :
    (makeInts w m >>= fun xs =>
      forEach (osWrite k (List.replicate m.toNat 0) out).enum
        (fun im xs => store xs (im.1 : Int) (int w im.2)) xs
      >>= fun xs => (pure (some xs, none) : Go (Option (List Int) × Option Errno)))
      os tr =
    (Except.ok (some ((osWrite k (List.replicate m.toNat 0) out).map (fun x : Nat => int w x)), none),
      tr) := by
  simp only [bind_run, makeInts_run, hm, hlt, and_self, if_true]
  have h := forEach_store (fun x : Nat => int w x) (osWrite k (List.replicate m.toNat 0) out)
    [] (List.replicate m.toNat 0) os tr (by simp)
  simp only [List.length_nil, List.nil_append] at h
  rw [List.enum, h]
  simp only [pure_run]

theorem map_int_uint16 (w : Nat) (hw : w = 32 ∨ w = 64) (b out : List Nat) :
    (osWrite 2 b out).map (fun x : Nat => int w x) = (osWrite 2 b out).map Int.ofNat := by
  apply List.map_congr_left
  intro x hx
  have hx16 := osWrite_lt 2 _ _ x hx
  have hp := pow_pred_ge w hw
  apply int_of_small w hw
  · have := pow_pred_pos w; omega
  · norm_num at hx16; omega

/-- The loop of `GetAllMediaSizes` fills the result with X, Y, X, Y, ... -/
theorem forEach_store2 (w : Nat) (hw : w = 32 ∨ w = 64) (xs : List Point) (k : Nat)
    (done rest : List Int) (os : OS) (tr : List Call) (h1 : done.length = 2 * k)
    (h2 : rest.length = 2 * xs.length)
    (hb : ((done.length + rest.length : Nat) : Int) < 2 ^ (w - 1)) :
    forEach (xs.enumFrom k)
      (fun im mediaSizes => do
        let mediaSizes ← store mediaSizes (int w ((im.1 : Int) * 2)) (int w im.2.X)
        store mediaSizes (int w (int w ((im.1 : Int) * 2) + 1)) (int w im.2.Y))
      (done ++ rest) os tr =
    (Except.ok (done ++ xs.flatMap (fun p => [int w p.X, int w p.Y])), tr) := by
  induction xs generalizing k done rest with
  | nil =>
    have : rest = [] := List.length_eq_zero.mp (by simpa using h2)
    simp [forEach, this]
  | cons x xs ih =>
    match rest, h2 with
    | r1 :: r2 :: rest, h2 =>
      have hlen : rest.length = 2 * xs.length := by
        simp only [List.length_cons] at h2; omega
      simp only [List.length_cons] at hb
      have hpp := pow_pred_pos w
      have e1 : int w ((k : Int) * 2) = (done.length : Int) := by
        rw [int_of_small w hw _ (by omega) (by omega)]; omega
      have e2 : int w ((done.length : Int) + 1) = ((done ++ [int w x.X]).length : Int) := by
        rw [int_of_small w hw _ (by omega) (by omega)]; simp
      have i1 : (done.length : Int) < ((done ++ r1 :: r2 :: rest).length : Int) := by
        simp only [List.length_append, List.length_cons]; omega
      have i2 : ((done ++ [int w x.X]).length : Int)
          < (((done ++ [int w x.X]) ++ r2 :: rest).length : Int) := by
        simp only [List.length_append, List.length_cons]; omega
      have l1 : done ++ int w x.X :: r2 :: rest = (done ++ [int w x.X]) ++ r2 :: rest := by simp
      simp only [List.enumFrom_cons, forEach, bind_run, store_run, e1]
      simp only [Int.ofNat_nonneg, true_and, i1, if_true, Int.toNat_ofNat, set_append_length,
        e2]
      rw [l1]
      simp only [Int.ofNat_nonneg, true_and, i2, if_true, Int.toNat_ofNat, set_append_length]
      have := ih (k + 1) (done ++ [int w x.X, int w x.Y]) rest
        (by simp only [List.length_append, List.length_cons, List.length_nil]; omega) hlen
        (by simp only [List.length_append, List.length_cons, List.length_nil]; push_cast; omega)
      simp only [List.append_assoc, List.cons_append, List.nil_append] at this ⊢
      rw [this]
      simp

theorem sizes_decode (w : Nat) (hw : w = 32 ∨ w = 64) (n : Int) (hn : 0 < n)
    (hlt : n < 2 ^ (w - 1)) (out : List Nat) (os : OS) (tr : List Call) :
    (makeInts w (int w (n * 2)) >>= fun mediaSizes =>
      forEach (osWritePoints (List.replicate n.toNat ⟨0, 0⟩) out).enum
        (fun im mediaSizes => do
          let mediaSizes ← store mediaSizes (int w ((im.1 : Int) * 2)) (int w im.2.X)
          store mediaSizes (int w (int w ((im.1 : Int) * 2) + 1)) (int w im.2.Y)) mediaSizes
      >>= fun mediaSizes =>
        (pure (some mediaSizes, none) : Go (Option (List Int) × Option Errno))) os tr =
    if 0 ≤ int w (n * 2) then
      (Except.ok (some ((osWritePoints (List.replicate n.toNat ⟨0, 0⟩) out).flatMap
        (fun p => [int w p.X, int w p.Y])), none), tr)
    else (Except.error Panic.makeLen, tr) := by
  have hlt2 := int_lt w hw (n * 2)
  by_cases h0 : 0 ≤ int w (n * 2)
  · have he : int w (n * 2) = n * 2 :=
      int_nonneg_eq w hw _ (by omega) (by rw [pow_eq_double w hw]; omega) h0
    simp only [bind_run, makeInts_run, h0, hlt2, and_self, if_true]
    have hlen : (List.replicate (int w (n * 2)).toNat (0 : Int)).length
        = 2 * (osWritePoints (List.replicate n.toNat ⟨0, 0⟩) out).length := by
      simp only [List.length_replicate, osWritePoints_length, he]; omega
    have h := forEach_store2 w hw (osWritePoints (List.replicate n.toNat ⟨0, 0⟩) out) 0 []
      (List.replicate (int w (n * 2)).toNat 0) os tr rfl hlen
      (by simp only [List.length_nil, List.length_replicate, zero_add]
          rw [Int.toNat_of_nonneg h0]; exact hlt2)
    simp only [List.nil_append] at h
    rw [List.enum, h]
    simp only [pure_run]
  · simp only [bind_run, makeInts_run, h0, false_and, if_false]

/-- The loop of `GetAllMediaNames`: when it completes from round `k` on, every
slice was in range and one name was appended per round. -/
theorem names_loop (w : Nat) (hw : w = 32 ∨ w = 64) (buf : List Nat)
    (hbuf : (buf.length : Int) < 2 ^ (w - 1)) (m k : Nat) (names res : List String)
    (os : OS) (tr tr1 : List Call) (hk : 64 * k ≤ buf.length)
    (h : forEach ((List.range' k m).map Int.ofNat)
      (fun i names => do
        let s ← slice buf (int w (i * 64)) (int w ((i + 1) * 64))
        pure (names ++ [UTF16ToString s])) names os tr = (Except.ok res, tr1)) :
    64 * (k + m) ≤ buf.length ∧
    res = names ++ (List.range' k m).map (fun i => UTF16ToString ((buf.drop (64 * i)).take 64)) ∧
    tr1 = tr := by
  induction m generalizing k names with
  | zero =>
    simp only [List.range'_zero, List.map_nil, forEach, pure_run, Prod.mk.injEq,
      Except.ok.injEq] at h
    exact ⟨by omega, by simp [h.1], h.2.symm⟩
  | succ m ih =>
    have hpp := pow_pred_pos w
    have hdd := pow_eq_double w hw
    have hge := pow_pred_ge w hw
    have elo : int w ((k : Int) * 64) = ((64 * k : Nat) : Int) := by
      rw [int_of_small w hw _ (by omega) (by omega)]; push_cast; ring
    simp only [List.range'_succ, List.map_cons, forEach, bind_run, slice_run,
      Int.ofNat_eq_coe, elo] at h
    by_cases hhi : ((k : Int) + 1) * 64 < 2 ^ (w - 1)
    · have ehi : int w (((k : Int) + 1) * 64) = ((64 * (k + 1) : Nat) : Int) := by
        rw [int_of_small w hw _ (by omega) hhi]; push_cast; ring
      rw [ehi] at h
      by_cases hin : 64 * (k + 1) ≤ buf.length
      · have c : (0 : Int) ≤ ((64 * k : Nat) : Int) ∧ ((64 * k : Nat) : Int) ≤ ((64 * (k + 1) : Nat) : Int)
            ∧ ((64 * (k + 1) : Nat) : Int) ≤ (buf.length : Int) := by
          refine ⟨by omega, by omega, by exact_mod_cast hin⟩
        simp only [c, and_self, if_true, Int.toNat_ofNat, pure_run] at h
        have := ih (k + 1) _ hin h
        refine ⟨by omega, ?_, this.2.2⟩
        rw [this.2.1]
        have e64 : 64 * (k + 1) - 64 * k = 64 := by omega
        simp [e64, List.range'_succ]
      · have c : ¬ ((0 : Int) ≤ ((64 * k : Nat) : Int) ∧ ((64 * k : Nat) : Int) ≤ ((64 * (k + 1) : Nat) : Int)
            ∧ ((64 * (k + 1) : Nat) : Int) ≤ (buf.length : Int)) := by
          intro hc; exact hin (by exact_mod_cast hc.2.2)
        simp only [c, if_false] at h
        simp at h
    · have ehi : int w (((k : Int) + 1) * 64) = ((k : Int) + 1) * 64 - 2 ^ w :=
        int_of_large w hw _ (by omega) (by omega)
      have c : ¬ ((0 : Int) ≤ ((64 * k : Nat) : Int) ∧ ((64 * k : Nat) : Int) ≤ int w (((k : Int) + 1) * 64)
            ∧ int w (((k : Int) + 1) * 64) ≤ (buf.length : Int)) := by
        intro hc; rw [ehi] at hc; omega
      simp only [c, if_false] at h
      simp at h

/-! ## Claims on the capability queries -/

theorem names_decode (w : Nat) (hw : w = 32 ∨ w = 64) (n : Int) (hn : 0 < n)
    (hb0 : 0 < int w (n * 64)) (hb1 : int w (n * 64) < 2 ^ (w - 1)) (r : Reply) (os : OS)
    (tr : List Call) (l : List String)
    (h : ((do
        let buf := osWrite 2 (List.replicate (int w (n * 64)).toNat 0) r.out
        let names ← forEach (upTo n)
          (fun i names => do
            let s ← slice buf (int w (i * 64)) (int w ((i + 1) * 64))
            pure (names ++ [UTF16ToString s])) []
        pure (some names, r.err) : Go (Option (List String) × Option Errno)) os tr).1
      = Except.ok (some l, none)) :
    int w (n * 64) = 64 * n ∧
    l = (List.range n.toNat).map (fun i => UTF16ToString
      (((osWrite 2 (List.replicate (int w (n * 64)).toNat 0) r.out).drop (64 * i)).take 64)) := by
  simp only [bind_run, upTo, List.range_eq_range'] at h
  have hlen : (((osWrite 2 (List.replicate (int w (n * 64)).toNat 0) r.out).length : Nat) : Int)
      < 2 ^ (w - 1) := by
    simp only [osWrite_length, List.length_replicate]
    rw [Int.toNat_of_nonneg (le_of_lt hb0)]; exact hb1
  rcases hres : forEach (List.map Int.ofNat (List.range' 0 n.toNat))
      (fun i names => do
        let s ← slice (osWrite 2 (List.replicate (int w (n * 64)).toNat 0) r.out)
          (int w (i * 64)) (int w ((i + 1) * 64))
        pure (names ++ [UTF16ToString s])) [] os tr with ⟨res, tr1⟩
  rw [hres] at h
  cases res with
  | error p => simp at h
  | ok names =>
    simp only [pure_run, Except.ok.injEq, Prod.mk.injEq, Option.some.injEq] at h
    have := names_loop w hw _ hlen n.toNat 0 [] names os tr tr1 (by omega) hres
    simp only [osWrite_length, List.length_replicate, zero_add, List.nil_append] at this
    refine ⟨?_, ?_⟩
    · have h64 : 64 * n ≤ int w (n * 64) := by omega
      have hpp := pow_pred_pos w
      rw [show n * 64 = 64 * n by ring]
      rw [show n * 64 = 64 * n by ring] at h64 hb1
      exact int_of_small w hw _ (by omega) (by omega)
    · rw [← h.1, this.2.1, List.range_eq_range']

/-- What a capability query returned, given that it returned a list: the probe
count `n` is positive, and there are `n` names, `n` IDs, `2 n` size entries or
`2 n` resolution entries; the names are the 64-unit slices of the filled buffer
decoded up to the first NUL, the IDs its 16-bit values. -/
theorem counts_of_result (w : Nat) (hw : w = 32 ∨ w = 64) (printerName port : String)
    (os : OS) :
    (∀ l, (GetAllMediaNames w printerName port).result os = Except.ok (some l, none) →
      0 < probed w printerName port DC_PAPERNAMES os ∧
      (l.length : Int) = probed w printerName port DC_PAPERNAMES os ∧
      l = (List.range (probed w printerName port DC_PAPERNAMES os).toNat).map (fun i =>
        UTF16ToString (((osWrite 2
          (List.replicate (64 * (probed w printerName port DC_PAPERNAMES os).toNat) 0)
          (filled printerName port DC_PAPERNAMES
            (2 * (64 * (probed w printerName port DC_PAPERNAMES os).toNat)) os)).drop
              (64 * i)).take 64))) ∧
    (∀ l, (GetAllMediaIDs w printerName port).result os = Except.ok (some l, none) →
      0 < probed w printerName port DC_PAPERS os ∧
      (l.length : Int) = probed w printerName port DC_PAPERS os ∧
      l = (osWrite 2 (List.replicate (probed w printerName port DC_PAPERS os).toNat 0)
        (filled printerName port DC_PAPERS
          (2 * (probed w printerName port DC_PAPERS os).toNat) os)).map Int.ofNat) ∧
    (∀ l, (GetAllMediaSizes w printerName port).result os = Except.ok (some l, none) →
      0 < probed w printerName port DC_PAPERSIZE os ∧
      (l.length : Int) = 2 * probed w printerName port DC_PAPERSIZE os) ∧
    (∀ l, (GetAllResolutions w printerName port).result os = Except.ok (some l, none) →
      0 < probed w printerName port DC_ENUMRESOLUTIONS os ∧
      (l.length : Int) = 2 * probed w printerName port DC_ENUMRESOLUTIONS os) := by
  refine ⟨?_, ?_, ?_, ?_⟩
  · intro l h
    rw [Go.result, GetAllMediaNames_run] at h
    obtain ⟨-, -, -, hn, hb0, hb1, -, hdec⟩ := capRun_ok w _ _ _ _ _ _ os l h
    obtain ⟨he, hl⟩ := names_decode w hw _ hn hb0 hb1 _ os _ l hdec
    have hnat : (int w (int w (uint32 (os [] (probeCall printerName port DC_PAPERNAMES)).length)
        * 64)).toNat
        = 64 * (int w (uint32 (os [] (probeCall printerName port DC_PAPERNAMES)).length)).toNat := by
      rw [he]; omega
    rw [hnat] at hl
    refine ⟨hn, ?_, hl⟩
    rw [hl]
    simp only [List.length_map, List.length_range, probed]
    omega
  · intro l h
    rw [Go.result, GetAllMediaIDs_run] at h
    obtain ⟨-, -, -, hn, -, hb1, -, hdec⟩ := capRun_ok w _ _ _ _ _ _ os l h
    have hd := store_decode w 2 _ (le_of_lt hn) hb1
      (os [probeCall printerName port DC_PAPERS] (fillCall printerName port DC_PAPERS
        (2 * (int w (uint32 (os [] (probeCall printerName port DC_PAPERS)).length)).toNat))).out
      os [probeCall printerName port DC_PAPERS, fillCall printerName port DC_PAPERS
        (2 * (int w (uint32 (os [] (probeCall printerName port DC_PAPERS)).length)).toNat)]
    simp only [] at hdec
    rw [hd, map_int_uint16 w hw] at hdec
    simp only [Except.ok.injEq, Prod.mk.injEq, Option.some.injEq, and_true] at hdec
    refine ⟨hn, ?_, hdec.symm⟩
    rw [← hdec]
    simp only [List.length_map, osWrite_length, List.length_replicate, probed]
    omega
  · intro l h
    rw [Go.result, GetAllMediaSizes_run] at h
    obtain ⟨-, -, -, hn, -, hb1, -, hdec⟩ := capRun_ok w _ _ _ _ _ _ os l h
    simp only [] at hdec
    rw [sizes_decode w hw _ hn hb1] at hdec
    split at hdec
    · simp only [Except.ok.injEq, Prod.mk.injEq, Option.some.injEq, and_true] at hdec
      refine ⟨hn, ?_⟩
      rw [← hdec]
      have hlen : ∀ ps : List Point,
          (ps.flatMap (fun p => [int w p.X, int w p.Y])).length = 2 * ps.length := by
        intro ps
        induction ps with
        | nil => rfl
        | cons p ps ih => simp only [List.flatMap_cons, List.length_append, ih,
            List.length_cons, List.length_nil]; omega
      rw [hlen]
      simp only [osWritePoints_length, List.length_replicate, probed]
      omega
    · simp at hdec
  · intro l h
    rw [Go.result, GetAllResolutions_run] at h
    obtain ⟨-, -, -, hn, hb0, hb1, -, hdec⟩ := capRun_ok w _ _ _ _ _ _ os l h
    have hd := store_decode w (w / 8) _ (le_of_lt hb0) hb1
      (os [probeCall printerName port DC_ENUMRESOLUTIONS]
        (fillCall printerName port DC_ENUMRESOLUTIONS (w / 8 *
          (int w (int w (uint32 (os [] (probeCall printerName port DC_ENUMRESOLUTIONS)).length)
            * 2)).toNat))).out
      os [probeCall printerName port DC_ENUMRESOLUTIONS,
        fillCall printerName port DC_ENUMRESOLUTIONS (w / 8 *
          (int w (int w (uint32 (os [] (probeCall printerName port DC_ENUMRESOLUTIONS)).length)
            * 2)).toNat)]
    simp only [] at hdec
    rw [hd] at hdec
    simp only [Except.ok.injEq, Prod.mk.injEq, Option.some.injEq, and_true] at hdec
    have hlt := int_lt w hw (uint32 (os [] (probeCall printerName port DC_ENUMRESOLUTIONS)).length)
    have he := int_nonneg_eq w hw
      (int w (uint32 (os [] (probeCall printerName port DC_ENUMRESOLUTIONS)).length) * 2)
      (by omega) (by rw [pow_eq_double w hw]; omega) (le_of_lt hb0)
    refine ⟨hn, ?_⟩
    rw [← hdec]
    simp only [List.length_map, osWrite_length, List.length_replicate, probed, he]
    omega


/-! ### Round trip through the buffer -/

theorem leBytes_length (k x : Nat) : (leBytes k x).length = k := by
  induction k generalizing x with
  | zero => rfl
  | succ k ih => simp [leBytes, ih]

theorem leValue_leBytes (k x : Nat) : leValue (leBytes k x) = x % 256 ^ k := by
  induction k generalizing x with
  | zero => simp [leBytes, leValue, Nat.mod_one]
  | succ k ih => simp only [leBytes, leValue, ih, pow_succ', Nat.mod_mul]

theorem pointMem_length (pts : List Point) : (pointMem pts).length = 8 * pts.length := by
  induction pts with
  | nil => rfl
  | cons p ps ih =>
    simp only [pointMem, List.flatMap_cons, List.length_append, leBytes_length,
      List.length_cons] at ih ⊢
    omega

theorem pointMem_lt (pts : List Point) : ∀ x ∈ pointMem pts, x < 256 := by
  intro x hx
  simp only [pointMem, List.mem_flatMap, List.mem_append] at hx
  obtain ⟨p, _, hp | hp⟩ := hx
  · exact leBytes_lt 4 _ x hp
  · exact leBytes_lt 4 _ x hp

theorem overlay_full (old out : List Nat) (hlen : out.length = old.length)
    (hout : ∀ x ∈ out, x < 256) : overlay old out = out := by
  unfold overlay
  rw [hlen, List.drop_length, ← hlen, List.take_length, List.append_nil]
  conv_rhs => rw [← List.map_id out]
  apply List.map_congr_left
  intro x hx
  exact Nat.mod_eq_of_lt (hout x hx)

theorem pointCells_pointMem (pts : List Point)
    (h : ∀ p ∈ pts, p.X < 4294967296 ∧ p.Y < 4294967296) :
    pointCells pts.length (pointMem pts) = pts := by
  induction pts with
  | nil => rfl
  | cons p ps ih =>
    have hp := h p (List.mem_cons_self _ _)
    have ih1 := ih (fun q hq => h q (List.mem_cons_of_mem _ hq))
    have e : pointMem (p :: ps) = leBytes 4 p.X ++ (leBytes 4 p.Y ++ pointMem ps) := by
      simp [pointMem]
    have t1 : (leBytes 4 p.X ++ (leBytes 4 p.Y ++ pointMem ps)).take 4 = leBytes 4 p.X := by
      rw [List.take_left' (leBytes_length 4 p.X)]
    have d1 : (leBytes 4 p.X ++ (leBytes 4 p.Y ++ pointMem ps)).drop 4
        = leBytes 4 p.Y ++ pointMem ps := by
      rw [List.drop_left' (leBytes_length 4 p.X)]
    have t2 : (leBytes 4 p.Y ++ pointMem ps).take 4 = leBytes 4 p.Y := by
      rw [List.take_left' (leBytes_length 4 p.Y)]
    have d2 : (leBytes 4 p.X ++ (leBytes 4 p.Y ++ pointMem ps)).drop 8 = pointMem ps := by
      rw [show 8 = 4 + 4 from rfl, ← List.drop_drop, d1, List.drop_left' (leBytes_length 4 p.Y)]
    simp only [List.length_cons, pointCells, e, t1, d1, t2, d2, leValue_leBytes, ih1]
    have hx : p.X % 256 ^ 4 = p.X := Nat.mod_eq_of_lt (by norm_num; exact hp.1)
    have hy : p.Y % 256 ^ 4 = p.Y := Nat.mod_eq_of_lt (by norm_num; exact hp.2)
    rw [hx, hy]

theorem osWritePoints_pointMem (pts : List Point)
    (h : ∀ p ∈ pts, p.X < 4294967296 ∧ p.Y < 4294967296) :
    osWritePoints (List.replicate pts.length ⟨0, 0⟩) (pointMem pts) = pts := by
  unfold osWritePoints
  rw [overlay_full _ _ (by simp [pointMem_length]) (pointMem_lt pts)]
  simpa using pointCells_pointMem pts h

theorem flatMap_pair_get (f g : Point → Int) (pts : List Point) (i : Nat) (p : Point)
    (h : pts[i]? = some p) :
    (pts.flatMap (fun p => [f p, g p]))[2 * i]? = some (f p) ∧
    (pts.flatMap (fun p => [f p, g p]))[2 * i + 1]? = some (g p) := by
  induction pts generalizing i with
  | nil => simp at h
  | cons q qs ih =>
    cases i with
    | zero =>
      simp only [List.getElem?_cons_zero, Option.some.injEq] at h
      subst h
      simp
    | succ i =>
      simp only [List.getElem?_cons_succ] at h
      have := ih i h
      simp only [List.flatMap_cons, List.cons_append, List.nil_append]
      rw [show 2 * (i + 1) = 2 * i + 1 + 1 by ring]
      simp only [List.getElem?_cons_succ]
      exact this

/-- C8 (as amended): for every successful `GetAllMediaSizes` call whose probe
reports `n` papers and whose fill call writes `n` packed (X, Y) unsigned 32-bit
pairs, on a platform whose `int` has 64 bits, or when every X and Y is below
2^31, the result is the flat list X0, Y0, X1, Y1, ...: element `2 i` is the X
of the i-th pair and element `2 i + 1` its Y, each as a non-negative integer. -/
theorem media_sizes_pairs (w : Nat) (hw : w = 32 ∨ w = 64) (printerName port : String)
    (os : OS) (pts : List Point) (l : List Int)
    (hok : (GetAllMediaSizes w printerName port).result os = Except.ok (some l, none))
    (hn : (pts.length : Int) = probed w printerName port DC_PAPERSIZE os)
    (hpts : ∀ p ∈ pts, p.X < 4294967296 ∧ p.Y < 4294967296)
    (hout : filled printerName port DC_PAPERSIZE (8 * pts.length) os = pointMem pts)
    (hfit : w = 64 ∨ ∀ p ∈ pts, p.X < 2147483648 ∧ p.Y < 2147483648) :
    l = pts.flatMap (fun p => [(p.X : Int), (p.Y : Int)]) ∧
    ∀ i p, pts[i]? = some p →
      l[2 * i]? = some (p.X : Int) ∧ l[2 * i + 1]? = some (p.Y : Int) := by
  have hl : l = pts.flatMap (fun p => [(p.X : Int), (p.Y : Int)]) := by
    rw [Go.result, GetAllMediaSizes_run] at hok
    obtain ⟨-, -, -, hpos, -, hb1, -, hdec⟩ := capRun_ok w _ _ _ _ _ _ os l hok
    simp only [] at hdec
    rw [sizes_decode w hw _ hpos hb1] at hdec
    have hnat : (int w (uint32 (os [] (probeCall printerName port DC_PAPERSIZE)).length)).toNat
        = pts.length := by
      unfold probed at hn; omega
    split at hdec
    · simp only [Except.ok.injEq, Prod.mk.injEq, Option.some.injEq, and_true] at hdec
      unfold filled at hout
      rw [hnat, hout, osWritePoints_pointMem pts hpts] at hdec
      rw [← hdec]
      apply List.flatMap_congr
      intro p hp
      have hpp := pow_pred_pos w
      have hb := hpts p hp
      have hx : int w (p.X : Int) = p.X := by
        apply int_of_small w hw _ (by omega)
        rcases hfit with rfl | hs
        · norm_num; omega
        · have := pow_pred_ge w hw; have := hs p hp; omega
      have hy : int w (p.Y : Int) = p.Y := by
        apply int_of_small w hw _ (by omega)
        rcases hfit with rfl | hs
        · norm_num; omega
        · have := pow_pred_ge w hw; have := hs p hp; omega
      rw [hx, hy]
    · simp at hdec
  refine ⟨hl, ?_⟩
  intro i p hp
  rw [hl]
  exact flatMap_pair_get _ _ pts i p hp

/-- Witness for C8: the papers 2100 x 2970 and 2159 x 2794 come back as
2100, 2970, 2159, 2794. -/
theorem media_sizes_pairs_witness :
    (64 = 32 ∨ 64 = 64) ∧
    (GetAllMediaSizes 64 "P" "LPT1").result osPapers
      = Except.ok (some [2100, 2970, 2159, 2794], none) ∧
    ([2100, 2970, 2159, 2794] : List Int)
      = ([⟨2100, 2970⟩, ⟨2159, 2794⟩] : List Point).flatMap
          (fun p => [(p.X : Int), (p.Y : Int)]) :=
  ⟨Or.inr rfl, by rfl,
   (media_sizes_pairs 64 (Or.inr rfl) "P" "LPT1" osPapers [⟨2100, 2970⟩, ⟨2159, 2794⟩]
     [2100, 2970, 2159, 2794] (by rfl) (by rfl) (by decide) (by rfl) (Or.inl rfl)).1⟩

/-- C8 fails as stated: on a platform whose `int` has 32 bits, a paper of
width 2147483648 is returned as the negative number -2147483648. -/
theorem media_sizes_wide_counterexample :
    probed 32 "P" "LPT1" DC_PAPERSIZE osWidePaper = 1 ∧
    filled "P" "LPT1" DC_PAPERSIZE 8 osWidePaper = pointMem [⟨2147483648, 1⟩] ∧
    (GetAllMediaSizes 32 "P" "LPT1").result osWidePaper
      = Except.ok (some [-2147483648, 1], none) :=
  ⟨by rfl, by rfl, by rfl⟩

/-- C9, the code at the failing input: on a platform whose `uint` has 64 bits,
a printer with the single resolution 600 x 600 (the OS stores the two 32-bit
values 600, 600) yields the list 2576980378200, 0, where 2576980378200 is
600 + 600 * 2^32, and not 600, 600. -/
theorem resolutions_packed_on_64 :
    probed 64 "P" "LPT1" DC_ENUMRESOLUTIONS osOneResolution = 1 ∧
    filled "P" "LPT1" DC_ENUMRESOLUTIONS 16 osOneResolution = memOf 4 [600, 600] ∧
    (GetAllResolutions 64 "P" "LPT1").result osOneResolution
      = Except.ok (some [2576980378200, 0], none) ∧
    (GetAllResolutions 32 "P" "LPT1").result osOneResolution
      = Except.ok (some [600, 600], none) :=
  ⟨by rfl, by rfl, by rfl, by rfl⟩


/-- A capability query for paper IDs whose probe and fill call succeed. -/
theorem GetAllMediaIDs_filled (w : Nat) (hw : w = 32 ∨ w = 64) (printerName port : String)
    (os : OS) (h0 : ¬ hasNul printerName) (h1 : ¬ hasNul port)
    (he : (os [] (probeCall printerName port DC_PAPERS)).err = none)
    (hn : 0 < probed w printerName port DC_PAPERS os)
    (hf : (os [probeCall printerName port DC_PAPERS] (fillCall printerName port DC_PAPERS
      (2 * (probed w printerName port DC_PAPERS os).toNat))).err = none) :
    GetAllMediaIDs w printerName port os [] =
      (Except.ok (some ((osWrite 2
        (List.replicate (probed w printerName port DC_PAPERS os).toNat 0)
        (filled printerName port DC_PAPERS
          (2 * (probed w printerName port DC_PAPERS os).toNat) os)).map Int.ofNat), none),
       [probeCall printerName port DC_PAPERS, fillCall printerName port DC_PAPERS
          (2 * (probed w printerName port DC_PAPERS os).toNat)]) := by
  rw [GetAllMediaIDs_run]
  unfold capRun
  unfold probed at hn hf
  have hlt := int_lt w hw (uint32 (os [] (probeCall printerName port DC_PAPERS)).length)
  have c1 : ¬ ((os [] (probeCall printerName port DC_PAPERS)).err ≠ none ∨
      int w (uint32 (os [] (probeCall printerName port DC_PAPERS)).length) ≤ 0) := by
    push_neg; exact ⟨he, hn⟩
  have c2 : ¬ ¬ (0 ≤ int w (uint32 (os [] (probeCall printerName port DC_PAPERS)).length) ∧
      int w (uint32 (os [] (probeCall printerName port DC_PAPERS)).length) < 2 ^ (w - 1)) := by
    push_neg; exact ⟨le_of_lt hn, hlt⟩
  have c3 : ¬ (int w (uint32 (os [] (probeCall printerName port DC_PAPERS)).length)).toNat = 0 := by
    omega
  have c4 : ¬ (os [probeCall printerName port DC_PAPERS] (fillCall printerName port DC_PAPERS
      (2 * (int w (uint32 (os [] (probeCall printerName port DC_PAPERS)).length)).toNat))).err
      ≠ none := by
    push_neg; exact hf
  have c0 : ¬ (hasNul printerName ∨ hasNul port) := by
    push_neg; exact ⟨h0, h1⟩
  simp only []
  rw [if_neg c0, if_neg c1, if_neg c2, if_neg c3, if_neg c4]
  rw [store_decode w 2 _ (le_of_lt hn) hlt, map_int_uint16 w hw]
  rfl

/-- C6, the code at the failing input: on a platform whose `int` has 64 bits,
when the probe of `GetAllMediaIDs` returns without error and reports -1 (the
bit pattern 0xFFFFFFFF of the `uint32` result), the count becomes 4294967295;
the operation allocates a buffer of that many 16-bit elements, issues the fill
call and returns 4294967295 integers instead of a nil list.  With an `int` of
32 bits the same reply is "no data". -/
theorem minus_one_not_no_data :
    (osMinusOne [] (probeCall "P" "LPT1" DC_PAPERS)).err = none ∧
    int32 (uint32 (osMinusOne [] (probeCall "P" "LPT1" DC_PAPERS)).length) = -1 ∧
    probed 64 "P" "LPT1" DC_PAPERS osMinusOne = 4294967295 ∧
    (GetAllMediaIDs 64 "P" "LPT1").calls osMinusOne
      = [probeCall "P" "LPT1" DC_PAPERS, fillCall "P" "LPT1" DC_PAPERS 8589934590] ∧
    (∃ l, (GetAllMediaIDs 64 "P" "LPT1").result osMinusOne = Except.ok (some l, none) ∧
      l.length = 4294967295) ∧
    (GetAllMediaIDs 32 "P" "LPT1").result osMinusOne = Except.ok (none, none) ∧
    (GetAllMediaIDs 32 "P" "LPT1").calls osMinusOne = [probeCall "P" "LPT1" DC_PAPERS] := by
  have hp : probed 64 "P" "LPT1" DC_PAPERS osMinusOne = 4294967295 := by rfl
  have hnat : (probed 64 "P" "LPT1" DC_PAPERS osMinusOne).toNat = 4294967295 := by
    rw [hp]; rfl
  have hrun := GetAllMediaIDs_filled 64 (Or.inr rfl) "P" "LPT1" osMinusOne (by decide)
    (by decide) rfl (by rw [hp]; decide) rfl
  rw [hnat] at hrun
  refine ⟨rfl, by rfl, hp, ?_, ?_, by rfl, by rfl⟩
  · rw [Go.calls, hrun]
  · refine ⟨(osWrite 2 (List.replicate 4294967295 0)
      (filled "P" "LPT1" DC_PAPERS (2 * 4294967295) osMinusOne)).map Int.ofNat, ?_, ?_⟩
    · rw [Go.result, hrun]
    · rw [List.length_map, osWrite_length, List.length_replicate]

/-! ## The capability queries return what the probe counted -/

/-- A capability query whose probe and fill call succeed with a buffer that
fits goes on to decode the filled buffer. -/
theorem capRun_filled {β : Type} (w : Nat) (printerName port : String) (cap : Nat)
    (bufLen : Int → Int) (k : Nat) (decode : Int → Reply → Go (Option (List β) × Option Errno))
    (os : OS) (n : Int) (h0 : ¬ hasNul printerName) (h1 : ¬ hasNul port)
    (hn : n = int w (uint32 (os [] (probeCall printerName port cap)).length))
    (he : (os [] (probeCall printerName port cap)).err = none) (hpos : 0 < n)
    (hb0 : 0 < bufLen n) (hb1 : bufLen n < 2 ^ (w - 1))
    (hf : (os [probeCall printerName port cap]
      (fillCall printerName port cap (k * (bufLen n).toNat))).err = none) :
    capRun w printerName port cap bufLen k decode os =
      decode n (os [probeCall printerName port cap]
          (fillCall printerName port cap (k * (bufLen n).toNat))) os
        [probeCall printerName port cap, fillCall printerName port cap (k * (bufLen n).toNat)] := by
  unfold capRun
  simp only []
  rw [← hn]
  have c0 : ¬ (hasNul printerName ∨ hasNul port) := by push_neg; exact ⟨h0, h1⟩
  have c1 : ¬ ((os [] (probeCall printerName port cap)).err ≠ none ∨ n ≤ 0) := by
    push_neg; exact ⟨he, hpos⟩
  have c2 : ¬ ¬ (0 ≤ bufLen n ∧ bufLen n < 2 ^ (w - 1)) := by
    push_neg; exact ⟨le_of_lt hb0, hb1⟩
  have c3 : ¬ (bufLen n).toNat = 0 := by omega
  have c4 : ¬ (os [probeCall printerName port cap]
      (fillCall printerName port cap (k * (bufLen n).toNat))).err ≠ none := not_not.mpr hf
  rw [if_neg c0, if_neg c1, if_neg c2, if_neg c3, if_neg c4]

/-- The loop of `GetAllMediaNames` completes when the buffer holds all the
slices it takes. -/
theorem names_loop_ok (w : Nat) (hw : w = 32 ∨ w = 64) (buf : List Nat)
    (hbuf : (buf.length : Int) < 2 ^ (w - 1)) (m k : Nat) (names : List String)
    (os : OS) (tr : List Call) (hk : 64 * (k + m) ≤ buf.length) :
    forEach ((List.range' k m).map Int.ofNat)
      (fun i names => do
        let s ← slice buf (int w (i * 64)) (int w ((i + 1) * 64))
        pure (names ++ [UTF16ToString s])) names os tr =
    (Except.ok (names ++ (List.range' k m).map
      (fun i => UTF16ToString ((buf.drop (64 * i)).take 64))), tr) := by
  induction m generalizing k names with
  | zero => simp [forEach]
  | succ m ih =>
    have hpp := pow_pred_pos w
    have elo : int w ((k : Int) * 64) = ((64 * k : Nat) : Int) := by
      rw [int_of_small w hw _ (by omega) (by omega)]; push_cast; ring
    have ehi : int w (((k : Int) + 1) * 64) = ((64 * (k + 1) : Nat) : Int) := by
      rw [int_of_small w hw _ (by omega) (by omega)]; push_cast; ring
    have c : (0 : Int) ≤ ((64 * k : Nat) : Int) ∧ ((64 * k : Nat) : Int) ≤ ((64 * (k + 1) : Nat) : Int)
        ∧ ((64 * (k + 1) : Nat) : Int) ≤ (buf.length : Int) := by
      refine ⟨by omega, by omega, by omega⟩
    have e64 : 64 * (k + 1) - 64 * k = 64 := by omega
    simp only [List.range'_succ, List.map_cons, forEach, bind_run, slice_run,
      Int.ofNat_eq_coe, elo, ehi, c, and_self, if_true, Int.toNat_ofNat, pure_run, e64]
    rw [ih (k + 1) _ (by omega)]
    simp

/-- With a probe and a fill call that succeed, names without NUL and a buffer
length that fits `int`, each capability query returns a list, and the list has
as many entries as the probe counted (twice as many for the two queries that
return pairs). -/
theorem query_returns (w : Nat) (hw : w = 32 ∨ w = 64) (printerName port : String) (os : OS)
    (h0 : ¬ hasNul printerName) (h1 : ¬ hasNul port) :
    ((os [] (probeCall printerName port DC_PAPERNAMES)).err = none →
      0 < probed w printerName port DC_PAPERNAMES os →
      64 * probed w printerName port DC_PAPERNAMES os < 2 ^ (w - 1) →
      (os [probeCall printerName port DC_PAPERNAMES] (fillCall printerName port DC_PAPERNAMES
        (2 * (64 * (probed w printerName port DC_PAPERNAMES os).toNat)))).err = none →
      ∃ l, (GetAllMediaNames w printerName port).result os = Except.ok (some l, none) ∧
        (l.length : Int) = probed w printerName port DC_PAPERNAMES os) ∧
    ((os [] (probeCall printerName port DC_PAPERS)).err = none →
      0 < probed w printerName port DC_PAPERS os →
      (os [probeCall printerName port DC_PAPERS] (fillCall printerName port DC_PAPERS
        (2 * (probed w printerName port DC_PAPERS os).toNat))).err = none →
      ∃ l, (GetAllMediaIDs w printerName port).result os = Except.ok (some l, none) ∧
        (l.length : Int) = probed w printerName port DC_PAPERS os) ∧
    ((os [] (probeCall printerName port DC_PAPERSIZE)).err = none →
      0 < probed w printerName port DC_PAPERSIZE os →
      2 * probed w printerName port DC_PAPERSIZE os < 2 ^ (w - 1) →
      (os [probeCall printerName port DC_PAPERSIZE] (fillCall printerName port DC_PAPERSIZE
        (8 * (probed w printerName port DC_PAPERSIZE os).toNat))).err = none →
      ∃ l, (GetAllMediaSizes w printerName port).result os = Except.ok (some l, none) ∧
        (l.length : Int) = 2 * probed w printerName port DC_PAPERSIZE os) ∧
    ((os [] (probeCall printerName port DC_ENUMRESOLUTIONS)).err = none →
      0 < probed w printerName port DC_ENUMRESOLUTIONS os →
      2 * probed w printerName port DC_ENUMRESOLUTIONS os < 2 ^ (w - 1) →
      (os [probeCall printerName port DC_ENUMRESOLUTIONS]
        (fillCall printerName port DC_ENUMRESOLUTIONS
          (w / 8 * (2 * (probed w printerName port DC_ENUMRESOLUTIONS os).toNat)))).err = none →
      ∃ l, (GetAllResolutions w printerName port).result os = Except.ok (some l, none) ∧
        (l.length : Int) = 2 * probed w printerName port DC_ENUMRESOLUTIONS os) := by
  have hpp := pow_pred_pos w
  refine ⟨?_, ?_, ?_, ?_⟩
  · intro he hpos hfit hf
    generalize hn : probed w printerName port DC_PAPERNAMES os = n at hpos hfit hf
    have hb : int w (n * 64) = 64 * n := by
      rw [int_of_small w hw _ (by omega) (by omega)]; ring
    have hnat : (int w (n * 64)).toNat = 64 * n.toNat := by rw [hb]; omega
    have hrun := capRun_filled w printerName port DC_PAPERNAMES (fun n => int w (n * 64)) 2
      (fun n r => do
        let buf := osWrite 2 (List.replicate (int w (n * 64)).toNat 0) r.out
        let names ← forEach (upTo n)
          (fun i names => do
            let s ← slice buf (int w (i * 64)) (int w ((i + 1) * 64))
            pure (names ++ [UTF16ToString s])) []
        pure (some names, r.err)) os n h0 h1 hn.symm he hpos
      (by simp only []; omega) (by simp only []; omega)
      (by simp only []; rw [hnat]; exact hf)
    simp only [] at hrun
    rw [hnat] at hrun
    have hloop := names_loop_ok w hw
      (osWrite 2 (List.replicate (64 * n.toNat) 0)
        (os [probeCall printerName port DC_PAPERNAMES]
          (fillCall printerName port DC_PAPERNAMES (2 * (64 * n.toNat)))).out)
      (by rw [osWrite_length, List.length_replicate]; omega) n.toNat 0 [] os
      [probeCall printerName port DC_PAPERNAMES,
        fillCall printerName port DC_PAPERNAMES (2 * (64 * n.toNat))]
      (by rw [osWrite_length, List.length_replicate]; omega)
    rw [bind_run, upTo, List.range_eq_range', hloop] at hrun
    simp only [pure_run, hf, List.nil_append] at hrun
    have hres := congrArg Prod.fst hrun
    rw [← GetAllMediaNames_run] at hres
    refine ⟨_, hres, ?_⟩
    · rw [List.length_map, List.length_range']
      omega
  · intro he hpos hf
    have hrun := GetAllMediaIDs_filled w hw printerName port os h0 h1 he hpos hf
    refine ⟨_, congrArg Prod.fst hrun, ?_⟩
    · rw [List.length_map, osWrite_length, List.length_replicate]
      omega
  · intro he hpos hfit hf
    generalize hn : probed w printerName port DC_PAPERSIZE os = n at hpos hfit hf
    have hrun := capRun_filled w printerName port DC_PAPERSIZE (fun n => n) 8
      (fun n r => do
        let buf := osWritePoints (List.replicate n.toNat ⟨0, 0⟩) r.out
        let mediaSizes ← makeInts w (int w (n * 2))
        let mediaSizes ← forEach buf.enum
          (fun im mediaSizes => do
            let mediaSizes ← store mediaSizes (int w ((im.1 : Int) * 2)) (int w im.2.X)
            store mediaSizes (int w (int w ((im.1 : Int) * 2) + 1)) (int w im.2.Y)) mediaSizes
        pure (some mediaSizes, none)) os n h0 h1 hn.symm he hpos
      (by simp only []; omega) (by simp only []; omega) (by simp only []; exact hf)
    simp only [] at hrun
    have hb : int w (n * 2) = n * 2 := int_of_small w hw _ (by omega) (by omega)
    rw [sizes_decode w hw n hpos (by omega), if_pos (by rw [hb]; omega)] at hrun
    have hres := congrArg Prod.fst hrun
    rw [← GetAllMediaSizes_run] at hres
    refine ⟨_, hres, ?_⟩
    · have hlen : ∀ ps : List Point,
          (ps.flatMap (fun p => [int w p.X, int w p.Y])).length = 2 * ps.length := by
        intro ps
        induction ps with
        | nil => rfl
        | cons p ps ih =>
          simp only [List.flatMap_cons, List.length_append, ih, List.length_cons,
            List.length_nil]
          omega
      rw [hlen, osWritePoints_length, List.length_replicate]
      omega
  · intro he hpos hfit hf
    generalize hn : probed w printerName port DC_ENUMRESOLUTIONS os = n at hpos hfit hf
    have hb : int w (n * 2) = n * 2 := int_of_small w hw _ (by omega) (by omega)
    have hnat : (int w (n * 2)).toNat = 2 * n.toNat := by rw [hb]; omega
    have hrun := capRun_filled w printerName port DC_ENUMRESOLUTIONS (fun n => int w (n * 2))
      (w / 8)
      (fun n r => do
        let buf := osWrite (w / 8) (List.replicate (int w (n * 2)).toNat 0) r.out
        let resolutions ← makeInts w (int w (n * 2))
        let resolutions ← forEach buf.enum
          (fun ir resolutions => store resolutions (ir.1 : Int) (int w ir.2)) resolutions
        pure (some resolutions, none)) os n h0 h1 hn.symm he hpos
      (by simp only []; omega) (by simp only []; omega)
      (by simp only []; rw [hnat]; exact hf)
    simp only [] at hrun
    rw [store_decode w (w / 8) (int w (n * 2)) (by omega) (by omega)] at hrun
    have hres := congrArg Prod.fst hrun
    rw [← GetAllResolutions_run] at hres
    refine ⟨_, hres, ?_⟩
    · rw [List.length_map, osWrite_length, List.length_replicate, hnat]
      omega


/-- C7: every capability query that succeeds with a probe count `n > 0`
decodes exactly `n` elements.  Whenever a list is returned, the probe count
`n` is positive and `GetAllMediaNames` returned `n` names, `GetAllMediaIDs`
`n` integers, `GetAllMediaSizes` and `GetAllResolutions` a flat list of
exactly `2 n` integers; the i-th name is the text of the i-th 64-unit slice
of the filled buffer up to its first NUL and the i-th ID the i-th 16-bit value
of the filled buffer, zero-extended.  And a list is returned: with names that
hold no NUL, a probe and a fill call that succeed, `n > 0` and a buffer length
that fits `int`, each query returns a list of `n`, resp. `2 n`, entries. -/
theorem capability_counts (w : Nat) (hw : w = 32 ∨ w = 64) (printerName port : String)
    (os : OS) :
    (∀ l, (GetAllMediaNames w printerName port).result os = Except.ok (some l, none) →
      0 < probed w printerName port DC_PAPERNAMES os ∧
      (l.length : Int) = probed w printerName port DC_PAPERNAMES os ∧
      l = (List.range (probed w printerName port DC_PAPERNAMES os).toNat).map (fun i =>
        UTF16ToString (((osWrite 2
          (List.replicate (64 * (probed w printerName port DC_PAPERNAMES os).toNat) 0)
          (filled printerName port DC_PAPERNAMES
            (2 * (64 * (probed w printerName port DC_PAPERNAMES os).toNat)) os)).drop
              (64 * i)).take 64))) ∧
    (∀ l, (GetAllMediaIDs w printerName port).result os = Except.ok (some l, none) →
      0 < probed w printerName port DC_PAPERS os ∧
      (l.length : Int) = probed w printerName port DC_PAPERS os ∧
      l = (osWrite 2 (List.replicate (probed w printerName port DC_PAPERS os).toNat 0)
        (filled printerName port DC_PAPERS
          (2 * (probed w printerName port DC_PAPERS os).toNat) os)).map Int.ofNat) ∧
    (∀ l, (GetAllMediaSizes w printerName port).result os = Except.ok (some l, none) →
      0 < probed w printerName port DC_PAPERSIZE os ∧
      (l.length : Int) = 2 * probed w printerName port DC_PAPERSIZE os) ∧
    (∀ l, (GetAllResolutions w printerName port).result os = Except.ok (some l, none) →
      0 < probed w printerName port DC_ENUMRESOLUTIONS os ∧
      (l.length : Int) = 2 * probed w printerName port DC_ENUMRESOLUTIONS os) ∧
    (¬ hasNul printerName → ¬ hasNul port →
      (os [] (probeCall printerName port DC_PAPERNAMES)).err = none →
      0 < probed w printerName port DC_PAPERNAMES os →
      64 * probed w printerName port DC_PAPERNAMES os < 2 ^ (w - 1) →
      (os [probeCall printerName port DC_PAPERNAMES] (fillCall printerName port DC_PAPERNAMES
        (2 * (64 * (probed w printerName port DC_PAPERNAMES os).toNat)))).err = none →
      ∃ l, (GetAllMediaNames w printerName port).result os = Except.ok (some l, none) ∧
        (l.length : Int) = probed w printerName port DC_PAPERNAMES os) ∧
    (¬ hasNul printerName → ¬ hasNul port →
      (os [] (probeCall printerName port DC_PAPERS)).err = none →
      0 < probed w printerName port DC_PAPERS os →
      (os [probeCall printerName port DC_PAPERS] (fillCall printerName port DC_PAPERS
        (2 * (probed w printerName port DC_PAPERS os).toNat))).err = none →
      ∃ l, (GetAllMediaIDs w printerName port).result os = Except.ok (some l, none) ∧
        (l.length : Int) = probed w printerName port DC_PAPERS os) ∧
    (¬ hasNul printerName → ¬ hasNul port →
      (os [] (probeCall printerName port DC_PAPERSIZE)).err = none →
      0 < probed w printerName port DC_PAPERSIZE os →
      2 * probed w printerName port DC_PAPERSIZE os < 2 ^ (w - 1) →
      (os [probeCall printerName port DC_PAPERSIZE] (fillCall printerName port DC_PAPERSIZE
        (8 * (probed w printerName port DC_PAPERSIZE os).toNat))).err = none →
      ∃ l, (GetAllMediaSizes w printerName port).result os = Except.ok (some l, none) ∧
        (l.length : Int) = 2 * probed w printerName port DC_PAPERSIZE os) ∧
    (¬ hasNul printerName → ¬ hasNul port →
      (os [] (probeCall printerName port DC_ENUMRESOLUTIONS)).err = none →
      0 < probed w printerName port DC_ENUMRESOLUTIONS os →
      2 * probed w printerName port DC_ENUMRESOLUTIONS os < 2 ^ (w - 1) →
      (os [probeCall printerName port DC_ENUMRESOLUTIONS]
        (fillCall printerName port DC_ENUMRESOLUTIONS
          (w / 8 * (2 * (probed w printerName port DC_ENUMRESOLUTIONS os).toNat)))).err = none →
      ∃ l, (GetAllResolutions w printerName port).result os = Except.ok (some l, none) ∧
        (l.length : Int) = 2 * probed w printerName port DC_ENUMRESOLUTIONS os) := by
  have hA := counts_of_result w hw printerName port os
  refine ⟨hA.1, hA.2.1, hA.2.2.1, hA.2.2.2, ?_, ?_, ?_, ?_⟩
  · intro h0 h1
    exact (query_returns w hw printerName port os h0 h1).1
  · intro h0 h1
    exact (query_returns w hw printerName port os h0 h1).2.1
  · intro h0 h1
    exact (query_returns w hw printerName port os h0 h1).2.2.1
  · intro h0 h1
    exact (query_returns w hw printerName port os h0 h1).2.2.2

/-- Witness for C7: for the printer with the papers `A4` and `Letter`, IDs 9
and 1, sizes 2100 x 2970 and 2159 x 2794, resolutions 600 x 600 and 300 x 300,
each query returns a list, with two names, two IDs, four size entries and four
resolution entries; where `uint` has 32 bits the resolutions come back as
600, 600, 300, 300. -/
theorem capability_counts_witness :
    (64 = 32 ∨ 64 = 64) ∧
    (GetAllMediaNames 64 "P" "LPT1").result osPapers
      = Except.ok (some ["A4", "Letter"], none) ∧
    (GetAllMediaIDs 64 "P" "LPT1").result osPapers = Except.ok (some [9, 1], none) ∧
    (GetAllMediaSizes 64 "P" "LPT1").result osPapers
      = Except.ok (some [2100, 2970, 2159, 2794], none) ∧
    probed 64 "P" "LPT1" DC_PAPERSIZE osPapers = 2 ∧
    (∃ l, (GetAllMediaNames 64 "P" "LPT1").result osPapers = Except.ok (some l, none) ∧
      (l.length : Int) = probed 64 "P" "LPT1" DC_PAPERNAMES osPapers) ∧
    (∃ l, (GetAllMediaIDs 64 "P" "LPT1").result osPapers = Except.ok (some l, none) ∧
      (l.length : Int) = probed 64 "P" "LPT1" DC_PAPERS osPapers) ∧
    (∃ l, (GetAllMediaSizes 64 "P" "LPT1").result osPapers = Except.ok (some l, none) ∧
      (l.length : Int) = 2 * probed 64 "P" "LPT1" DC_PAPERSIZE osPapers) ∧
    (∃ l, (GetAllResolutions 64 "P" "LPT1").result osPapers = Except.ok (some l, none) ∧
      (l.length : Int) = 2 * probed 64 "P" "LPT1" DC_ENUMRESOLUTIONS osPapers) ∧
    (GetAllResolutions 32 "P" "LPT1").result osPapers
      = Except.ok (some [600, 600, 300, 300], none) ∧
    probed 32 "P" "LPT1" DC_ENUMRESOLUTIONS osPapers = 2 ∧
    (∃ l, (GetAllResolutions 32 "P" "LPT1").result osPapers = Except.ok (some l, none) ∧
      (l.length : Int) = 2 * probed 32 "P" "LPT1" DC_ENUMRESOLUTIONS osPapers) ∧
    (0 < probed 64 "P" "LPT1" DC_PAPERS osPapers ∧
      (([9, 1] : List Int).length : Int) = probed 64 "P" "LPT1" DC_PAPERS osPapers) :=
  ⟨Or.inr rfl, by rfl, by rfl, by rfl, by rfl,
   (capability_counts 64 (Or.inr rfl) "P" "LPT1" osPapers).2.2.2.2.1
     (by decide) (by decide) rfl (by decide) (by decide) rfl,
   (capability_counts 64 (Or.inr rfl) "P" "LPT1" osPapers).2.2.2.2.2.1
     (by decide) (by decide) rfl (by decide) rfl,
   (capability_counts 64 (Or.inr rfl) "P" "LPT1" osPapers).2.2.2.2.2.2.1
     (by decide) (by decide) rfl (by decide) (by decide) rfl,
   (capability_counts 64 (Or.inr rfl) "P" "LPT1" osPapers).2.2.2.2.2.2.2
     (by decide) (by decide) rfl (by decide) (by decide) rfl,
   by rfl, by rfl,
   (capability_counts 32 (Or.inl rfl) "P" "LPT1" osPapers).2.2.2.2.2.2.2
     (by decide) (by decide) rfl (by decide) (by decide) rfl,
   ⟨((capability_counts 64 (Or.inr rfl) "P" "LPT1" osPapers).2.1 [9, 1] (by rfl)).1,
    ((capability_counts 64 (Or.inr rfl) "P" "LPT1" osPapers).2.1 [9, 1] (by rfl)).2.1⟩⟩

/-! ## Default settings -/

theorem present_fold (paperSize : Int) (m : Nat) :
    (upTo (m : Int)).foldl (fun present size => if size = paperSize then true else present)
      false = decide (0 ≤ paperSize ∧ paperSize < (m : Int)) := by
  unfold upTo
  simp only [Int.toNat_ofNat]
  induction m with
  | zero =>
    simp only [List.range_zero, List.map_nil, List.foldl_nil]
    symm; rw [decide_eq_false_iff_not]; omega
  | succ m ih =>
    rw [List.range_succ, List.map_append, List.foldl_append, ih]
    simp only [List.map_cons, List.map_nil, List.foldl_cons, List.foldl_nil]
    by_cases h : (Int.ofNat m) = paperSize
    · have : 0 ≤ paperSize ∧ paperSize < ((m + 1 : Nat) : Int) := by
        subst h; constructor
        · exact Int.ofNat_nonneg m
        · push_cast; simp
      simp only [h, if_true]
      symm; rw [decide_eq_true_iff]; exact this
    · simp only [h, if_false]
      rw [decide_eq_decide]
      have h2 : ¬ (m : Int) = paperSize := h
      push_cast; omega

theorem paperSizeDefault_run (w : Nat) (printerName port : String) (pDevMode : DEVICE_MODE)
    (a : Int) (rest : List Int) (os : OS) (tr : List Call) :
    paperSizeDefault w printerName port pDevMode (a :: rest) os tr =
      match paperRun w printerName port pDevMode a os tr with
      | (Except.ok e, tr1) => (Except.ok (e :: rest), tr1)
      | (Except.error p, tr1) => (Except.error p, tr1) := by
  unfold paperRun probeCall fillCall unitsOf hasNul hasField
  simp only [paperSizeDefault]
  by_cases hb : uint32 pDevMode.Fields &&& DM_PAPERSIZE > 0
  · simp only [hb, if_true, not_true_eq_false, if_false, bind_run, store_run, le_refl,
      List.length_cons, true_and, StringToUTF16_run]
    have hpos : (0 : Int) < ((rest.length + 1 : Nat) : Int) := by omega
    simp only [hpos, if_true, Int.toNat_zero, List.set_cons_zero]
    by_cases hp : (0 : Nat) ∈ printerName.data.map Char.toNat
    · simp [hp]
    · by_cases hq : (0 : Nat) ∈ port.data.map Char.toNat
      · simp [hp, hq]
      · simp only [hp, hq, if_false, or_self, sys_run]
        generalize os tr (Call.DeviceCapabilities (utf16Encode (printerName.data ++ [Char.ofNat 0]))
          (utf16Encode (port.data ++ [Char.ofNat 0])) DC_PAPERS none) = r
        by_cases h1 : r.err = none ∧ int w (uint32 r.length) > 0
        · simp only [h1, and_self, if_true, not_true_eq_false, if_false, bind_run, make_run]
          by_cases h2 : 0 ≤ int w (int w (uint32 r.length) * 2) ∧
              int w (int w (uint32 r.length) * 2) < 2 ^ (w - 1)
          · simp only [h2, and_self, if_true, not_true_eq_false, if_false, addr0_run,
              StringToUTF16_run, hp, hq, List.length_replicate]
            by_cases h3 : (int w (int w (uint32 r.length) * 2)).toNat = 0
            · simp only [h3, if_true]
            · simp only [h3, if_false, sys_run, len, osWrite_length, List.length_replicate,
                present_fold, List.append_assoc, List.singleton_append]
              generalize (int w (int w (uint32 r.length) * 2)).toNat = L at h3 ⊢
              by_cases h4 : 0 ≤ int w (int16 pDevMode.PaperSize) ∧
                  int w (int16 pDevMode.PaperSize) < (L : Int)
              · simp only [h4, and_self, decide_True, Bool.not_true, Bool.false_eq_true,
                  if_false, if_true, pure_run]
              · have hlen : (0 : Int) < (L : Int) := by omega
                have hpos1 : (0 : Int) < ((rest.length + 1 : Nat) : Int) := by omega
                simp only [h4, decide_False, Bool.not_false, if_true, if_false, bind_run,
                  index_run, store_run, osWrite_length, List.length_replicate, le_refl, hlen,
                  and_self, Int.toNat_zero, List.length_cons, hpos1, List.set_cons_zero]
                rfl
          · simp only [h2, if_false, not_false_eq_true, if_true]
        · simp only [h1, if_false, not_false_eq_true, if_true, pure_run]
  · simp only [hb, if_false, not_false_eq_true, if_true, pure_run]

theorem int16_range (x : Int) : -32768 ≤ int16 x ∧ int16 x < 32768 := by
  simp only [int16, wrapInt]; norm_num; omega

theorem int32_range (x : Int) : -2147483648 ≤ int32 x ∧ int32 x < 2147483648 := by
  simp only [int32, wrapInt]; norm_num; omega

theorem int_int16 (w : Nat) (hw : w = 32 ∨ w = 64) (x : Int) : int w (int16 x) = int16 x := by
  have h := int16_range x
  have hp := pow_pred_ge w hw
  exact int_of_small w hw _ (by omega) (by omega)

theorem int_int32 (w : Nat) (hw : w = 32 ∨ w = 64) (x : Int) : int w (int32 x) = int32 x := by
  have h := int32_range x
  have hp := pow_pred_ge w hw
  exact int_of_small w hw _ (by omega) (by omega)

theorem init_defIndices (os : OS) (tr : List Call) :
    forEach (upTo (len (List.replicate (9 : Int).toNat (0 : Int))))
      (fun i defIndices => store defIndices i (-50))
      (List.replicate (9 : Int).toNat (0 : Int)) os tr =
    (Except.ok [-50, -50, -50, -50, -50, -50, -50, -50, -50], tr) := rfl

theorem set_getD_self (d : List Int) (i : Nat) (h : i < d.length) :
    d.set i (d.getD i 0) = d := by
  induction d generalizing i with
  | nil => simp at h
  | cons x xs ih =>
    cases i with
    | zero => simp
    | succ i =>
      have hi : i < xs.length := by simpa using h
      simpa using ih i hi

theorem setIfPresent_run (pDevMode : DEVICE_MODE) (bit : Nat) (i : Int) (v : Int)
    (d : List Int) (os : OS) (tr : List Call) (h : 0 ≤ i ∧ i < d.length) :
    setIfPresent pDevMode bit i v d os tr =
      (Except.ok (d.set i.toNat (if hasField pDevMode bit then v else d.getD i.toNat 0)), tr) := by
  unfold setIfPresent hasField
  by_cases hb : uint32 pDevMode.Fields &&& bit > 0
  · simp only [hb, if_true, store_run, h, and_self]
  · simp only [hb, if_false, pure_run]
    have hi : i.toNat < d.length := by omega
    rw [set_getD_self d i.toNat hi]

theorem readDefaults_run (w : Nat) (hw : w = 32 ∨ w = 64) (printerName port : String)
    (pDevMode : DEVICE_MODE) (os : OS) (tr : List Call) :
    readDefaults w printerName port pDevMode os tr =
      match paperRun w printerName port pDevMode GETDEFAULT_ERROR os tr with
      | (Except.ok e, tr1) => (Except.ok (settingsList w pDevMode e), tr1)
      | (Except.error p, tr1) => (Except.error p, tr1) := by
  have h9 : (0 : Int) ≤ 9 ∧ (9 : Int) < 2 ^ (w - 1) := by
    have := pow_pred_ge w hw
    omega
  simp only [readDefaults, bind_run, makeInts_run, h9, and_self, if_true, init_defIndices,
    paperSizeDefault_run, GETDEFAULT_ERROR]
  rcases paperRun w printerName port pDevMode (-50) os tr with ⟨res, tr1⟩
  cases res with
  | error p => rfl
  | ok e =>
    simp only []
    rw [setIfPresent_run _ _ _ _ _ _ _ (by simp)]
    simp only []
    rw [setIfPresent_run _ _ _ _ _ _ _ (by simp)]
    simp only []
    rw [setIfPresent_run _ _ _ _ _ _ _ (by simp)]
    simp only []
    rw [setIfPresent_run _ _ _ _ _ _ _ (by simp)]
    simp only []
    rw [setIfPresent_run _ _ _ _ _ _ _ (by simp)]
    simp only []
    rw [setIfPresent_run _ _ _ _ _ _ _ (by simp)]
    simp only []
    rw [setIfPresent_run _ _ _ _ _ _ _ (by simp)]
    simp only []
    rw [setIfPresent_run _ _ _ _ _ _ _ (by simp)]
    simp [settingsList, int_int16 w hw, GETDEFAULT_ERROR]

theorem GetDefaultSettings_run (w : Nat) (hw : w = 32 ∨ w = 64) (printerName port : String)
    (os : OS) :
    GetDefaultSettings w printerName port os [] = settingsRun w printerName port os := by
  unfold settingsRun
  simp only [GetDefaultSettings, bind_run, StringToUTF16_run]
  by_cases hp : hasNul printerName
  · have hp1 : (0 : Nat) ∈ printerName.data.map Char.toNat := hp
    simp only [hp, hp1, if_true]
  · have hp1 : ¬ (0 : Nat) ∈ printerName.data.map Char.toNat := hp
    simp only [hp, hp1, if_false, sys_run, List.nil_append]
    have eo : Call.OpenPrinter (utf16Encode (printerName.data ++ [Char.ofNat 0]))
        = openCall printerName := rfl
    rw [eo]
    by_cases h1 : (os [] (openCall printerName)).err ≠ none
    · simp only [h1, if_true, pure_run, ne_eq, not_false_eq_true]
    · simp only [h1, if_false, withDefer_run, bind_run, StringToUTF16_run, hp1, sys_run,
        pure_run, List.singleton_append]
      have es : Call.DocumentProperties 0 (os [] (openCall printerName)).handle
          (utf16Encode (printerName.data ++ [Char.ofNat 0])) none 0
          = sizeCall printerName os := rfl
      have ec : Call.ClosePrinter (os [] (openCall printerName)).handle
          = closeCall printerName os := rfl
      rw [es]
      simp only [ec]
      have en : int w (int32 (os [openCall printerName] (sizeCall printerName os)).length)
          = neededOf w printerName os := rfl
      rw [en]
      by_cases h2 : (os [openCall printerName] (sizeCall printerName os)).err ≠ none ∨
          neededOf w printerName os ≤ 0
      · simp only [h2, if_true, pure_run, List.cons_append, List.nil_append]
      · simp only [h2, if_false, bind_run, make_run]
        have hlt : neededOf w printerName os < 2 ^ (w - 1) := int_lt w hw _
        have hpos : 0 < neededOf w printerName os := by
          push_neg at h2; exact h2.2
        have h0 : 0 ≤ neededOf w printerName os := le_of_lt hpos
        have hnz : ¬ (neededOf w printerName os).toNat = 0 := by omega
        simp only [h0, hlt, and_self, if_true, StringToUTF16_run, hp1, if_false, addr0_run,
          List.length_replicate, hnz, one_mul, sys_run, List.cons_append, List.nil_append]
        have er : Call.DocumentProperties 0 (os [] (openCall printerName)).handle
            (utf16Encode (printerName.data ++ [Char.ofNat 0]))
            (some (neededOf w printerName os).toNat) DM_OUT_BUFFER
            = recordCall w printerName os := rfl
        rw [er]
        by_cases h3 : (os [openCall printerName, sizeCall printerName os]
            (recordCall w printerName os)).err ≠ none
        · simp only [if_pos h3, pure_run, recordTrace, List.cons_append, List.nil_append]
        · simp only [if_neg h3, bind_run, addr0_run, List.length_replicate, hnz, if_false,
            readDefaults_run w hw, pure_run]
          have et : [openCall printerName, sizeCall printerName os, recordCall w printerName os]
              = recordTrace w printerName os := rfl
          have ed : (os [openCall printerName, sizeCall printerName os]
              (recordCall w printerName os)).devMode = recordRead w printerName os := rfl
          rw [et, ed]
          rcases paperRun w printerName port (recordRead w printerName os) GETDEFAULT_ERROR os
            (recordTrace w printerName os) with ⟨res, tr1⟩
          cases res <;> rfl

/-! ## Claims on `GetDefaultSettings` -/

/-- What a returning run of `GetDefaultSettings` with a list went through. -/
theorem settingsRun_ok (w : Nat) (printerName port : String) (os : OS) (l : List Int)
    (h : (settingsRun w printerName port os).1 = Except.ok (some l, none)) :
    ¬ hasNul printerName ∧
    (os [] (openCall printerName)).err = none ∧
    (os [openCall printerName] (sizeCall printerName os)).err = none ∧
    0 < neededOf w printerName os ∧
    (os [openCall printerName, sizeCall printerName os] (recordCall w printerName os)).err
      = none ∧
    ∃ e, (paperRun w printerName port (recordRead w printerName os) GETDEFAULT_ERROR os
        (recordTrace w printerName os)).1 = Except.ok e ∧
      l = settingsList w (recordRead w printerName os) e := by
  unfold settingsRun at h
  simp only [] at h
  by_cases c0 : hasNul printerName
  · rw [if_pos c0] at h; simp at h
  · rw [if_neg c0] at h
    by_cases c1 : (os [] (openCall printerName)).err ≠ none
    · rw [if_pos c1] at h; simp at h
    · rw [if_neg c1] at h
      by_cases c2 : (os [openCall printerName] (sizeCall printerName os)).err ≠ none ∨
          neededOf w printerName os ≤ 0
      · rw [if_pos c2] at h; simp at h
      · rw [if_neg c2] at h
        by_cases c3 : (os [openCall printerName, sizeCall printerName os]
            (recordCall w printerName os)).err ≠ none
        · rw [if_pos c3] at h; simp at h
        · rw [if_neg c3] at h
          push_neg at c1 c2 c3
          refine ⟨c0, c1, c2.1, c2.2, c3, ?_⟩
          rcases hp : paperRun w printerName port (recordRead w printerName os)
            GETDEFAULT_ERROR os (recordTrace w printerName os) with ⟨res, tr1⟩
          rw [hp] at h
          cases res with
          | error p => simp at h
          | ok e =>
            simp only [Except.ok.injEq, Prod.mk.injEq, Option.some.injEq, and_true] at h
            exact ⟨e, rfl, h.symm⟩

theorem paperRun_absent (w : Nat) (printerName port : String) (pDevMode : DEVICE_MODE)
    (entry0 : Int) (os : OS) (tr : List Call) (h : ¬ hasField pDevMode DM_PAPERSIZE) :
    paperRun w printerName port pDevMode entry0 os tr = (Except.ok entry0, tr) := by
  unfold paperRun
  simp only [h, not_false_eq_true, if_true]

/-- C1 (as amended): a successful `GetDefaultSettings` returns exactly 9
integers in the order paper size, media type, Y-resolution, print quality,
copies, orientation, duplex, collate, colour.  Every entry whose presence bit
is unset in the record's `Fields` equals -50.  Each of the entries 2 to 8
whose bit is set equals the value of its field; entry 1, when its bit is set,
is `int(MediaType)`, which equals the value of the field where `int` has 64
bits or the value is below 2^31. -/
theorem GetDefaultSettings_entries (w : Nat) (hw : w = 32 ∨ w = 64) (printerName port : String)
    (os : OS) (l : List Int)
    (h : (GetDefaultSettings w printerName port).result os = Except.ok (some l, none)) :
    l.length = 9 ∧
    (∃ e0, (¬ hasField (recordRead w printerName os) DM_PAPERSIZE → e0 = -50) ∧
      l = [ e0,
        if hasField (recordRead w printerName os) DM_MEDIATYPE
          then int w (uint32 (recordRead w printerName os).MediaType) else -50,
        if hasField (recordRead w printerName os) DM_YRESOLUTION
          then int16 (recordRead w printerName os).YResolution else -50,
        if hasField (recordRead w printerName os) DM_PRINTQUALITY
          then int16 (recordRead w printerName os).PrintQuality else -50,
        if hasField (recordRead w printerName os) DM_COPIES
          then int16 (recordRead w printerName os).Copies else -50,
        if hasField (recordRead w printerName os) DM_ORIENTATION
          then int16 (recordRead w printerName os).Orientation else -50,
        if hasField (recordRead w printerName os) DM_DUPLEX
          then int16 (recordRead w printerName os).Duplex else -50,
        if hasField (recordRead w printerName os) DM_COLLATE
          then int16 (recordRead w printerName os).Collate else -50,
        if hasField (recordRead w printerName os) DM_COLOR
          then int16 (recordRead w printerName os).Color else -50 ]) ∧
    (w = 64 ∨ uint32 (recordRead w printerName os).MediaType < 2147483648 →
      int w (uint32 (recordRead w printerName os).MediaType)
        = (uint32 (recordRead w printerName os).MediaType : Int)) := by
  rw [Go.result, GetDefaultSettings_run w hw] at h
  obtain ⟨-, -, -, -, -, e, he, hl⟩ := settingsRun_ok w printerName port os l h
  refine ⟨by rw [hl]; rfl, ⟨e, ?_, hl⟩, ?_⟩
  · intro hb
    rw [paperRun_absent _ _ _ _ _ _ _ hb] at he
    simp only [Except.ok.injEq] at he
    rw [← he]; rfl
  · intro hfit
    have hlt := uint32_cast_lt (recordRead w printerName os).MediaType
    have hpp := pow_pred_pos w
    apply int_of_small w hw _ (by omega)
    rcases hfit with rfl | hs
    · norm_num; omega
    · have := pow_pred_ge w hw; omega

/-- Witness for C1: a record with the paper-size, copies and media-type bits
set (paper size 9, one copy, media type 3) and the paper IDs 9 and 1. -/
theorem GetDefaultSettings_entries_witness :
    (64 = 32 ∨ 64 = 64) ∧
    (GetDefaultSettings 64 "P" "LPT1").result
        (osSettings (devModeWith 0x2000102 9 1 3) { quiet with length := 2 } [9, 1])
      = Except.ok (some [9, 3, -50, -50, 1, -50, -50, -50, -50], none) ∧
    ([9, 3, -50, -50, 1, -50, -50, -50, -50] : List Int).length = 9 :=
  ⟨Or.inr rfl, by rfl,
   (GetDefaultSettings_entries 64 (Or.inr rfl) "P" "LPT1"
     (osSettings (devModeWith 0x2000102 9 1 3) { quiet with length := 2 } [9, 1])
     [9, 3, -50, -50, 1, -50, -50, -50, -50] (by rfl)).1⟩

/-- C1 fails as stated: where `int` has 32 bits, a record whose media-type bit
is set and whose `MediaType` is 2147483648 yields entry 1 = -2147483648, not
the value of the field. -/
theorem GetDefaultSettings_media_counterexample :
    hasField (recordRead 32 "P" (osSettings (devModeWith 0x2000000 0 0 2147483648) quiet []))
      DM_MEDIATYPE ∧
    (recordRead 32 "P" (osSettings (devModeWith 0x2000000 0 0 2147483648) quiet [])).MediaType
      = 2147483648 ∧
    (GetDefaultSettings 32 "P" "LPT1").result
        (osSettings (devModeWith 0x2000000 0 0 2147483648) quiet [])
      = Except.ok (some [-50, -2147483648, -50, -50, -50, -50, -50, -50, -50], none) :=
  ⟨by decide, by rfl, by rfl⟩


/-- Entry 0 after the paper-size part, when the bit is set and the names hold
no NUL. -/
theorem paperRun_entry (w : Nat) (hw : w = 32 ∨ w = 64) (printerName port : String)
    (pDevMode : DEVICE_MODE) (entry0 e : Int) (os : OS) (tr : List Call)
    (hb : hasField pDevMode DM_PAPERSIZE)
    (h : (paperRun w printerName port pDevMode entry0 os tr).1 = Except.ok e) :
    ((os tr (probeCall printerName port DC_PAPERS)).err = none →
      0 < int w (uint32 (os tr (probeCall printerName port DC_PAPERS)).length) →
      e = if 0 ≤ int16 pDevMode.PaperSize ∧ int16 pDevMode.PaperSize
            < 2 * int w (uint32 (os tr (probeCall printerName port DC_PAPERS)).length)
          then int16 pDevMode.PaperSize
          else (((osWrite 2 (List.replicate
            (2 * (int w (uint32 (os tr (probeCall printerName port DC_PAPERS)).length)).toNat) 0)
            (os (tr ++ [probeCall printerName port DC_PAPERS])
              (fillCall printerName port DC_PAPERS (2 * (2 *
                (int w (uint32 (os tr (probeCall printerName port DC_PAPERS)).length)).toNat)))).out).getD
                  0 0 : Nat) : Int)) ∧
    ((os tr (probeCall printerName port DC_PAPERS)).err ≠ none ∨
      int w (uint32 (os tr (probeCall printerName port DC_PAPERS)).length) ≤ 0 →
      e = int16 pDevMode.PaperSize) := by
  unfold paperRun at h
  simp only [int_int16 w hw] at h
  rw [if_neg (not_not.mpr hb)] at h
  by_cases c0 : hasNul printerName ∨ hasNul port
  · rw [if_pos c0] at h; simp at h
  · rw [if_neg c0] at h
    by_cases c1 : ¬ ((os tr (probeCall printerName port DC_PAPERS)).err = none ∧
        int w (uint32 (os tr (probeCall printerName port DC_PAPERS)).length) > 0)
    · rw [if_pos c1] at h
      simp only [Except.ok.injEq] at h
      constructor
      · intro h1 h2; exact absurd ⟨h1, h2⟩ c1
      · intro _; exact h.symm
    · rw [if_neg c1] at h
      push_neg at c1
      by_cases c2 : ¬ (0 ≤ int w (int w (uint32 (os tr
          (probeCall printerName port DC_PAPERS)).length) * 2) ∧
          int w (int w (uint32 (os tr (probeCall printerName port DC_PAPERS)).length) * 2)
            < 2 ^ (w - 1))
      · rw [if_pos c2] at h; simp at h
      · rw [if_neg c2] at h
        push_neg at c2
        have hlt := int_lt w hw (uint32 (os tr (probeCall printerName port DC_PAPERS)).length)
        have he2 : int w (int w (uint32 (os tr (probeCall printerName port DC_PAPERS)).length)
            * 2) = int w (uint32 (os tr (probeCall printerName port DC_PAPERS)).length) * 2 :=
          int_nonneg_eq w hw _ (by omega) (by rw [pow_eq_double w hw]; omega) c2.1
        have hnat : (int w (uint32 (os tr (probeCall printerName port DC_PAPERS)).length)
            * 2).toNat
            = 2 * (int w (uint32 (os tr (probeCall printerName port DC_PAPERS)).length)).toNat := by
          omega
        rw [he2, hnat] at h
        by_cases c3 : 2 * (int w (uint32 (os tr
            (probeCall printerName port DC_PAPERS)).length)).toNat = 0
        · omega
        · rw [if_neg c3] at h
          constructor
          · intro _ _
            have hcast : ((2 * (int w (uint32 (os tr
                (probeCall printerName port DC_PAPERS)).length)).toNat : Nat) : Int)
                = 2 * int w (uint32 (os tr (probeCall printerName port DC_PAPERS)).length) := by
              omega
            rw [hcast] at h
            by_cases c4 : 0 ≤ int16 pDevMode.PaperSize ∧ int16 pDevMode.PaperSize
                < 2 * int w (uint32 (os tr (probeCall printerName port DC_PAPERS)).length)
            · rw [if_pos c4] at h
              rw [if_pos c4]
              simp only [Except.ok.injEq] at h
              exact h.symm
            · rw [if_neg c4] at h
              rw [if_neg c4]
              simp only [Except.ok.injEq] at h
              rw [← h]
              have hp := pow_pred_ge w hw
              have hpp := pow_pred_pos w
              apply int_of_small w hw _ (by omega)
              have hx : ∀ (b : List Nat), (∀ x ∈ b, x < 256 ^ 2) → b.getD 0 0 < 65536 := by
                intro b hb
                cases b with
                | nil => simp
                | cons x xs => simpa using hb x (List.mem_cons_self _ _)
              have := hx _ (osWrite_lt 2 (List.replicate
                (2 * (int w (uint32 (os tr (probeCall printerName port DC_PAPERS)).length)).toNat) 0)
                (os (tr ++ [probeCall printerName port DC_PAPERS])
                  (fillCall printerName port DC_PAPERS (2 * (2 *
                    (int w (uint32 (os tr
                      (probeCall printerName port DC_PAPERS)).length)).toNat)))).out)
              omega
          · intro hc
            rcases hc with hc | hc
            · exact absurd c1.1 hc
            · omega


theorem paperRun_returns (w : Nat) (hw : w = 32 ∨ w = 64) (printerName port : String)
    (pDevMode : DEVICE_MODE) (entry0 : Int) (os : OS) (tr : List Call)
    (h0 : ¬ hasNul printerName) (h1 : ¬ hasNul port)
    (hfit : 2 * int w (uint32 (os tr (probeCall printerName port DC_PAPERS)).length)
      < 2 ^ (w - 1)) :
    ∃ e, (paperRun w printerName port pDevMode entry0 os tr).1 = Except.ok e := by
  unfold paperRun
  simp only []
  by_cases c : ¬ hasField pDevMode DM_PAPERSIZE
  · rw [if_pos c]; exact ⟨_, rfl⟩
  · rw [if_neg c]
    have c0 : ¬ (hasNul printerName ∨ hasNul port) := by push_neg; exact ⟨h0, h1⟩
    rw [if_neg c0]
    by_cases c1 : ¬ ((os tr (probeCall printerName port DC_PAPERS)).err = none ∧
        int w (uint32 (os tr (probeCall printerName port DC_PAPERS)).length) > 0)
    · rw [if_pos c1]; exact ⟨_, rfl⟩
    · rw [if_neg c1]
      push_neg at c1
      have hpp := pow_pred_pos w
      have he2 : int w (int w (uint32 (os tr (probeCall printerName port DC_PAPERS)).length)
          * 2) = int w (uint32 (os tr (probeCall printerName port DC_PAPERS)).length) * 2 :=
        int_of_small w hw _ (by omega) (by omega)
      have c2 : ¬ ¬ (0 ≤ int w (int w (uint32 (os tr
          (probeCall printerName port DC_PAPERS)).length) * 2) ∧
          int w (int w (uint32 (os tr (probeCall printerName port DC_PAPERS)).length) * 2)
            < 2 ^ (w - 1)) := by
        rw [he2]; push_neg; constructor <;> omega
      have c3 : ¬ (int w (int w (uint32 (os tr
          (probeCall printerName port DC_PAPERS)).length) * 2)).toNat = 0 := by
        rw [he2]; omega
      rw [if_neg c2, if_neg c3]
      split <;> exact ⟨_, rfl⟩

/-- C10: in `GetDefaultSettings` the presence check scans array indices, not
values.  For a record with the paper-size bit set, a paper-ID probe that
succeeds with count `n > 0` and any content of the paper buffer of `2 n`
elements, entry 0 of the result is the record's `PaperSize` when
`0 <= PaperSize < 2 n` and the first element of the paper buffer otherwise;
when the probe fails or reports a count `<= 0`, entry 0 is `PaperSize`.  The
operation does return a list whenever the names hold no NUL, the three calls
before the probe succeed with a positive size and `2 n` fits `int`. -/
theorem paper_size_index_scan (w : Nat) (hw : w = 32 ∨ w = 64) (printerName port : String)
    (os : OS) :
    (∀ l, (GetDefaultSettings w printerName port).result os = Except.ok (some l, none) →
      hasField (recordRead w printerName os) DM_PAPERSIZE →
      ((papersProbe w printerName port os).err = none → 0 < papersCount w printerName port os →
        l.head? = some
          (if 0 ≤ int16 (recordRead w printerName os).PaperSize ∧
              int16 (recordRead w printerName os).PaperSize
                < 2 * papersCount w printerName port os
           then int16 (recordRead w printerName os).PaperSize
           else (((papersBuffer w printerName port os).getD 0 0 : Nat) : Int))) ∧
      ((papersProbe w printerName port os).err ≠ none ∨ papersCount w printerName port os ≤ 0 →
        l.head? = some (int16 (recordRead w printerName os).PaperSize))) ∧
    (¬ hasNul printerName → ¬ hasNul port →
      (os [] (openCall printerName)).err = none →
      (os [openCall printerName] (sizeCall printerName os)).err = none →
      0 < neededOf w printerName os →
      (os [openCall printerName, sizeCall printerName os] (recordCall w printerName os)).err
        = none →
      2 * papersCount w printerName port os < 2 ^ (w - 1) →
      ∃ l, (GetDefaultSettings w printerName port).result os = Except.ok (some l, none)) := by
  constructor
  · intro l h hb
    rw [Go.result, GetDefaultSettings_run w hw] at h
    obtain ⟨-, -, -, -, -, e, he, hl⟩ := settingsRun_ok w printerName port os l h
    have hent := paperRun_entry w hw printerName port _ _ e os _ hb he
    have hhead : l.head? = some e := by rw [hl]; rfl
    rw [hhead]
    constructor
    · intro h1 h2
      rw [hent.1 h1 h2]
      rfl
    · intro h1
      rw [hent.2 h1]
  · intro h0 h1 ho hs hn hr hfit
    rw [Go.result, GetDefaultSettings_run w hw]
    obtain ⟨e, he⟩ := paperRun_returns w hw printerName port (recordRead w printerName os)
      GETDEFAULT_ERROR os (recordTrace w printerName os) h0 h1 hfit
    refine ⟨settingsList w (recordRead w printerName os) e, ?_⟩
    unfold settingsRun
    simp only []
    have c1 : ¬ (os [] (openCall printerName)).err ≠ none := not_not.mpr ho
    have c2 : ¬ ((os [openCall printerName] (sizeCall printerName os)).err ≠ none ∨
        neededOf w printerName os ≤ 0) := by push_neg; exact ⟨hs, hn⟩
    have c3 : ¬ (os [openCall printerName, sizeCall printerName os]
        (recordCall w printerName os)).err ≠ none := not_not.mpr hr
    rw [if_neg h0, if_neg c1, if_neg c2, if_neg c3]
    rcases hp : paperRun w printerName port (recordRead w printerName os)
      GETDEFAULT_ERROR os (recordTrace w printerName os) with ⟨res, tr1⟩
    rw [hp] at he
    simp only at he
    rw [he]

/-- Witness for C10: with paper size 9 recorded and the two paper IDs 1 and 9
enumerated, the buffer has four elements; 9 occurs in it as a value but is not
one of the indices 0..3, so entry 0 becomes the first element, 1. -/
theorem paper_size_index_scan_witness :
    (64 = 32 ∨ 64 = 64) ∧
    (GetDefaultSettings 64 "P" "LPT1").result
        (osSettings (devModeWith 2 9 0 0) { quiet with length := 2 } [1, 9])
      = Except.ok (some [1, -50, -50, -50, -50, -50, -50, -50, -50], none) ∧
    papersBuffer 64 "P" "LPT1" (osSettings (devModeWith 2 9 0 0) { quiet with length := 2 } [1, 9])
      = [1, 9, 0, 0] ∧
    ([1, -50, -50, -50, -50, -50, -50, -50, -50] : List Int).head? = some
      (if 0 ≤ int16 (recordRead 64 "P"
            (osSettings (devModeWith 2 9 0 0) { quiet with length := 2 } [1, 9])).PaperSize ∧
          int16 (recordRead 64 "P"
            (osSettings (devModeWith 2 9 0 0) { quiet with length := 2 } [1, 9])).PaperSize
            < 2 * papersCount 64 "P" "LPT1"
                (osSettings (devModeWith 2 9 0 0) { quiet with length := 2 } [1, 9])
       then int16 (recordRead 64 "P"
            (osSettings (devModeWith 2 9 0 0) { quiet with length := 2 } [1, 9])).PaperSize
       else (((papersBuffer 64 "P" "LPT1"
            (osSettings (devModeWith 2 9 0 0) { quiet with length := 2 } [1, 9])).getD 0 0
              : Nat) : Int)) :=
  ⟨Or.inr rfl, by rfl, by rfl,
   (((paper_size_index_scan 64 (Or.inr rfl) "P" "LPT1"
      (osSettings (devModeWith 2 9 0 0) { quiet with length := 2 } [1, 9])).1
      [1, -50, -50, -50, -50, -50, -50, -50, -50] (by rfl) (by decide)).1 rfl (by decide))⟩

/-- C2, the code at two failing inputs.  (a) The record holds paper size 9 and
the enumerated paper list is 1, 9: the value 9 is in the list, yet entry 0 is
1, the first entry, because 9 is not among the indices 0..3 of the buffer.
(b) The record holds paper size 1 and the enumerated paper list is 9: the
value 1 is not in the list, yet entry 0 stays 1 instead of the first entry 9,
because 1 is among the indices 0..1 of the buffer. -/
theorem paper_size_value_scan_fails :
    (GetDefaultSettings 64 "P" "LPT1").result
        (osSettings (devModeWith 2 9 0 0) { quiet with length := 2 } [1, 9])
      = Except.ok (some [1, -50, -50, -50, -50, -50, -50, -50, -50], none) ∧
    (GetDefaultSettings 64 "P" "LPT1").result
        (osSettings (devModeWith 2 1 0 0) { quiet with length := 1 } [9])
      = Except.ok (some [1, -50, -50, -50, -50, -50, -50, -50, -50], none) :=
  ⟨by rfl, by rfl⟩

/-! ## Claims on error propagation -/

theorem issued_spec {α : Type} (m : Go α) (os : OS) (k : Nat) (c : Call) (r : Reply)
    (h : issued m os k = some (c, r)) :
    (m os []).2[k]? = some c ∧ r = os ((m os []).2.take k) c := by
  unfold issued Go.calls at h
  cases hk : (m os []).2[k]? with
  | none => rw [hk] at h; simp at h
  | some c1 =>
    rw [hk] at h
    simp only [Option.some.injEq, Prod.mk.injEq] at h
    obtain ⟨rfl, rfl⟩ := h
    exact ⟨rfl, rfl⟩

theorem issued_one (a c : Call) (os : OS) (k : Nat) (r : Reply)
    (h1 : [a][k]? = some c) (h2 : r = os ([a].take k) c) : c = a ∧ r = os [] a := by
  cases k with
  | zero =>
    simp only [List.getElem?_cons_zero, Option.some.injEq] at h1
    subst h1
    exact ⟨rfl, h2⟩
  | succ k => simp at h1

theorem issued_two (a b c : Call) (os : OS) (k : Nat) (r : Reply)
    (h1 : [a, b][k]? = some c) (h2 : r = os ([a, b].take k) c) :
    (c = a ∧ r = os [] a) ∨ (c = b ∧ r = os [a] b) := by
  cases k with
  | zero =>
    simp only [List.getElem?_cons_zero, Option.some.injEq] at h1
    subst h1
    exact Or.inl ⟨rfl, h2⟩
  | succ k =>
    cases k with
    | zero =>
      simp only [List.getElem?_cons_succ, List.getElem?_cons_zero, Option.some.injEq] at h1
      subst h1
      exact Or.inr ⟨rfl, h2⟩
    | succ k => simp at h1

theorem twoCallRun_surfaces {α : Type} (w : Nat) (m : Go (α × Option Errno)) (empty : α)
    (minLen : Nat) (first : Call) (again : Nat → Call)
    (decode : Nat → Reply → Go (α × Option Errno)) (os : OS)
    (hrun : m os [] = twoCallRun w empty minLen first again decode os)
    (hdec : ∀ k r tr, (decode k r os tr).2 = tr) :
    Surfaces m empty (fun _ => True) os := by
  intro k c r err hiss _ herr hne
  obtain ⟨h1, h2⟩ := issued_spec m os k c r hiss
  unfold Go.result
  rw [hrun] at h1 h2 ⊢
  unfold twoCallRun at h1 h2 ⊢
  simp only [] at h1 h2 ⊢
  by_cases c0 : (os [] first).err = none
  · rw [if_pos c0, hdec] at h1 h2
    obtain ⟨rfl, rfl⟩ := issued_one _ _ os k r h1 h2
    rw [c0] at herr; simp at herr
  · rw [if_neg c0] at h1 h2 ⊢
    by_cases c1 : (os [] first).err ≠ some ERROR_INSUFFICIENT_BUFFER
    · rw [if_pos c1] at h1 h2 ⊢
      obtain ⟨rfl, rfl⟩ := issued_one _ _ os k r h1 h2
      rw [herr]
    · rw [if_neg c1] at h1 h2 ⊢
      push_neg at c1
      by_cases c2 : ¬ ((uint32 (os [] first).needed : Int) < 2 ^ (w - 1))
      · rw [if_pos c2] at h1 h2
        obtain ⟨rfl, rfl⟩ := issued_one _ _ os k r h1 h2
        rw [c1] at herr
        simp only [Option.some.injEq] at herr
        exact absurd herr.symm hne
      · rw [if_neg c2] at h1 h2 ⊢
        by_cases c3 : uint32 (os [] first).needed = 0
        · rw [if_pos c3] at h1 h2
          obtain ⟨rfl, rfl⟩ := issued_one _ _ os k r h1 h2
          rw [c1] at herr
          simp only [Option.some.injEq] at herr
          exact absurd herr.symm hne
        · rw [if_neg c3] at h1 h2 ⊢
          by_cases c4 : (os [first] (again (uint32 (os [] first).needed))).err ≠ none
          · rw [if_pos c4] at h1 h2 ⊢
            rcases issued_two _ _ _ os k r h1 h2 with ⟨rfl, rfl⟩ | ⟨rfl, rfl⟩
            · rw [c1] at herr
              simp only [Option.some.injEq] at herr
              exact absurd herr.symm hne
            · rw [herr]
          · rw [if_neg c4, hdec] at h1 h2
            push_neg at c4
            rcases issued_two _ _ _ os k r h1 h2 with ⟨rfl, rfl⟩ | ⟨rfl, rfl⟩
            · rw [c1] at herr
              simp only [Option.some.injEq] at herr
              exact absurd herr.symm hne
            · rw [c4] at herr; simp at herr

theorem capRun_surfaces {β : Type} (w : Nat) (printerName port : String) (cap : Nat)
    (bufLen : Int → Int) (k0 : Nat) (decode : Int → Reply → Go (Option (List β) × Option Errno))
    (m : Go (Option (List β) × Option Errno)) (os : OS)
    (hrun : m os [] = capRun w printerName port cap bufLen k0 decode os)
    (hdec : ∀ n r tr, (decode n r os tr).2 = tr) :
    Surfaces m none (fun _ => True) os := by
  intro k c r err hiss _ herr hne
  obtain ⟨h1, h2⟩ := issued_spec m os k c r hiss
  unfold Go.result
  rw [hrun] at h1 h2 ⊢
  unfold capRun at h1 h2 ⊢
  simp only [] at h1 h2 ⊢
  by_cases c0 : hasNul printerName ∨ hasNul port
  · rw [if_pos c0] at h1
    simp at h1
  · rw [if_neg c0] at h1 h2 ⊢
    by_cases c1 : (os [] (probeCall printerName port cap)).err ≠ none ∨
        int w (uint32 (os [] (probeCall printerName port cap)).length) ≤ 0
    · rw [if_pos c1] at h1 h2 ⊢
      obtain ⟨rfl, rfl⟩ := issued_one _ _ os k r h1 h2
      rw [herr]
    · rw [if_neg c1] at h1 h2 ⊢
      push_neg at c1
      by_cases c2 : ¬ (0 ≤ bufLen (int w (uint32 (os [] (probeCall printerName port cap)).length))
          ∧ bufLen (int w (uint32 (os [] (probeCall printerName port cap)).length)) < 2 ^ (w - 1))
      · rw [if_pos c2] at h1 h2
        obtain ⟨rfl, rfl⟩ := issued_one _ _ os k r h1 h2
        rw [c1.1] at herr; simp at herr
      · rw [if_neg c2] at h1 h2 ⊢
        by_cases c3 : (bufLen (int w (uint32
            (os [] (probeCall printerName port cap)).length))).toNat = 0
        · rw [if_pos c3] at h1 h2
          obtain ⟨rfl, rfl⟩ := issued_one _ _ os k r h1 h2
          rw [c1.1] at herr; simp at herr
        · rw [if_neg c3] at h1 h2 ⊢
          by_cases c4 : (os [probeCall printerName port cap] (fillCall printerName port cap
              (k0 * (bufLen (int w (uint32
                (os [] (probeCall printerName port cap)).length))).toNat))).err ≠ none
          · rw [if_pos c4] at h1 h2 ⊢
            rcases issued_two _ _ _ os k r h1 h2 with ⟨rfl, rfl⟩ | ⟨rfl, rfl⟩
            · rw [c1.1] at herr; simp at herr
            · rw [herr]
          · rw [if_neg c4, hdec] at h1 h2
            push_neg at c4
            rcases issued_two _ _ _ os k r h1 h2 with ⟨rfl, rfl⟩ | ⟨rfl, rfl⟩
            · rw [c1.1] at herr; simp at herr
            · rw [c4] at herr; simp at herr

theorem bind_calls {α β : Type} (m : Go α) (f : α → Go β) (hm : Silent m)
    (hf : ∀ a, Silent (f a)) : Silent (m >>= f) := by
  intro os tr
  simp only [bind_run]
  have h1 := hm os tr
  rcases hx : m os tr with ⟨res, tr1⟩
  rw [hx] at h1
  simp only at h1
  subst h1
  cases res with
  | error p => rfl
  | ok a => exact hf a os tr1

theorem pure_calls {α : Type} (a : α) : Silent (pure a : Go α) := fun _ _ => rfl

theorem store_calls {α : Type} (b : List α) (i : Int) (v : α) : Silent (store b i v) := by
  intro os tr; rw [store_run]; split <;> rfl

theorem slice_calls {α : Type} (b : List α) (lo hi : Int) : Silent (slice b lo hi) := by
  intro os tr; rw [slice_run]; split <;> rfl

theorem makeInts_calls (w : Nat) (n : Int) : Silent (makeInts w n) := by
  intro os tr; rw [makeInts_run]; split <;> rfl

theorem forEach_silent {α σ : Type} (body : α → σ → Go σ) (hb : ∀ x s, Silent (body x s))
    (xs : List α) (s : σ) : Silent (forEach xs body s) :=
  fun os tr => forEach_calls body (fun x s os tr => hb x s os tr) xs s os tr

theorem issued_prefix (pre rest : List Call) (os : OS) (k : Nat) (c : Call) (r : Reply)
    (h1 : (pre ++ rest)[k]? = some c) (h2 : r = os ((pre ++ rest).take k) c) :
    (pre[k]? = some c ∧ r = os (pre.take k) c) ∨ c ∈ rest := by
  by_cases hk : k < pre.length
  · left
    rw [List.getElem?_append_left hk] at h1
    refine ⟨h1, ?_⟩
    rw [h2, List.take_append_of_le_length (le_of_lt hk)]
  · right
    rw [List.getElem?_append_right (by omega)] at h1
    exact List.getElem?_mem h1

theorem issued_three (a b d c : Call) (os : OS) (k : Nat) (r : Reply)
    (h1 : [a, b, d][k]? = some c) (h2 : r = os ([a, b, d].take k) c) :
    (c = a ∧ r = os [] a) ∨ (c = b ∧ r = os [a] b) ∨ (c = d ∧ r = os [a, b] d) := by
  cases k with
  | zero =>
    simp only [List.getElem?_cons_zero, Option.some.injEq] at h1
    subst h1
    exact Or.inl ⟨rfl, h2⟩
  | succ k =>
    cases k with
    | zero =>
      simp only [List.getElem?_cons_succ, List.getElem?_cons_zero, Option.some.injEq] at h1
      subst h1
      exact Or.inr (Or.inl ⟨rfl, h2⟩)
    | succ k =>
      cases k with
      | zero =>
        simp only [List.getElem?_cons_succ, List.getElem?_cons_zero, Option.some.injEq] at h1
        subst h1
        exact Or.inr (Or.inr ⟨rfl, h2⟩)
      | succ k => simp at h1

theorem paperRun_calls (w : Nat) (printerName port : String) (pDevMode : DEVICE_MODE)
    (entry0 : Int) (os : OS) (tr : List Call) :
    ∃ X, (paperRun w printerName port pDevMode entry0 os tr).2 = tr ++ X ∧
      ∀ c ∈ X, ¬ isOpenOrDocProps c := by
  have hprobe : ¬ isOpenOrDocProps (probeCall printerName port DC_PAPERS) := fun h => h
  have hfill : ∀ b, ¬ isOpenOrDocProps (fillCall printerName port DC_PAPERS b) :=
    fun _ h => h
  unfold paperRun
  simp only []
  split
  · exact ⟨[], by simp, by simp⟩
  · split
    · exact ⟨[], by simp, by simp⟩
    · split
      · exact ⟨[_], rfl, by simpa using hprobe⟩
      · split
        · exact ⟨[_], rfl, by simpa using hprobe⟩
        · split
          · exact ⟨[_], rfl, by simpa using hprobe⟩
          · split
            · exact ⟨[_, _], rfl, by
                intro c hc
                simp only [List.mem_cons, List.mem_singleton, List.not_mem_nil, or_false] at hc
                rcases hc with rfl | rfl
                · exact hprobe
                · exact hfill _⟩
            · exact ⟨[_, _], rfl, by
                intro c hc
                simp only [List.mem_cons, List.mem_singleton, List.not_mem_nil, or_false] at hc
                rcases hc with rfl | rfl
                · exact hprobe
                · exact hfill _⟩

theorem settingsRun_surfaces (w : Nat) (printerName port : String)
    (m : Go (Option (List Int) × Option Errno)) (os : OS)
    (hrun : m os [] = settingsRun w printerName port os) :
    Surfaces m none isOpenOrDocProps os := by
  intro k c r err hiss hcov herr hne
  obtain ⟨h1, h2⟩ := issued_spec m os k c r hiss
  unfold Go.result
  rw [hrun] at h1 h2 ⊢
  unfold settingsRun at h1 h2 ⊢
  simp only [] at h1 h2 ⊢
  have hclose : ¬ isOpenOrDocProps (closeCall printerName os) := fun h => h
  by_cases c0 : hasNul printerName
  · rw [if_pos c0] at h1
    simp at h1
  · rw [if_neg c0] at h1 h2 ⊢
    by_cases c1 : (os [] (openCall printerName)).err ≠ none
    · rw [if_pos c1] at h1 h2 ⊢
      obtain ⟨rfl, rfl⟩ := issued_one _ _ os k r h1 h2
      rw [herr]
    · rw [if_neg c1] at h1 h2 ⊢
      push_neg at c1
      by_cases c2 : (os [openCall printerName] (sizeCall printerName os)).err ≠ none ∨
          neededOf w printerName os ≤ 0
      · rw [if_pos c2] at h1 h2 ⊢
        rcases issued_three _ _ _ _ os k r h1 h2 with ⟨rfl, rfl⟩ | ⟨rfl, rfl⟩ | ⟨rfl, rfl⟩
        · rw [c1] at herr; simp at herr
        · rw [herr]
        · exact absurd hcov hclose
      · rw [if_neg c2] at h1 h2 ⊢
        push_neg at c2
        by_cases c3 : (os [openCall printerName, sizeCall printerName os]
            (recordCall w printerName os)).err ≠ none
        · rw [if_pos c3] at h1 h2 ⊢
          rcases issued_prefix _ _ os k c r h1 h2 with ⟨h3, h4⟩ | hmem
          · rcases issued_three _ _ _ _ os k r h3 h4 with
              ⟨rfl, rfl⟩ | ⟨rfl, rfl⟩ | ⟨rfl, rfl⟩
            · rw [c1] at herr; simp at herr
            · rw [c2.1] at herr; simp at herr
            · rw [herr]
          · simp only [List.mem_singleton] at hmem
            subst hmem
            exact absurd hcov hclose
        · rw [if_neg c3] at h1 h2 ⊢
          push_neg at c3
          obtain ⟨X, hX, hXc⟩ := paperRun_calls w printerName port
            (recordRead w printerName os) GETDEFAULT_ERROR os (recordTrace w printerName os)
          rcases hp : paperRun w printerName port (recordRead w printerName os)
            GETDEFAULT_ERROR os (recordTrace w printerName os) with ⟨res, tr1⟩
          rw [hp] at hX h1 h2
          simp only at hX
          have hcs : ∀ cs : List Call, cs = tr1 ++ [closeCall printerName os] →
              cs[k]? = some c → r = os (cs.take k) c → False := by
            intro cs hcs h1 h2
            rw [hcs, hX, List.append_assoc] at h1 h2
            rcases issued_prefix _ _ os k c r h1 h2 with ⟨h3, h4⟩ | hmem
            · rcases issued_three _ _ _ _ os k r h3 h4 with
                ⟨rfl, rfl⟩ | ⟨rfl, rfl⟩ | ⟨rfl, rfl⟩
              · rw [c1] at herr; simp at herr
              · rw [c2.1] at herr; simp at herr
              · rw [c3] at herr; simp at herr
            · rw [List.mem_append] at hmem
              rcases hmem with hmem | hmem
              · exact hXc c hmem hcov
              · simp only [List.mem_singleton] at hmem
                subst hmem
                exact hclose hcov
          cases res with
          | error p => exact absurd (hcs _ rfl h1 h2) id
          | ok e => exact absurd (hcs _ rfl h1 h2) id


/-- C4 (as amended): every call issued by `Default`, `ReadNames`,
`GetPrinterPort`, `GetAllMediaNames`, `GetAllMediaSizes`, `GetAllMediaIDs` and
`GetAllResolutions`, and every `OpenPrinter` and `DocumentProperties` call
issued by `GetDefaultSettings`, that fails with an error other than
"insufficient buffer" makes the operation return that same error and no data.
Inside `GetDefaultSettings` a failure of the paper-ID probe is not returned:
the operation returns its list with the record's paper size as entry 0 and a
nil error. -/
theorem failures_surface (w : Nat) (hw : w = 32 ∨ w = 64) (printerName port : String)
    (os : OS) :
    Surfaces (Default w) "" (fun _ => True) os ∧
    Surfaces (ReadNames w) none (fun _ => True) os ∧
    Surfaces (GetPrinterPort w printerName) "" (fun _ => True) os ∧
    Surfaces (GetAllMediaNames w printerName port) none (fun _ => True) os ∧
    Surfaces (GetAllMediaSizes w printerName port) none (fun _ => True) os ∧
    Surfaces (GetAllMediaIDs w printerName port) none (fun _ => True) os ∧
    Surfaces (GetAllResolutions w printerName port) none (fun _ => True) os ∧
    Surfaces (GetDefaultSettings w printerName port) none isOpenOrDocProps os ∧
    (∀ err, ¬ hasNul printerName → ¬ hasNul port →
      (os [] (openCall printerName)).err = none →
      (os [openCall printerName] (sizeCall printerName os)).err = none →
      0 < neededOf w printerName os →
      (os [openCall printerName, sizeCall printerName os] (recordCall w printerName os)).err
        = none →
      hasField (recordRead w printerName os) DM_PAPERSIZE →
      (papersProbe w printerName port os).err = some err →
      ∃ l, (GetDefaultSettings w printerName port).result os = Except.ok (some l, none) ∧
        l.head? = some (int16 (recordRead w printerName os).PaperSize)) := by
  refine ⟨?_, ?_, ?_, ?_, ?_, ?_, ?_, ?_, ?_⟩
  · exact twoCallRun_surfaces w _ _ _ _ _ _ os (Default_run w hw os) (fun _ _ _ => rfl)
  · exact twoCallRun_surfaces w _ _ _ _ _ _ os (ReadNames_run w hw os)
      (fun _ r tr => readNamesDecode_calls r os tr)
  · exact twoCallRun_surfaces w _ _ _ _ _ _ os (GetPrinterPort_run w hw printerName os)
      (fun _ r tr => printerPortScan_calls printerName "LPT1" r os tr)
  · refine capRun_surfaces w printerName port _ _ _ _ _ os
      (GetAllMediaNames_run w printerName port os) ?_
    intro n r tr
    exact bind_calls _ _
      (forEach_silent _ (fun i names => bind_calls _ _ (slice_calls _ _ _)
        (fun _ => pure_calls _)) _ _)
      (fun _ => pure_calls _) os tr
  · refine capRun_surfaces w printerName port _ _ _ _ _ os
      (GetAllMediaSizes_run w printerName port os) ?_
    intro n r tr
    exact bind_calls _ _ (makeInts_calls _ _)
      (fun _ => bind_calls _ _
        (forEach_silent _ (fun im s => bind_calls _ _ (store_calls _ _ _)
          (fun _ => store_calls _ _ _)) _ _)
        (fun _ => pure_calls _)) os tr
  · refine capRun_surfaces w printerName port _ _ _ _ _ os
      (GetAllMediaIDs_run w printerName port os) ?_
    intro n r tr
    exact bind_calls _ _ (makeInts_calls _ _)
      (fun _ => bind_calls _ _
        (forEach_silent _ (fun im s => store_calls _ _ _) _ _)
        (fun _ => pure_calls _)) os tr
  · refine capRun_surfaces w printerName port _ _ _ _ _ os
      (GetAllResolutions_run w printerName port os) ?_
    intro n r tr
    exact bind_calls _ _ (makeInts_calls _ _)
      (fun _ => bind_calls _ _
        (forEach_silent _ (fun im s => store_calls _ _ _) _ _)
        (fun _ => pure_calls _)) os tr
  · exact settingsRun_surfaces w printerName port _ os
      (GetDefaultSettings_run w hw printerName port os)
  · intro err h0 h1 ho hs hn hr hb hperr
    have hprobe : (os (recordTrace w printerName os) (probeCall printerName port DC_PAPERS)).err
        = some err := hperr
    have hrun : paperRun w printerName port (recordRead w printerName os) GETDEFAULT_ERROR os
        (recordTrace w printerName os)
        = (Except.ok (int w (int16 (recordRead w printerName os).PaperSize)),
            recordTrace w printerName os ++ [probeCall printerName port DC_PAPERS]) := by
      unfold paperRun
      simp only []
      have c0 : ¬ (hasNul printerName ∨ hasNul port) := by push_neg; exact ⟨h0, h1⟩
      have c1 : ¬ ((os (recordTrace w printerName os)
          (probeCall printerName port DC_PAPERS)).err = none ∧
          int w (uint32 (os (recordTrace w printerName os)
            (probeCall printerName port DC_PAPERS)).length) > 0) := by
        rw [hprobe]; simp
      rw [if_neg (not_not.mpr hb), if_neg c0, if_pos c1]
    refine ⟨settingsList w (recordRead w printerName os)
      (int16 (recordRead w printerName os).PaperSize), ?_, rfl⟩
    rw [Go.result, GetDefaultSettings_run w hw]
    unfold settingsRun
    simp only []
    have c1 : ¬ (os [] (openCall printerName)).err ≠ none := not_not.mpr ho
    have c2 : ¬ ((os [openCall printerName] (sizeCall printerName os)).err ≠ none ∨
        neededOf w printerName os ≤ 0) := by push_neg; exact ⟨hs, hn⟩
    have c3 : ¬ (os [openCall printerName, sizeCall printerName os]
        (recordCall w printerName os)).err ≠ none := not_not.mpr hr
    rw [if_neg h0, if_neg c1, if_neg c2, if_neg c3, hrun, int_int16 w hw]

/-- Witness for C4: a `GetDefaultPrinter` call that fails with error 5 makes
`Default` return error 5 and the empty string. -/
theorem failures_surface_witness :
    (64 = 32 ∨ 64 = 64) ∧
    issued (Default 64) (fun _ _ => { quiet with err := some 5 }) 0
      = some (Call.GetDefaultPrinter 6 3, { quiet with err := some 5 }) ∧
    (Default 64).result (fun _ _ => { quiet with err := some 5 }) = Except.ok ("", some 5) :=
  ⟨Or.inr rfl, rfl,
   (failures_surface 64 (Or.inr rfl) "P" "LPT1" (fun _ _ => { quiet with err := some 5 })).1
     0 (Call.GetDefaultPrinter 6 3) { quiet with err := some 5 } 5 rfl trivial rfl
     (by decide)⟩

/-- C4 fails as stated: in `GetDefaultSettings` the fourth call, the paper-ID
probe, fails with error 5 (not "insufficient buffer"), and the operation
returns a list with a nil error. -/
theorem probe_failure_dropped_counterexample :
    (∃ r, issued (GetDefaultSettings 64 "P" "LPT1") osProbeFails 3
        = some (probeCall "P" "LPT1" DC_PAPERS, r) ∧ r.err = some 5) ∧
    (GetDefaultSettings 64 "P" "LPT1").result osProbeFails
      = Except.ok (some [9, -50, -50, -50, -50, -50, -50, -50, -50], none) :=
  ⟨⟨{ quiet with err := some 5 }, by rfl, rfl⟩, by rfl⟩

/-! ## What the size guard and the resolution buffer do on each platform -/

theorem capRun_no_data {β : Type} (w : Nat) (printerName port : String) (cap : Nat)
    (bufLen : Int → Int) (k : Nat) (decode : Int → Reply → Go (Option (List β) × Option Errno))
    (os : OS) (h0 : ¬ hasNul printerName) (h1 : ¬ hasNul port)
    (he : (os [] (probeCall printerName port cap)).err = none)
    (hn : probed w printerName port cap os ≤ 0) :
    capRun w printerName port cap bufLen k decode os
      = (Except.ok (none, none), [probeCall printerName port cap]) := by
  unfold capRun
  simp only []
  have c0 : ¬ (hasNul printerName ∨ hasNul port) := by push_neg; exact ⟨h0, h1⟩
  have c1 : (os [] (probeCall printerName port cap)).err ≠ none ∨
      int w (uint32 (os [] (probeCall printerName port cap)).length) ≤ 0 := Or.inr hn
  rw [if_neg c0, if_pos c1, he]

/-- A capability query whose probe returns without error and whose count, as
the `int` the code compares, is zero or negative returns a nil list and a nil
error after the probe alone; so does `GetDefaultSettings` for the size probe
of `DocumentProperties`.  Where `int` has 32 bits the count is the OS's signed
32-bit result, so there a result of -1 is "no data". -/
theorem no_data_on_nonpositive_count (w : Nat) (hw : w = 32 ∨ w = 64)
    (printerName port : String) (os : OS) (h0 : ¬ hasNul printerName) (h1 : ¬ hasNul port) :
    ((os [] (probeCall printerName port DC_PAPERNAMES)).err = none →
      probed w printerName port DC_PAPERNAMES os ≤ 0 →
      (GetAllMediaNames w printerName port).result os = Except.ok (none, none) ∧
      (GetAllMediaNames w printerName port).calls os
        = [probeCall printerName port DC_PAPERNAMES]) ∧
    ((os [] (probeCall printerName port DC_PAPERSIZE)).err = none →
      probed w printerName port DC_PAPERSIZE os ≤ 0 →
      (GetAllMediaSizes w printerName port).result os = Except.ok (none, none) ∧
      (GetAllMediaSizes w printerName port).calls os
        = [probeCall printerName port DC_PAPERSIZE]) ∧
    ((os [] (probeCall printerName port DC_PAPERS)).err = none →
      probed w printerName port DC_PAPERS os ≤ 0 →
      (GetAllMediaIDs w printerName port).result os = Except.ok (none, none) ∧
      (GetAllMediaIDs w printerName port).calls os
        = [probeCall printerName port DC_PAPERS]) ∧
    ((os [] (probeCall printerName port DC_ENUMRESOLUTIONS)).err = none →
      probed w printerName port DC_ENUMRESOLUTIONS os ≤ 0 →
      (GetAllResolutions w printerName port).result os = Except.ok (none, none) ∧
      (GetAllResolutions w printerName port).calls os
        = [probeCall printerName port DC_ENUMRESOLUTIONS]) ∧
    ((os [] (openCall printerName)).err = none →
      (os [openCall printerName] (sizeCall printerName os)).err = none →
      neededOf w printerName os ≤ 0 →
      (GetDefaultSettings w printerName port).result os = Except.ok (none, none) ∧
      (GetDefaultSettings w printerName port).calls os
        = [openCall printerName, sizeCall printerName os, closeCall printerName os]) ∧
    (∀ cap, probed 32 printerName port cap os
      = int32 (uint32 (os [] (probeCall printerName port cap)).length)) ∧
    neededOf w printerName os
      = int32 (os [openCall printerName] (sizeCall printerName os)).length := by
  refine ⟨?_, ?_, ?_, ?_, ?_, fun _ => rfl, int_int32 w hw _⟩
  · intro he hn
    rw [Go.result, Go.calls, GetAllMediaNames_run, capRun_no_data w _ _ _ _ _ _ os h0 h1 he hn]
    exact ⟨rfl, rfl⟩
  · intro he hn
    rw [Go.result, Go.calls, GetAllMediaSizes_run, capRun_no_data w _ _ _ _ _ _ os h0 h1 he hn]
    exact ⟨rfl, rfl⟩
  · intro he hn
    rw [Go.result, Go.calls, GetAllMediaIDs_run, capRun_no_data w _ _ _ _ _ _ os h0 h1 he hn]
    exact ⟨rfl, rfl⟩
  · intro he hn
    rw [Go.result, Go.calls, GetAllResolutions_run,
      capRun_no_data w _ _ _ _ _ _ os h0 h1 he hn]
    exact ⟨rfl, rfl⟩
  · intro ho hs hn
    rw [Go.result, Go.calls, GetDefaultSettings_run w hw]
    unfold settingsRun
    simp only []
    have c1 : ¬ (os [] (openCall printerName)).err ≠ none := not_not.mpr ho
    have c2 : (os [openCall printerName] (sizeCall printerName os)).err ≠ none ∨
        neededOf w printerName os ≤ 0 := Or.inr hn
    rw [if_neg h0, if_neg c1, if_pos c2, hs]
    exact ⟨rfl, rfl⟩

theorem cells_memOf (k : Nat) (xs : List Nat) :
    cells k xs.length (memOf k xs) = xs.map (fun x => x % 256 ^ k) := by
  induction xs with
  | nil => rfl
  | cons x xs ih =>
    have e : memOf k (x :: xs) = leBytes k x ++ memOf k xs := by simp [memOf]
    simp only [List.length_cons, cells, e, List.take_left' (leBytes_length k x),
      List.drop_left' (leBytes_length k x), leValue_leBytes, ih, List.map_cons]

theorem memOf_length (k : Nat) (xs : List Nat) : (memOf k xs).length = k * xs.length := by
  induction xs with
  | nil => rfl
  | cons x xs ih =>
    have e : memOf k (x :: xs) = leBytes k x ++ memOf k xs := by simp [memOf]
    rw [e, List.length_append, leBytes_length, ih, List.length_cons]
    ring

theorem memOf_pairs (pts : List Point) :
    memOf 4 (pts.flatMap (fun p => [p.X, p.Y])) = pointMem pts := by
  induction pts with
  | nil => rfl
  | cons p ps ih =>
    simp only [memOf, pointMem, List.flatMap_cons, List.flatMap_append, List.flatMap_nil,
      List.append_nil, List.cons_append, List.nil_append, List.append_assoc] at ih ⊢
    rw [ih]

/-- Where `uint` has 32 bits, a successful `GetAllResolutions` call whose fill
call writes `n` packed (X, Y) pairs of 32-bit values returns X0, Y0, X1, Y1,
..., each value read as a signed 32-bit integer. -/
theorem resolutions_pairs_on_32 (w : Nat) (h32 : w = 32) (printerName port : String)
    (os : OS) (pts : List Point) (l : List Int)
    (hok : (GetAllResolutions w printerName port).result os = Except.ok (some l, none))
    (hn : (pts.length : Int) = probed w printerName port DC_ENUMRESOLUTIONS os)
    (hpts : ∀ p ∈ pts, p.X < 4294967296 ∧ p.Y < 4294967296)
    (hout : filled printerName port DC_ENUMRESOLUTIONS (4 * (2 * pts.length)) os
      = pointMem pts) :
    l = pts.flatMap (fun p => [int w p.X, int w p.Y]) := by
  have hw : w = 32 ∨ w = 64 := Or.inl h32
  have h48 : w / 8 = 4 := by rw [h32]
  rw [Go.result, GetAllResolutions_run] at hok
  obtain ⟨-, -, -, hpos, hb0, hb1, -, hdec⟩ := capRun_ok w _ _ _ _ _ _ os l hok
  rw [h48] at hdec
  unfold probed at hn
  have hlt := int_lt w hw (uint32 (os [] (probeCall printerName port DC_ENUMRESOLUTIONS)).length)
  generalize int w (uint32 (os [] (probeCall printerName port DC_ENUMRESOLUTIONS)).length) = n
    at hn hpos hb0 hb1 hdec hlt
  have he : int w (n * 2) = n * 2 :=
    int_nonneg_eq w hw (n * 2) (by omega) (by rw [pow_eq_double w hw]; omega) (le_of_lt hb0)
  have hl2 : ∀ ps : List Point, (ps.flatMap (fun p => [p.X, p.Y])).length = 2 * ps.length := by
    intro ps
    induction ps with
    | nil => rfl
    | cons p ps ih =>
      rw [List.flatMap_cons, List.length_append, ih, List.length_cons, List.length_cons,
        List.length_cons, List.length_nil]
      omega
  have hnat : (int w (n * 2)).toNat = (pts.flatMap (fun p => [p.X, p.Y])).length := by
    rw [he, hl2]; omega
  have hbytes : 4 * (int w (n * 2)).toNat = 4 * (2 * pts.length) := by
    rw [hnat, hl2]
  rw [hbytes] at hdec
  unfold filled at hout
  rw [hout] at hdec
  have hd := store_decode w 4 (int w (n * 2)) (le_of_lt hb0) hb1 (pointMem pts) os
    [probeCall printerName port DC_ENUMRESOLUTIONS,
      fillCall printerName port DC_ENUMRESOLUTIONS (4 * (2 * pts.length))]
  have hdec1 : (Except.ok (some ((osWrite 4 (List.replicate (int w (n * 2)).toNat 0)
      (pointMem pts)).map (fun x : Nat => int w x)), none)
      : Except Panic (Option (List Int) × Option Errno)) = Except.ok (some l, none) := by
    rw [← hdec]
    exact (congrArg Prod.fst hd).symm
  have hl : l = (osWrite 4 (List.replicate (int w (n * 2)).toNat 0)
      (pointMem pts)).map (fun x : Nat => int w x) := by
    injection hdec1 with h1
    injection h1 with h2 _
    injection h2 with h3
    exact h3.symm
  have hwr : osWrite 4 (List.replicate (int w (n * 2)).toNat 0) (pointMem pts)
      = (pts.flatMap (fun p => [p.X, p.Y])).map (fun x => x % 256 ^ 4) := by
    unfold osWrite
    rw [overlay_full _ _
      (by rw [memOf_length, List.length_replicate, pointMem_length, hnat, hl2]; ring)
      (pointMem_lt pts)]
    rw [List.length_replicate, hnat, ← memOf_pairs, cells_memOf]
  rw [hl, hwr, List.map_map]
  clear hl hwr hd hdec hdec1 hok hout hbytes hnat he hlt hn hpos hb0 hb1
  induction pts with
  | nil => rfl
  | cons p ps ih =>
    have hp := hpts p (List.mem_cons_self _ _)
    have hx : p.X % 256 ^ 4 = p.X := Nat.mod_eq_of_lt (by norm_num; exact hp.1)
    have hy : p.Y % 256 ^ 4 = p.Y := Nat.mod_eq_of_lt (by norm_num; exact hp.2)
    rw [List.flatMap_cons, List.flatMap_cons, List.map_append,
      ih (fun q hq => hpts q (List.mem_cons_of_mem _ hq))]
    simp only [List.map_cons, List.map_nil, Function.comp, hx, hy]

end Printer
